import Mathlib

/-!
# Catapult FPGA driver: slot resource manager

A shallow embedding of the slot bookkeeping of the Catapult driver
(`drivers/catapult/catapult-ioctl.c`, `drivers/catapult/catapult-drv.c`) and
theorems about it.

Conventions of the embedding:

* the slot bitmap `slot_map` is a map from bit number to bit value and the
  owner table `slot_map_pids` a map from index to `pid_t`; the device keeps
  `number_of_slots` next to them, exactly as `struct catapult_device` does;
* `uint32_t`/`unsigned long` values are natural numbers, `long`/`pid_t` values
  integers; a truncation is written `% 2 ^ 32` where the C code narrows;
* the outcome of every call into the environment (taking the mutex
  interruptibly, `copy_from_user`, `copy_to_user`, `kzalloc`) is an explicit
  argument of the request that makes the call, carrying the value the kernel
  primitive returned;
* `task_tgid_nr(current)` is the argument `current`.
-/

namespace Catapult

/-! ## Constants -/

/-- Interrupted system call (`errno-base.h`). -/
def EINTR : Int := 4
/-- Out of memory. -/
def ENOMEM : Int := 12
/-- Permission denied. -/
def EACCES : Int := 13
/-- Bad address. -/
def EFAULT : Int := 14
/-- Device or resource busy. -/
def EBUSY : Int := 16
/-- Invalid argument. -/
def EINVAL : Int := 22
/-- No space left on device. -/
def ENOSPC : Int := 28

/-- Lower bound on the slot count, `catapult.h`. -/
def MIN_FPGA_NUM_SLOTS : Nat := 2
/-- Upper bound on the slot count, `catapult.h`. -/
def MAX_FPGA_NUM_SLOTS : Nat := 256
/-- Default and compiled-in slot count, `catapult-drv.h`. -/
def SLOT_COUNT : Nat := 0x40
/-- Default slot size, `catapult-drv.h`. -/
def BYTES_PER_SLOT : Nat := 1024 * 1024

/-- The `enum catapult_slot_range_type` value `CATAPULT_SLOT_RANGE_INVALID`. -/
def CATAPULT_SLOT_RANGE_INVALID : Nat := 0
/-- The `enum catapult_slot_range_type` value `CATAPULT_SLOT_RANGE_CONTIGUOUS`. -/
def CATAPULT_SLOT_RANGE_CONTIGUOUS : Nat := 1
/-- The `enum catapult_slot_range_type` value `CATAPULT_SLOT_RANGE_DISCONTIGUOUS`. -/
def CATAPULT_SLOT_RANGE_DISCONTIGUOUS : Nat := 2

/-- Operation not permitted. -/
def EPERM : Int := 1
/-- Try again; `EWOULDBLOCK` is the same number. -/
def EAGAIN : Int := 11
/-- The kernel defines `EWOULDBLOCK` as `EAGAIN`. -/
def EWOULDBLOCK : Int := EAGAIN
/-- Connection timed out. -/
def ETIMEDOUT : Int := 110
/-- Kernel-internal: restart the system call (an interrupted wait). -/
def ERESTARTSYS : Int := 512

/-- The largest `unsigned int`. -/
def UINT_MAX : Nat := 2 ^ 32 - 1

/-- The `irqreturn_t` value `IRQ_NONE`. -/
def IRQ_NONE : Nat := 0
/-- The `irqreturn_t` value `IRQ_HANDLED`. -/
def IRQ_HANDLED : Nat := 1

/-! Interpretation addresses and soft-register constants, `catapult-shell.h`. -/

/-- Interpretation address 0 (repurposed). -/
def INTER_ADDR_FULL_STATUS_REG : Nat := 0
/-- Interpretation address 1 (repurposed). -/
def INTER_ADDR_DONE_STATUS_REG : Nat := 1
/-- Interpretation address 2 (repurposed). -/
def INTER_ADDR_PEND_STATUS_REG : Nat := 2
/-- Interpretation address 3. -/
def INTER_ADDR_GENERAL_PURPOSE_REG : Nat := 3
/-- Interpretation address 10. -/
def INTER_ADDR_ASMI_RSU : Nat := 10
/-- Interpretation address 12. -/
def INTER_ADDR_HACK_OVERRIDE_OUT_DATA_SIZE : Nat := 12
/-- Interpretation address 13. -/
def INTER_ADDR_ENABLE_DISABLE : Nat := 13
/-- Interpretation address 14. -/
def INTER_ADDR_INTERRUPT : Nat := 14
/-- Interpretation address 15. -/
def INTER_ADDR_DMA_DESCRIPTORS_AND_RESERVED : Nat := 15
/-- Repurposed interpretation address of the 64-bit soft register interface. -/
def INTER_ADDR_SOFT_REG : Nat := 8
/-- First soft register of the slot DMA block. -/
def SOFT_REG_SLOT_DMA_BASE_ADDR : Nat := 0x7E00

/-- Offset of the interrupt status register inside the interrupt feature. -/
def DFH_FEATURE_INTERRUPT_STATUS_REG_OFFSET : Nat := 0x20

/-! ## Kernel bitmap primitives

These live in the kernel's `lib/` and `include/linux/`, outside the driver
sources, and are modelled by their documented behaviour. -/

/-- Modelled from the spec: the kernel primitive `test_bit(nr, addr)`
(`include/linux/bitops.h`, not part of the driver sources): the value of bit
`nr` of the bitmap. -/
def test_bit (nr : Nat) (addr : Nat → Bool) : Bool := addr nr

/-- Modelled from the spec: the kernel primitive `set_bit(nr, addr)`: bit `nr`
becomes 1, every other bit keeps its value. -/
def set_bit (nr : Nat) (addr : Nat → Bool) : Nat → Bool :=
  fun j => if j = nr then true else addr j

/-- Modelled from the spec: the kernel primitive `clear_bit(nr, addr)`: bit
`nr` becomes 0, every other bit keeps its value. -/
def clear_bit (nr : Nat) (addr : Nat → Bool) : Nat → Bool :=
  fun j => if j = nr then false else addr j

/-- Modelled from the spec: the kernel primitive `bitmap_zero(dst, nbits)` on a
freshly allocated bitmap: every bit of the allocation is 0. -/
def bitmap_zero (_nbits : Nat) : Nat → Bool := fun _ => false

/-- Scan of `find_next_bit`: `cnt` positions starting at `i`. -/
def find_next_bit_scan (addr : Nat → Bool) (size : Nat) : Nat → Nat → Nat
  | 0, _ => size
  | cnt + 1, i => if test_bit i addr then i else find_next_bit_scan addr size cnt (i + 1)

/-- Modelled from the spec: the kernel primitive
`find_next_bit(addr, size, offset)` (`lib/find_bit.c`): the number of the first
set bit at or after `offset` and below `size`, or `size` when there is none. -/
def find_next_bit (addr : Nat → Bool) (size offset : Nat) : Nat :=
  find_next_bit_scan addr size (size - offset) offset

/-- Scan of `find_next_zero_bit`: `cnt` positions starting at `i`. -/
def find_next_zero_bit_scan (addr : Nat → Bool) (size : Nat) : Nat → Nat → Nat
  | 0, _ => size
  | cnt + 1, i =>
    if test_bit i addr then find_next_zero_bit_scan addr size cnt (i + 1) else i

/-- Modelled from the spec: the kernel primitive
`find_next_zero_bit(addr, size, offset)` (`lib/find_bit.c`): the number of the
first clear bit at or after `offset` and below `size`, or `size` when there is
none. -/
def find_next_zero_bit (addr : Nat → Bool) (size offset : Nat) : Nat :=
  find_next_zero_bit_scan addr size (size - offset) offset

/-- The kernel's `__ALIGN_MASK(x, mask)` on `unsigned long`:
`(x + mask) & ~mask`. -/
def ALIGN_MASK (x mask : Nat) : Nat :=
  ((x + mask) % 2 ^ 64) &&& (2 ^ 64 - 1 - mask % 2 ^ 64)

/-- The `again:` loop of `bitmap_find_next_zero_area_off`. Every retry restarts
strictly above the previous start and at most at `size`, so `size + 1 - start`
retries are the most the loop can take; the pass that is left when the counter
is used up starts above `size` and returns its `index + nr` without a retry. -/
def bitmap_find_next_zero_area_off_loop (map : Nat → Bool)
    (size nr align_mask align_offset : Nat) : Nat → Nat → Nat
  | 0, start =>
    let index := find_next_zero_bit map size start
    let index := ALIGN_MASK (index + align_offset) align_mask - align_offset
    index + nr
  | fuel + 1, start =>
    let index := find_next_zero_bit map size start
    let index := ALIGN_MASK (index + align_offset) align_mask - align_offset
    let end_ := index + nr
    if end_ > size then end_
    else
      let i := find_next_bit map end_ index
      if i < end_ then
        bitmap_find_next_zero_area_off_loop map size nr align_mask align_offset fuel (i + 1)
      else index

/-- Modelled from the spec: the kernel primitive
`bitmap_find_next_zero_area(map, size, start, nr, align_mask)`
(`lib/bitmap.c`, not part of the driver sources): the start of the first run of
`nr` clear bits at or after `start` that ends within `size` and is aligned as
`align_mask` asks, or a value above `size` when there is none. -/
def bitmap_find_next_zero_area (map : Nat → Bool) (size start nr align_mask : Nat) : Nat :=
  bitmap_find_next_zero_area_off_loop map size nr align_mask 0 (size + 1 - start) start

/-! ## Data model -/

/-- One access to the memory-mapped register space, at a byte offset from the
start of the BAR. -/
inductive mmio_access where
  /-- A 32-bit read (`readl`). -/
  | readl (offset : Nat)
  /-- A 64-bit read (`readq`). -/
  | readq (offset : Nat)
  /-- A 32-bit write (`writel`). -/
  | writel (offset value : Nat)
  /-- A 64-bit write (`writeq`). -/
  | writeq (offset value : Nat)
deriving DecidableEq, Repr

/-- The register space behind `volatile void __iomem *registers`: what the
device answers to a 32-bit and to a 64-bit read at each byte offset, and the
accesses the driver has made so far, oldest first. What a write does to later
reads is the device's business and is not modelled; the write itself is
recorded in `accesses`. -/
structure register_space where
  /-- The answer to a 32-bit read at an offset. -/
  content32 : Nat → Nat
  /-- The answer to a 64-bit read at an offset. -/
  content64 : Nat → Nat
  /-- The accesses made so far. -/
  accesses : List mmio_access

/-- The kernel's `struct completion`: the counter `done` (an `unsigned int`);
the wait queue belongs to the scheduler and is not modelled. A completion is
signalled when `done` is not 0. -/
structure completion where
  /-- The field `done`. -/
  done : Nat
deriving DecidableEq, Repr

/-- The fields of `struct catapult_device` (`catapult-drv.h`) that the slot
bookkeeping, the completions, the register accesses, the feature discovery and
the DMA buffer pool use. The slot requests run once `catapult_dma_init` has
initialised the completions and `catapult_slot_map_init` has allocated the
bitmap and the owner table. -/
structure catapult_device where
  /-- The `uint32_t number_of_slots`. -/
  number_of_slots : Nat
  /-- The `uint32_t bytes_per_slot`. -/
  bytes_per_slot : Nat
  /-- The `unsigned long *slot_map`, bit by bit. -/
  slot_map : Nat → Bool
  /-- The `pid_t *slot_map_pids`, entry by entry. -/
  slot_map_pids : Nat → Int
  /-- The pointer `registers` as a number; 0 is `NULL` (BAR not mapped). -/
  registers_base : Nat := 0
  /-- The register space `registers` points to. -/
  registers : register_space :=
    { content32 := fun _ => 0, content64 := fun _ => 0, accesses := [] }
  /-- The `size_t registers_cb`, the length of the BAR in bytes. -/
  registers_cb : Nat := 0
  /-- The `uint32_t interrupt_feature_offset`; 0 when the shell has no
  interrupt feature. -/
  interrupt_feature_offset : Nat := 0
  /-- The array `event_obj`, entry by entry. -/
  event_obj : Nat → completion := fun _ => { done := 0 }
  /-- The `bool avoid_hip1_access`. -/
  avoid_hip1_access : Bool := false
  /-- The `uint32_t dma_input_len`. -/
  dma_input_len : Nat := 0
  /-- The array `dma_input_kernel_addr`, entry by entry; 0 is `NULL`. -/
  dma_input_kernel_addr : Nat → Nat := fun _ => 0
  /-- The array `dma_input_dma_addr` of device-visible addresses. -/
  dma_input_dma_addr : Nat → Nat := fun _ => 0
  /-- The `uint32_t dma_output_len`. -/
  dma_output_len : Nat := 0
  /-- The array `dma_output_kernel_addr`, entry by entry; 0 is `NULL`. -/
  dma_output_kernel_addr : Nat → Nat := fun _ => 0
  /-- The array `dma_output_dma_addr` of device-visible addresses. -/
  dma_output_dma_addr : Nat → Nat := fun _ => 0
  /-- The `uint32_t dma_control_len`. -/
  dma_control_len : Nat := 0
  /-- The pointer `dma_control_kernel_addr`; 0 is `NULL`. -/
  dma_control_kernel_addr : Nat := 0
  /-- The device-visible address `dma_control_dma_addr`. -/
  dma_control_dma_addr : Nat := 0
  /-- The `uint32_t dma_result_len`. -/
  dma_result_len : Nat := 0
  /-- The pointer `dma_result_kernel_addr`; 0 is `NULL`. -/
  dma_result_kernel_addr : Nat := 0
  /-- The device-visible address `dma_result_dma_addr`. -/
  dma_result_dma_addr : Nat := 0

/-- The user API record `struct catapult_slot_reservation` (`catapult.h`);
pointers are addresses, `NULL` is 0. -/
structure catapult_slot_reservation where
  /-- The `uint32_t slot`. -/
  slot : Nat
  /-- The `uint32_t *input_buffer`. -/
  input_buffer : Nat
  /-- The `uint32_t *output_buffer`. -/
  output_buffer : Nat
  /-- The `uint32_t *result_buffer`. -/
  result_buffer : Nat
  /-- The `uint32_t *control_buffer`. -/
  control_buffer : Nat
deriving DecidableEq, Repr

/-- The user API record `struct catapult_slot_range_reservation`. -/
structure catapult_slot_range_reservation where
  /-- The `enum catapult_slot_range_type range_type`, as its integer value. -/
  range_type : Nat
  /-- The `uint32_t start`. -/
  start : Nat
  /-- The `uint32_t end`. -/
  end_ : Nat
deriving DecidableEq, Repr

/-- The user API record `struct catapult_acquire_slot_range` (the name without
`_info` is taken by the function that handles the request); the array
`reservations[MAX_FPGA_NUM_SLOTS]` is a map from index to entry. -/
structure catapult_acquire_slot_range_info where
  /-- The requested range. -/
  slot_range : catapult_slot_range_reservation
  /-- The reservation array. -/
  reservations : Nat → catapult_slot_reservation

/-- Store into an array of `pid_t`: `a[i] = v`. -/
def pid_store (a : Nat → Int) (i : Nat) (v : Int) : Nat → Int :=
  fun j => if j = i then v else a j

/-- Store into the reservation array: `a[i] = v`. -/
def reservation_store (a : Nat → catapult_slot_reservation) (i : Nat)
    (v : catapult_slot_reservation) : Nat → catapult_slot_reservation :=
  fun j => if j = i then v else a j

/-- What a slot request leaves behind: the `long` it returns, the device, and
the record that reached the client through `copy_to_user` (`none` when nothing
was copied out). -/
structure slot_result where
  /-- Return value of the request. -/
  status : Int
  /-- Device after the request. -/
  idev : catapult_device
  /-- The record copied to the client. -/
  arg : Option catapult_slot_reservation

/-- What a range request leaves behind. -/
structure range_result where
  /-- Return value of the request. -/
  status : Int
  /-- Device after the request. -/
  idev : catapult_device
  /-- The record copied to the client. -/
  arg : Option catapult_acquire_slot_range_info

/-! ## Operations -/

/-- The function `catapult_slot_map_init` (`catapult-drv.c`): allocates and
zeroes the bitmap (`kmalloc` + `bitmap_zero`) and the owner table (`kzalloc`).
The two flags say whether the allocations succeeded. -/
def catapult_slot_map_init (idev : catapult_device) (bitmap_ok pid_map_ok : Bool) :
    Int × catapult_device :=
  if !bitmap_ok then (-ENOMEM, idev)
  else
    let idev := { idev with slot_map := bitmap_zero idev.number_of_slots }
    if !pid_map_ok then (-ENOMEM, idev)
    else (0, { idev with slot_map_pids := fun _ => 0 })

/-- The function `catapult_acquire_slot` (`catapult-ioctl.c`). `lock_status` is
what `mutex_lock_interruptible` returned, `copy_left` what `copy_to_user`
returned (the number of bytes it could not copy). -/
def catapult_acquire_slot (idev : catapult_device) (lock_status : Int) (copy_left : Nat)
    (current : Int) : slot_result :=
  let reservation : catapult_slot_reservation :=
    { slot := 0, input_buffer := 0, output_buffer := 0, result_buffer := 0,
      control_buffer := 0 }
  let status : Int := lock_status
  -- the section under `idev->lock`
  let locked : slot_result :=
    if status = 0 then
      let reservation := { reservation with
        slot := bitmap_find_next_zero_area idev.slot_map idev.number_of_slots 0 1 0 % 2 ^ 32 }
      if 0 ≤ reservation.slot ∧ reservation.slot < idev.number_of_slots then
        { status := status
          idev := { idev with
            slot_map := set_bit reservation.slot idev.slot_map
            slot_map_pids := pid_store idev.slot_map_pids reservation.slot current }
          arg := some reservation }
      else { status := -ENOSPC, idev := idev, arg := some reservation }
    else { status := status, idev := idev, arg := some reservation }
  if locked.status ≠ 0 then { locked with arg := none }
  else if copy_left ≠ 0 then { locked with status := -EFAULT, arg := none }
  else locked

/-- The function `catapult_release_slot` (`catapult-ioctl.c`). `copy_left` is
what `copy_from_user` returned and `input` the record it fetched. -/
def catapult_release_slot (idev : catapult_device) (copy_left : Nat)
    (input : catapult_slot_reservation) (current : Int) : Int × catapult_device :=
  if copy_left ≠ 0 then (-EFAULT, idev)
  else if input.slot < 0 ∨ input.slot ≥ idev.number_of_slots then (-EINVAL, idev)
  else if test_bit input.slot idev.slot_map ∧ idev.slot_map_pids input.slot = current then
    (0, { idev with
      slot_map := clear_bit input.slot idev.slot_map
      slot_map_pids := pid_store idev.slot_map_pids input.slot 0 })
  else (-EACCES, idev)

/-- First loop of `catapult_acquire_slot_range`:
`for (i = start; i <= end; i++) if (test_bit(i, map)) { status = -EBUSY; break; }`
with `cnt` iterations left; returns `status`. -/
def acquire_range_check (map : Nat → Bool) (status : Int) : Nat → Nat → Int
  | 0, _ => status
  | cnt + 1, i =>
    if test_bit i map then -EBUSY else acquire_range_check map status cnt (i + 1)

/-- Second loop of `catapult_acquire_slot_range`:
`for (i = start; i <= end; i++) { set_bit(i, map); pids[i] = current; }`
with `cnt` iterations left. -/
def acquire_range_mark (current : Int) :
    Nat → Nat → (Nat → Bool) × (Nat → Int) → (Nat → Bool) × (Nat → Int)
  | 0, _, st => st
  | cnt + 1, i, st =>
    acquire_range_mark current cnt (i + 1) (set_bit i st.1, pid_store st.2 i current)

/-- Third loop of `catapult_acquire_slot_range`, filling
`info->reservations[i - start]` for `i = start .. end`, with `cnt` iterations
left. -/
def acquire_range_fill (start : Nat) :
    Nat → Nat → (Nat → catapult_slot_reservation) → (Nat → catapult_slot_reservation)
  | 0, _, r => r
  | cnt + 1, i, r =>
    acquire_range_fill start cnt (i + 1)
      (reservation_store r (i - start)
        { slot := i, input_buffer := 0, output_buffer := 0, result_buffer := 0,
          control_buffer := 0 })

/-- The function `catapult_acquire_slot_range` (`catapult-ioctl.c`).
`kzalloc_ok` says whether the allocation of `info` succeeded, `copy_in_left`
is what `copy_from_user` returned and `uarg` the record it fetched,
`lock_status` what `mutex_lock_interruptible` returned and `copy_out_left`
what `copy_to_user` returned. -/
def catapult_acquire_slot_range (idev : catapult_device) (kzalloc_ok : Bool)
    (copy_in_left : Nat) (uarg : catapult_acquire_slot_range_info) (lock_status : Int)
    (copy_out_left : Nat) (current : Int) : range_result :=
  if !kzalloc_ok then { status := -ENOMEM, idev := idev, arg := none }
  else if copy_in_left ≠ 0 then { status := -EFAULT, idev := idev, arg := none }
  else
    let info := uarg
    if info.slot_range.range_type ≠ CATAPULT_SLOT_RANGE_CONTIGUOUS then
      { status := -EINVAL, idev := idev, arg := none }
    else
      let start := info.slot_range.start
      let end_ := info.slot_range.end_
      if start ≥ idev.number_of_slots ∨ end_ ≥ idev.number_of_slots ∨ start > end_ then
        { status := -EINVAL, idev := idev, arg := none }
      else
        let status : Int := lock_status
        if status ≠ 0 then { status := status, idev := idev, arg := none }
        else
          let status := acquire_range_check idev.slot_map status (end_ + 1 - start) start
          let marked :=
            if status = 0 then
              acquire_range_mark current (end_ + 1 - start) start
                (idev.slot_map, idev.slot_map_pids)
            else (idev.slot_map, idev.slot_map_pids)
          let idev := { idev with slot_map := marked.1, slot_map_pids := marked.2 }
          let info := { info with
            reservations := acquire_range_fill start (end_ + 1 - start) start info.reservations }
          if copy_out_left ≠ 0 then { status := -EFAULT, idev := idev, arg := none }
          else { status := status, idev := idev, arg := some info }

/-- The loop of `catapult_release_slot_range`:
`for (i = 0; i < number_of_slots; i++) if (test_bit(i, map) && pids[i] == current) clear_bit(i, map);`
with `cnt` iterations left. -/
def release_range_scan (pids : Nat → Int) (current : Int) :
    Nat → Nat → (Nat → Bool) → (Nat → Bool)
  | 0, _, map => map
  | cnt + 1, i, map =>
    release_range_scan pids current cnt (i + 1)
      (if test_bit i map ∧ pids i = current then clear_bit i map else map)

/-- The function `catapult_release_slot_range` (`catapult-ioctl.c`): releases
all slots of the requesting process. It takes the mutex uninterruptibly and
copies nothing. -/
def catapult_release_slot_range (idev : catapult_device) (current : Int) :
    Int × catapult_device :=
  let status : Int := 0
  (status, { idev with
    slot_map := release_range_scan idev.slot_map_pids current idev.number_of_slots 0
      idev.slot_map })

/-- The `while (true)` loop of `catapult_slot_map_release` with `fuel`
iterations allowed; `none` when they are used up before the loop breaks. The
C variable `slot` is an `int` compared with the `uint32_t slot_count`; the
values `find_next_bit` returns are at most `slot_count`, which is where both
readings of the comparison agree. -/
def slot_map_release_loop (pids : Nat → Int) (slot_count : Nat) (pid : Int) :
    Nat → Nat → (Nat → Bool) → Option (Nat → Bool)
  | 0, _, _ => none
  | fuel + 1, slot, map =>
    let slot := find_next_bit map slot_count slot
    if slot < 0 ∨ slot ≥ slot_count then some map
    else if pids slot = pid then
      slot_map_release_loop pids slot_count pid fuel slot (clear_bit slot map)
    else slot_map_release_loop pids slot_count pid fuel (slot + 1) map

/-- The function `catapult_slot_map_release` (`catapult-drv.c`), run when a
client closes its session, on a device whose bitmap is allocated (the early
return for `slot_map == NULL` concerns a device that was never initialised).
The loop is given `2 * number_of_slots + 1` iterations;
`slot_map_release_loop_terminates` shows that they suffice. -/
def catapult_slot_map_release (idev : catapult_device) (pid : Int) : Option catapult_device :=
  let slot_count := idev.number_of_slots
  (slot_map_release_loop idev.slot_map_pids slot_count pid (2 * slot_count + 1) 0
    idev.slot_map).map (fun map => { idev with slot_map := map })

/-- The function `catapult_release` (`catapult-drv.c`), the `release` file
operation: `ifile_null` says that `filep->private_data` was `NULL`. Returns the
status and the device. -/
def catapult_release (idev : catapult_device) (ifile_null : Bool) (current : Int) :
    Option (Int × catapult_device) :=
  if ifile_null then some (0, idev)
  else (catapult_slot_map_release idev current).map (fun idev => (0, idev))

/-- The device right after a successful `catapult_slot_map_init` for `n` slots
of `BYTES_PER_SLOT` bytes. -/
def fresh_device (n : Nat) : catapult_device :=
  (catapult_slot_map_init
    { number_of_slots := n, bytes_per_slot := BYTES_PER_SLOT,
      slot_map := fun _ => false, slot_map_pids := fun _ => 0 } true true).2

/-! ## Register access (`catapult-register.c`, `catapult-register.h`)

An address is a byte offset from the start of the BAR: the C code adds the
offset to the base pointer `registers`. -/

/-- The function `catapult_register_read32`: barrier, then `readl`. -/
def catapult_register_read32 (registers : register_space) (address : Nat) :
    Nat × register_space :=
  (registers.content32 address % 2 ^ 32,
    { registers with accesses := registers.accesses ++ [.readl address] })

/-- The function `catapult_register_write32`: `writel`, then barrier. -/
def catapult_register_write32 (registers : register_space) (address value : Nat) :
    register_space :=
  { registers with accesses := registers.accesses ++ [.writel address value] }

/-- The function `catapult_register_read64`: barrier, then `readq`. -/
def catapult_register_read64 (registers : register_space) (address : Nat) :
    Nat × register_space :=
  (registers.content64 address % 2 ^ 64,
    { registers with accesses := registers.accesses ++ [.readq address] })

/-- The function `catapult_register_write64`: `writeq`, then barrier. -/
def catapult_register_write64 (registers : register_space) (address value : Nat) :
    register_space :=
  { registers with accesses := registers.accesses ++ [.writeq address value] }

/-- The inline function `catapult_register_offset` (`catapult-register.h`):
`(register_number << 8) | (interp_addr << 4) | 4`, computed on `uint32_t`. -/
def catapult_register_offset (interp_addr register_number : Nat) : Nat :=
  ((register_number <<< 8) % 2 ^ 32) ||| ((interp_addr <<< 4) % 2 ^ 32) ||| 4

/-- The function `catapult_low_level_read_legacy`. -/
def catapult_low_level_read_legacy (registers : register_space)
    (interp_address app_address : Nat) : Nat × register_space :=
  let byte_address := catapult_register_offset interp_address app_address
  catapult_register_read32 registers byte_address

/-- The function `catapult_low_level_write_legacy`. -/
def catapult_low_level_write_legacy (registers : register_space)
    (interp_address app_address value : Nat) : register_space :=
  let byte_address := catapult_register_offset interp_address app_address
  catapult_register_write32 registers byte_address value

/-- The function `catapult_low_level_read_64`. -/
def catapult_low_level_read_64 (registers : register_space)
    (interp_address app_address : Nat) : Nat × register_space :=
  let byte_address := catapult_register_offset interp_address app_address
  catapult_register_read64 registers byte_address

/-- The function `catapult_low_level_write_64`. -/
def catapult_low_level_write_64 (registers : register_space)
    (interp_address app_address value : Nat) : register_space :=
  let byte_address := catapult_register_offset interp_address app_address
  catapult_register_write64 registers byte_address value

/-- The function `catapult_low_level_read`: the value read and the register
space with the accesses made. The shifts by `app_address` in the first three
cases are taken mathematically (C leaves a shift of a 64-bit value by 64 or
more undefined). -/
def catapult_low_level_read (registers : register_space)
    (interp_address app_address : Nat) : Nat × register_space :=
  let readData : Nat := 0
  if interp_address &&& 0xf = INTER_ADDR_FULL_STATUS_REG then
    let r := catapult_low_level_read_64 registers INTER_ADDR_SOFT_REG
      (SOFT_REG_SLOT_DMA_BASE_ADDR + 62)
    (((r.1 >>> app_address) &&& 1) % 2 ^ 32, r.2)
  else if interp_address &&& 0xf = INTER_ADDR_DONE_STATUS_REG then
    let r := catapult_low_level_read_64 registers INTER_ADDR_SOFT_REG
      (SOFT_REG_SLOT_DMA_BASE_ADDR + 61)
    (((r.1 >>> app_address) &&& 1) % 2 ^ 32, r.2)
  else if interp_address &&& 0xf = INTER_ADDR_PEND_STATUS_REG then
    let r := catapult_low_level_read_64 registers INTER_ADDR_SOFT_REG
      (SOFT_REG_SLOT_DMA_BASE_ADDR + 60)
    (((r.1 >>> app_address) &&& 1) % 2 ^ 32, r.2)
  else if interp_address &&& 0xf = INTER_ADDR_GENERAL_PURPOSE_REG then
    catapult_low_level_read_legacy registers interp_address app_address
  else if interp_address &&& 0xf = INTER_ADDR_ASMI_RSU then
    catapult_low_level_read_legacy registers interp_address app_address
  else if interp_address &&& 0xf = INTER_ADDR_HACK_OVERRIDE_OUT_DATA_SIZE then
    if app_address ≥ 2 ∧ app_address ≤ 6 then
      let r := catapult_low_level_read_64 registers INTER_ADDR_SOFT_REG
        (SOFT_REG_SLOT_DMA_BASE_ADDR + 55 + (app_address - 2))
      (r.1 % 2 ^ 32, r.2)
    else (0, registers)
  else if interp_address &&& 0xf = INTER_ADDR_INTERRUPT then
    if app_address = 257 then
      let r := catapult_low_level_read_64 registers INTER_ADDR_SOFT_REG
        (SOFT_REG_SLOT_DMA_BASE_ADDR + 54)
      (r.1 % 2 ^ 32, r.2)
    else (0, registers)
  else if interp_address &&& 0xf = INTER_ADDR_DMA_DESCRIPTORS_AND_RESERVED then
    if app_address ≤ 53 then
      if app_address = 4 ∨ app_address = 5 ∨ app_address = 6 then
        catapult_low_level_read_legacy registers interp_address app_address
      else
        let r := catapult_low_level_read_64 registers INTER_ADDR_SOFT_REG
          (SOFT_REG_SLOT_DMA_BASE_ADDR + app_address)
        (r.1 % 2 ^ 32, r.2)
    else (0, registers)
  else (readData, registers)

/-- The function `catapult_low_level_write`: the register space with the
accesses made. -/
def catapult_low_level_write (registers : register_space)
    (interp_address app_address value : Nat) : register_space :=
  if interp_address &&& 0xf = INTER_ADDR_GENERAL_PURPOSE_REG then
    catapult_low_level_write_legacy registers interp_address app_address value
  else if interp_address &&& 0xf = INTER_ADDR_ASMI_RSU then
    catapult_low_level_write_legacy registers interp_address app_address value
  else
    let write_data := catapult_register_offset interp_address app_address
    let write_data := ((write_data <<< 32) % 2 ^ 64) ||| value
    catapult_low_level_write_64 registers INTER_ADDR_SOFT_REG
      (SOFT_REG_SLOT_DMA_BASE_ADDR + 63) write_data

/-- The function `catapult_read_dfh_register` (`catapult-device.c`): the
status, the content of `*value` afterwards (`value` is its content before; the
callers never pass `NULL`), and the register space. -/
def catapult_read_dfh_register (idev : catapult_device) (offset value : Nat) :
    Int × Nat × register_space :=
  let bar_length := idev.registers_cb
  if offset ≥ bar_length then (-EINVAL, value, idev.registers)
  else if offset % 8 ≠ 0 then (-EINVAL, value, idev.registers)
  else
    let r := catapult_register_read64 idev.registers offset
    (0, r.1, r.2)

/-- Modelled from the spec: the kernel primitive `complete`
(`kernel/sched/completion.c`, not part of the driver sources): signals the
completion. The kernel counts the signals in `done`, up to `UINT_MAX`. -/
def complete (x : completion) : completion :=
  if x.done ≠ UINT_MAX then { done := x.done + 1 } else x

/-- Modelled from the spec: the kernel primitive `reinit_completion`
(`include/linux/completion.h`): the completion is no longer signalled. -/
def reinit_completion (_x : completion) : completion := { done := 0 }

/-- Store into the array of completions: `a[i] = v`. -/
def completion_store (a : Nat → completion) (i : Nat) (v : completion) : Nat → completion :=
  fun j => if j = i then v else a j

/-- The loop of `catapult_interrupt_handler`,
`for (i = 1; i <= num_buffers; i++)`, with `cnt` iterations left. -/
def interrupt_signal_loop (read_val number_of_slots : Nat) :
    Nat → Nat → (Nat → completion) → (Nat → completion)
  | 0, _, event_obj => event_obj
  | cnt + 1, i, event_obj =>
    let which_buffer := (read_val >>> (8 * i)) &&& 0xff
    interrupt_signal_loop read_val number_of_slots cnt (i + 1)
      (if which_buffer ≥ number_of_slots then event_obj
      else completion_store event_obj which_buffer (complete (event_obj which_buffer)))

/-- The function `catapult_interrupt_handler` (`catapult-device.c`) for a
`dev_id` that is not `NULL` (for `NULL` the handler returns `IRQ_NONE` at once):
the `irqreturn_t` and the device. The field `slot_dma_interrupt` is bit 0 of
the interrupt status register. -/
def catapult_interrupt_handler (idev : catapult_device) : Nat × catapult_device :=
  let int_status_reg : Nat := 0
  let dfh : Int × Nat × register_space :=
    if idev.interrupt_feature_offset ≠ 0 then
      catapult_read_dfh_register idev
        ((idev.interrupt_feature_offset + DFH_FEATURE_INTERRUPT_STATUS_REG_OFFSET) % 2 ^ 32)
        int_status_reg
    else (0, int_status_reg, idev.registers)
  let int_status_reg := dfh.2.1
  if idev.interrupt_feature_offset = 0 ∨ int_status_reg &&& 1 ≠ 0 then
    let bar0_registers := idev.registers_base
    if bar0_registers ≠ 0 then
      let offset := catapult_register_offset INTER_ADDR_INTERRUPT 256
      let r := catapult_register_read32 dfh.2.2 offset
      let read_val := r.1
      if read_val = 0xffffffff then (IRQ_HANDLED, { idev with registers := r.2 })
      else
        let num_buffers := read_val &&& 3
        (IRQ_HANDLED, { idev with
          registers := r.2
          event_obj := interrupt_signal_loop read_val idev.number_of_slots num_buffers 1
            idev.event_obj })
    else (IRQ_HANDLED, { idev with registers := dfh.2.2 })
  else (IRQ_HANDLED, { idev with registers := dfh.2.2 })

/-! ## Slot event requests (`catapult-ioctl.c`) and the mapping gate -/

/-- The user API record `struct catapult_get_slot_event` (the name without
`_info` is taken by the function that handles the request). -/
structure catapult_get_slot_event_info where
  /-- The `uint32_t slot_index`. -/
  slot_index : Nat
deriving DecidableEq, Repr

/-- The user API record `struct catapult_wait_slot_event`. -/
structure catapult_wait_slot_event_info where
  /-- The `uint32_t slot_index`. -/
  slot_index : Nat
  /-- The `uint32_t timeout`, in milliseconds; 0 is infinite. -/
  timeout : Nat
  /-- The `bool wait`. -/
  wait : Bool
deriving DecidableEq, Repr

/-- The user API record `struct catapult_reset_slot_event`. -/
structure catapult_reset_slot_event_info where
  /-- The `uint32_t slot_index`. -/
  slot_index : Nat
deriving DecidableEq, Repr

/-- The user API record `struct catapult_complete_slot_event`. -/
structure catapult_complete_slot_event_info where
  /-- The `uint32_t slot_index`. -/
  slot_index : Nat
deriving DecidableEq, Repr

/-- The kernel's wait primitives (`kernel/sched/completion.c`,
`kernel/time/time.c`), which are not part of the driver sources and whose
outcome depends on the scheduler: they are arguments of the request that calls
them. Each takes the completion and returns its result together with the
completion it leaves behind. -/
structure wait_primitives where
  /-- The primitive `wait_for_completion_interruptible`: 0 or a negative
  error; `none` when the caller is never woken. -/
  wait_for_completion_interruptible : completion → Option (Int × completion)
  /-- The primitive `wait_for_completion_interruptible_timeout`, given the
  timeout in jiffies: positive, 0 on timeout, or a negative error. -/
  wait_for_completion_interruptible_timeout : completion → Nat → Int × completion
  /-- The primitive `try_wait_for_completion`. -/
  try_wait_for_completion : completion → Bool × completion
  /-- The conversion `msecs_to_jiffies`. -/
  msecs_to_jiffies : Nat → Nat

/-- The function `catapult_get_slot_event`. `copy_left` is what
`copy_from_user` returned and `input` the record it fetched. -/
def catapult_get_slot_event (idev : catapult_device) (copy_left : Nat)
    (input : catapult_get_slot_event_info) : Int :=
  if copy_left ≠ 0 then -EFAULT
  else if input.slot_index ≥ idev.number_of_slots then -EINVAL
  else 0

/-- The function `catapult_wait_slot_event`; `none` when the untimed wait never
returns. -/
def catapult_wait_slot_event (prims : wait_primitives) (idev : catapult_device)
    (copy_left : Nat) (input : catapult_wait_slot_event_info) :
    Option (Int × catapult_device) :=
  if copy_left ≠ 0 then some (-EFAULT, idev)
  else if input.slot_index ≥ idev.number_of_slots then some (-EINVAL, idev)
  else
    let completion := idev.event_obj input.slot_index
    if input.wait then
      if input.timeout = 0 then
        (prims.wait_for_completion_interruptible completion).map (fun r =>
          (r.1, { idev with
            event_obj := completion_store idev.event_obj input.slot_index r.2 }))
      else
        let timeout := prims.msecs_to_jiffies input.timeout
        let r := prims.wait_for_completion_interruptible_timeout completion timeout
        let status : Int :=
          if r.1 = 0 then -ETIMEDOUT
          else if r.1 < 0 then r.1
          else 0
        some (status, { idev with
          event_obj := completion_store idev.event_obj input.slot_index r.2 })
    else
      let r := prims.try_wait_for_completion completion
      let status : Int := if r.1 then 0 else -EWOULDBLOCK
      some (status, { idev with
        event_obj := completion_store idev.event_obj input.slot_index r.2 })

/-- The function `catapult_reset_slot_event`. -/
def catapult_reset_slot_event (idev : catapult_device) (copy_left : Nat)
    (input : catapult_reset_slot_event_info) : Int × catapult_device :=
  if copy_left ≠ 0 then (-EFAULT, idev)
  else if input.slot_index ≥ idev.number_of_slots then (-EINVAL, idev)
  else
    (0, { idev with
      event_obj := completion_store idev.event_obj input.slot_index
        (reinit_completion (idev.event_obj input.slot_index)) })

/-- The function `catapult_complete_slot_event`. -/
def catapult_complete_slot_event (idev : catapult_device) (copy_left : Nat)
    (input : catapult_complete_slot_event_info) : Int × catapult_device :=
  if copy_left ≠ 0 then (-EFAULT, idev)
  else if input.slot_index ≥ idev.number_of_slots then (-EINVAL, idev)
  else
    (0, { idev with
      event_obj := completion_store idev.event_obj input.slot_index
        (complete (idev.event_obj input.slot_index)) })

/-- The function `catapult_mmap_get_slot` (`catapult-drv.c`): the status and
the value stored in `*slot`. `lock_status` is what `mutex_lock_interruptible`
returned. The result is `none` when `bytes_per_slot` is 0, where the C code
divides by zero. -/
def catapult_mmap_get_slot (idev : catapult_device) (offset size : Nat) (lock_status : Int)
    (current : Int) : Option (Int × Nat) :=
  if idev.bytes_per_slot = 0 then none
  else
    let slot := (offset / idev.bytes_per_slot) % 2 ^ 32
    if slot ≥ idev.number_of_slots then some (-EINVAL, slot)
    else if size ≠ idev.bytes_per_slot then some (-EINVAL, slot)
    else
      let err : Int := lock_status
      if err = 0 then
        if !test_bit slot idev.slot_map ∨ idev.slot_map_pids slot ≠ current then
          some (-EACCES, slot)
        else some (err, slot)
      else some (err, slot)

/-! ## Abbreviations used in the statements -/

/-- The record `catapult_acquire_slot` hands to the client for slot `i`. -/
def reservation_of (i : Nat) : catapult_slot_reservation :=
  { slot := i, input_buffer := 0, output_buffer := 0, result_buffer := 0, control_buffer := 0 }

/-- The device after slot `i` has been stamped for `current`. -/
def mark_slot (idev : catapult_device) (i : Nat) (current : Int) : catapult_device :=
  { idev with
    slot_map := set_bit i idev.slot_map
    slot_map_pids := pid_store idev.slot_map_pids i current }

/-- A run of `k` consecutive `catapult_acquire_slot` requests, each with the
mutex taken and the copy-out succeeding; request number `n` (from 0) is made
by process `callers n`. Returns the device after the run and, in order, what
each request returned and copied out. -/
def acquire_repeat (callers : Nat → Int) (idev : catapult_device) :
    Nat → catapult_device × List (Int × Option catapult_slot_reservation)
  | 0 => (idev, [])
  | k + 1 =>
    let prev := acquire_repeat callers idev k
    let r := catapult_acquire_slot prev.1 0 0 (callers k)
    (r.idev, prev.2 ++ [(r.status, r.arg)])

/-- The requests that touch the slot bookkeeping, each with the outcomes of the
environment calls it makes and the identity of the process that issues it. -/
inductive slot_request where
  /-- The request `CATAPULT_IOCTL_ACQUIRE_SLOT`. -/
  | acquire_one (lock_status : Int) (copy_left : Nat) (current : Int)
  /-- The request `CATAPULT_IOCTL_RELEASE_SLOT`. -/
  | release_one (copy_left : Nat) (input : catapult_slot_reservation) (current : Int)
  /-- The request `CATAPULT_IOCTL_ACQUIRE_SLOT_RANGE`. -/
  | acquire_range (kzalloc_ok : Bool) (copy_in_left : Nat)
      (uarg : catapult_acquire_slot_range_info) (lock_status : Int) (copy_out_left : Nat)
      (current : Int)
  /-- The request `CATAPULT_IOCTL_RELEASE_SLOT_RANGE`. -/
  | release_range (current : Int)
  /-- Closing the session: the file operation `catapult_release`. -/
  | session_close (current : Int)

/-- The device after one request; `none` only if the request does not return. -/
def slot_step (idev : catapult_device) : slot_request → Option catapult_device
  | .acquire_one lock_status copy_left current =>
    some (catapult_acquire_slot idev lock_status copy_left current).idev
  | .release_one copy_left input current =>
    some (catapult_release_slot idev copy_left input current).2
  | .acquire_range kzalloc_ok copy_in_left uarg lock_status copy_out_left current =>
    some (catapult_acquire_slot_range idev kzalloc_ok copy_in_left uarg lock_status
      copy_out_left current).idev
  | .release_range current => some (catapult_release_slot_range idev current).2
  | .session_close current => (catapult_release idev false current).map Prod.snd

/-- The device after a sequence of requests, served one after the other (the
mutex serialises them). -/
def slot_run (idev : catapult_device) : List slot_request → Option catapult_device
  | [] => some idev
  | r :: rs => (slot_step idev r).bind (fun idev => slot_run idev rs)

/-- A device of sixteen slots on which process 4242 holds the slots 2, 7 and 9
and nothing else is reserved. -/
def device_2_7_9 : catapult_device :=
  { number_of_slots := 16, bytes_per_slot := BYTES_PER_SLOT,
    slot_map := fun j => decide (j = 2 ∨ j = 7 ∨ j = 9),
    slot_map_pids := fun j => if j = 2 ∨ j = 7 ∨ j = 9 then 4242 else 0 }


/-! ## Requests and interrupts as steps of the device -/

/-- The process that issues a slot request. -/
def slot_request.issuer : slot_request → Int
  | .acquire_one _ _ current => current
  | .release_one _ _ current => current
  | .acquire_range _ _ _ _ _ current => current
  | .release_range current => current
  | .session_close current => current

/-- Everything that acts on the slot bookkeeping and the completions: the slot
requests, the slot event requests, the ownership check of a mapping request,
and the interrupt. -/
inductive device_request where
  /-- A slot request. -/
  | slot (r : slot_request)
  /-- The request `CATAPULT_IOCTL_GET_SLOT_EVENT`. -/
  | get_slot_event (copy_left : Nat) (input : catapult_get_slot_event_info)
  /-- The request `CATAPULT_IOCTL_WAIT_SLOT_EVENT`. -/
  | wait_slot_event (prims : wait_primitives) (copy_left : Nat)
      (input : catapult_wait_slot_event_info)
  /-- The request `CATAPULT_IOCTL_RESET_SLOT_EVENT`. -/
  | reset_slot_event (copy_left : Nat) (input : catapult_reset_slot_event_info)
  /-- The request `CATAPULT_IOCTL_COMPLETE_SLOT_EVENT`. -/
  | complete_slot_event (copy_left : Nat) (input : catapult_complete_slot_event_info)
  /-- The call of `catapult_mmap_get_slot` made by a mapping request. -/
  | mmap_get_slot (offset size : Nat) (lock_status : Int) (current : Int)
  /-- An interrupt: `catapult_interrupt_handler`. -/
  | interrupt

/-- The device after one request or interrupt; `none` only if it does not
return. -/
def device_step (idev : catapult_device) : device_request → Option catapult_device
  | .slot r => slot_step idev r
  | .get_slot_event _ _ => some idev
  | .wait_slot_event prims copy_left input =>
    (catapult_wait_slot_event prims idev copy_left input).map Prod.snd
  | .reset_slot_event copy_left input => some (catapult_reset_slot_event idev copy_left input).2
  | .complete_slot_event copy_left input =>
    some (catapult_complete_slot_event idev copy_left input).2
  | .mmap_get_slot offset size lock_status current =>
    (catapult_mmap_get_slot idev offset size lock_status current).map (fun _ => idev)
  | .interrupt => some (catapult_interrupt_handler idev).2

/-- The device after a sequence of requests and interrupts, one after the
other. -/
def device_run (idev : catapult_device) : List device_request → Option catapult_device
  | [] => some idev
  | r :: rs => (device_step idev r).bind (fun idev => device_run idev rs)

/-! ## Reference decode of the interrupt status word -/

/-- The slot identifiers packed into the status word `w`, as the protocol
describes them: the low two bits give the count, identifier number `k`
(from 1) is byte `k` of the word. -/
def packed_slot_ids (w : Nat) : List Nat :=
  (List.range (w % 4)).map (fun k => (w / 256 ^ (k + 1)) % 256)

/-- The completions an interrupt with status word `w` has to signal on a device
of `n` slots, in order: none for the all-ones word, otherwise the packed
identifiers that are below `n`. -/
def reference_decode (w n : Nat) : List Nat :=
  if w = 0xFFFFFFFF then [] else (packed_slot_ids w).filter (fun s => decide (s < n))

/-- Signalling the completions of the slots in a list, one after the other. -/
def signal_all (event_obj : Nat → completion) (slots : List Nat) : Nat → completion :=
  slots.foldl (fun ev s => completion_store ev s (complete (ev s))) event_obj

/-- The requests and interrupts that are not slot requests of process `p`:
slot requests issued by another process, slot event requests and mapping
checks (they carry no slot bookkeeping of their own), and interrupts. -/
def device_request.foreign_to (p : Int) : device_request → Prop
  | .slot r => r.issuer ≠ p
  | _ => True

/-- The status word the handler reads at the legacy interrupt status register,
`catapult_register_offset(INTER_ADDR_INTERRUPT, 256)`. -/
def legacy_interrupt_status (idev : catapult_device) : Nat :=
  idev.registers.content32 (catapult_register_offset INTER_ADDR_INTERRUPT 256) % 2 ^ 32

/-- A device of 64 slots without interrupt feature, with the BAR mapped, whose
legacy interrupt status register reads `w`; no completion is signalled. -/
def device_with_status (w : Nat) : catapult_device :=
  { number_of_slots := 64, bytes_per_slot := BYTES_PER_SLOT,
    slot_map := fun _ => false, slot_map_pids := fun _ => 0,
    registers_base := 0x1000,
    registers :=
      { content32 := fun offset => if offset = 0x100E4 then w else 0,
        content64 := fun _ => 0, accesses := [] },
    registers_cb := 0x1000000 }

/-- The byte offset of a register access. -/
def mmio_access.offset : mmio_access → Nat
  | .readl offset => offset
  | .readq offset => offset
  | .writel offset _ => offset
  | .writeq offset _ => offset

/-- A register space that answers 0 everywhere and has not been accessed. -/
def zero_registers : register_space :=
  { content32 := fun _ => 0, content64 := fun _ => 0, accesses := [] }

/-- The logical addresses that `catapult_low_level_read` does not map: it
returns 0 for them without touching the hardware. -/
def unsupported_address (interp_address app_address : Nat) : Prop :=
  (interp_address &&& 0xf = 4 ∨ interp_address &&& 0xf = 5 ∨ interp_address &&& 0xf = 6 ∨
    interp_address &&& 0xf = 7 ∨ interp_address &&& 0xf = 8 ∨ interp_address &&& 0xf = 9 ∨
    interp_address &&& 0xf = 11 ∨ interp_address &&& 0xf = 13) ∨
  (interp_address &&& 0xf = 12 ∧ (app_address < 2 ∨ 6 < app_address)) ∨
  (interp_address &&& 0xf = 14 ∧ app_address ≠ 257) ∨
  (interp_address &&& 0xf = 15 ∧ 53 < app_address)

/-- What a request or interrupt returns (the `irqreturn_t` for an interrupt)
together with the device it leaves; `none` only if it does not return. -/
def device_outcome (idev : catapult_device) : device_request → Option (Int × catapult_device)
  | .slot (.acquire_one lock_status copy_left current) =>
    some ((catapult_acquire_slot idev lock_status copy_left current).status,
      (catapult_acquire_slot idev lock_status copy_left current).idev)
  | .slot (.release_one copy_left input current) =>
    some (catapult_release_slot idev copy_left input current)
  | .slot (.acquire_range kzalloc_ok copy_in_left uarg lock_status copy_out_left current) =>
    some ((catapult_acquire_slot_range idev kzalloc_ok copy_in_left uarg lock_status
        copy_out_left current).status,
      (catapult_acquire_slot_range idev kzalloc_ok copy_in_left uarg lock_status
        copy_out_left current).idev)
  | .slot (.release_range current) => some (catapult_release_slot_range idev current)
  | .slot (.session_close current) => catapult_release idev false current
  | .get_slot_event copy_left input => some (catapult_get_slot_event idev copy_left input, idev)
  | .wait_slot_event prims copy_left input => catapult_wait_slot_event prims idev copy_left input
  | .reset_slot_event copy_left input => some (catapult_reset_slot_event idev copy_left input)
  | .complete_slot_event copy_left input =>
    some (catapult_complete_slot_event idev copy_left input)
  | .mmap_get_slot offset size lock_status current =>
    (catapult_mmap_get_slot idev offset size lock_status current).map (fun r => (r.1, idev))
  | .interrupt =>
    some (((catapult_interrupt_handler idev).1 : Int), (catapult_interrupt_handler idev).2)

/-- Two devices that agree on everything the requests and the interrupt
handler read, except possibly the entries of the bitmap, the owner table and
the completion array at or above the slot count. -/
def agree_below (a b : catapult_device) : Prop :=
  a.number_of_slots = b.number_of_slots ∧ a.bytes_per_slot = b.bytes_per_slot ∧
  a.registers_base = b.registers_base ∧ a.registers = b.registers ∧
  a.registers_cb = b.registers_cb ∧
  a.interrupt_feature_offset = b.interrupt_feature_offset ∧
  ∀ j, j < a.number_of_slots →
    a.slot_map j = b.slot_map j ∧ a.slot_map_pids j = b.slot_map_pids j ∧
    a.event_obj j = b.event_obj j

/-- Entries at or above the slot count are the same in `after` as in `idev`,
and so is the slot count. -/
def same_above (idev after : catapult_device) : Prop :=
  after.number_of_slots = idev.number_of_slots ∧
  ∀ j, idev.number_of_slots ≤ j →
    after.slot_map j = idev.slot_map j ∧ after.slot_map_pids j = idev.slot_map_pids j ∧
    after.event_obj j = idev.event_obj j

/-! ## The DMA buffer pool (`catapult-drv.c`) -/

/-- First of the per-slot input address registers, `catapult-shell.h`. -/
def DMA_SLOT_INPUT_BASE_ADDRESS : Nat := 0x901000
/-- First of the per-slot output address registers. -/
def DMA_SLOT_OUTPUT_BASE_ADDRESS : Nat := 0x901008
/-- First of the per-slot result address registers. -/
def DMA_SLOT_CONTROL_RESULT_BASE_ADDRESS : Nat := 0x901010

/-- The size of `struct catapult_dma_control_buffer`: sixteen `uint32_t`. -/
def FPGA_CONTROL_SIZE : Nat := 4 * (1 + 1 + 1 + 1 + 12)
/-- The size of `struct catapult_dma_iso_control_result_combined`: a control
buffer followed by a result buffer of sixteen `uint32_t`. -/
def FPGA_RESULT_SIZE : Nat := FPGA_CONTROL_SIZE + 4 * (1 + 15)

/-- Modelled from the spec: the kernel primitive `init_completion`
(`include/linux/completion.h`, not part of the driver sources): the completion
starts unsignalled. -/
def init_completion (_x : completion) : completion := { done := 0 }

/-- Store into an array of addresses: `a[i] = v`. -/
def addr_store (a : Nat → Nat) (i : Nat) (v : Nat) : Nat → Nat :=
  fun j => if j = i then v else a j

/-- What the environment answers to the calls `catapult_dma_init` makes:
`dma_alloc_coherent` returns the kernel address (0 is `NULL`, the allocation
failed) and stores the device-visible address; `kmalloc` and `kzalloc` of
`catapult_slot_map_init` succeed or not. -/
structure dma_environment where
  /-- The allocation of the input buffer of slot `i`: kernel address and
  device-visible address. -/
  alloc_input : Nat → Nat × Nat
  /-- The allocation of the output buffer of slot `i`. -/
  alloc_output : Nat → Nat × Nat
  /-- The allocation of the shared control region. -/
  alloc_control : Nat × Nat
  /-- The allocation of the shared result region. -/
  alloc_result : Nat × Nat
  /-- Whether the allocation of the bitmap succeeded. -/
  bitmap_ok : Bool
  /-- Whether the allocation of the owner table succeeded. -/
  pid_map_ok : Bool

/-- The first loop of `catapult_dma_init`,
`for (i = 0; i < number_of_slots; i++) init_completion(&event_obj[i]);`
with `cnt` iterations left. -/
def dma_init_completions : Nat → Nat → (Nat → completion) → (Nat → completion)
  | 0, _, event_obj => event_obj
  | cnt + 1, i, event_obj =>
    dma_init_completions cnt (i + 1)
      (completion_store event_obj i (init_completion (event_obj i)))

/-- The allocation loop of `catapult_dma_init` with `cnt` iterations left: the
value of `err` and the device; the loop is left at the first allocation that
fails. -/
def dma_alloc_loop (env : dma_environment) : Nat → Nat → catapult_device → Int × catapult_device
  | 0, _, idev => (0, idev)
  | cnt + 1, i, idev =>
    let a := env.alloc_input i
    let idev1 : catapult_device := { idev with
      dma_input_kernel_addr := addr_store idev.dma_input_kernel_addr i a.1
      dma_input_dma_addr := addr_store idev.dma_input_dma_addr i a.2 }
    if a.1 = 0 then (-EFAULT, idev1)
    else
      let b := env.alloc_output i
      let idev2 : catapult_device := { idev1 with
        dma_output_kernel_addr := addr_store idev1.dma_output_kernel_addr i b.1
        dma_output_dma_addr := addr_store idev1.dma_output_dma_addr i b.2 }
      if b.1 = 0 then (-EFAULT, idev2)
      else dma_alloc_loop env cnt (i + 1) idev2

/-- The three writes `catapult_dma_init` makes for slot `i`: the input
address, the output address and the address of the result record. The index
arithmetic `i * 0x20` is on `uint32_t`, the addresses are 64-bit. -/
def dma_publish_slot (idev : catapult_device) (i : Nat) (registers : register_space) :
    register_space :=
  let r1 := catapult_register_write64 registers
    (DMA_SLOT_INPUT_BASE_ADDRESS + (i * 0x20) % 2 ^ 32) (idev.dma_input_dma_addr i)
  let r2 := catapult_register_write64 r1
    (DMA_SLOT_OUTPUT_BASE_ADDRESS + (i * 0x20) % 2 ^ 32) (idev.dma_output_dma_addr i)
  catapult_register_write64 r2
    (DMA_SLOT_CONTROL_RESULT_BASE_ADDRESS + (i * 0x20) % 2 ^ 32)
    ((idev.dma_result_dma_addr + i * FPGA_RESULT_SIZE) % 2 ^ 64)

/-- The loop of `catapult_dma_init` that writes the slot addresses to the
FPGA registers, with `cnt` iterations left. -/
def dma_publish_loop (idev : catapult_device) : Nat → Nat → register_space → register_space
  | 0, _, registers => registers
  | cnt + 1, i, registers =>
    dma_publish_loop idev cnt (i + 1) (dma_publish_slot idev i registers)

/-- The loop of `catapult_dma_init` that flushes unserviced interrupts,
`do { read_val = catapult_low_level_read(registers, INTER_ADDR_INTERRUPT, 256); } while (read_val & 3);`
with `fuel` iterations allowed and `n` made so far: the register space and the
number of iterations made, or `none` when the iterations are used up before
the loop is left. -/
def dma_drain_loop : Nat → Nat → register_space → Option (register_space × Nat)
  | 0, _, _ => none
  | fuel + 1, n, registers =>
    let r := catapult_low_level_read registers INTER_ADDR_INTERRUPT 256
    let read_val := r.1
    if read_val &&& 3 ≠ 0 then dma_drain_loop fuel (n + 1) r.2
    else some (r.2, n + 1)

/-- The function `catapult_dma_remove`: every buffer that was allocated is
freed and its kernel address set to `NULL`. The bitmap and the owner table are
freed too; the device is not used after that. -/
def catapult_dma_remove (idev : catapult_device) : catapult_device :=
  { idev with
    dma_input_kernel_addr := fun j =>
      if j < idev.number_of_slots then 0 else idev.dma_input_kernel_addr j
    dma_output_kernel_addr := fun j =>
      if j < idev.number_of_slots then 0 else idev.dma_output_kernel_addr j
    dma_control_kernel_addr := 0
    dma_result_kernel_addr := 0 }

/-- The part of `catapult_dma_init` after the allocations: the slot addresses
are written to the registers, stale interrupts are flushed, and the payload
size and the interrupt coalescing count are set. -/
def dma_init_program (idev : catapult_device) (fuel : Nat) : Option catapult_device :=
  let r := dma_publish_loop idev idev.number_of_slots 0 idev.registers
  (dma_drain_loop fuel 0 r).map (fun d =>
    let w1 := catapult_low_level_write d.1 INTER_ADDR_HACK_OVERRIDE_OUT_DATA_SIZE 2 0
    let w2 := catapult_low_level_write w1 INTER_ADDR_INTERRUPT 257 1
    { idev with registers := w2 })

/-- The function `catapult_dma_init` (`catapult-drv.c`): the value it returns
and the device. `dma_slot_count` and `dma_slot_bytes` are the module
parameters (`uint32_t`), `env` the outcome of the allocations, `fuel` the
number of iterations the flush loop is allowed. The lengths are stored in
`uint32_t` fields. -/
def catapult_dma_init (idev : catapult_device) (dma_slot_count dma_slot_bytes : Nat)
    (env : dma_environment) (fuel : Nat) : Option (Int × catapult_device) :=
  let d0 : catapult_device := { idev with
    number_of_slots := dma_slot_count
    bytes_per_slot := dma_slot_bytes
    dma_input_len := (dma_slot_count * dma_slot_bytes) % 2 ^ 32
    dma_output_len := (dma_slot_count * dma_slot_bytes) % 2 ^ 32
    dma_control_len := (dma_slot_count * FPGA_CONTROL_SIZE) % 2 ^ 32
    dma_result_len := (dma_slot_count * FPGA_RESULT_SIZE) % 2 ^ 32
    event_obj := dma_init_completions dma_slot_count 0 idev.event_obj }
  let a := dma_alloc_loop env d0.number_of_slots 0 d0
  if a.1 ≠ 0 then some (a.1, catapult_dma_remove a.2)
  else
    let d1 : catapult_device := { a.2 with
      dma_control_kernel_addr := env.alloc_control.1
      dma_control_dma_addr := env.alloc_control.2 }
    if d1.dma_control_kernel_addr = 0 then some (-EFAULT, catapult_dma_remove d1)
    else
      let d2 : catapult_device := { d1 with
        dma_result_kernel_addr := env.alloc_result.1
        dma_result_dma_addr := env.alloc_result.2 }
      if d2.dma_result_kernel_addr = 0 then some (-EFAULT, catapult_dma_remove d2)
      else
        let m := catapult_slot_map_init d2 env.bitmap_ok env.pid_map_ok
        if m.1 ≠ 0 then some (m.1, catapult_dma_remove m.2)
        else (dma_init_program m.2 fuel).map (fun d => (0, d))

/-- The value the register at `offset` holds after the accesses of a log: the
value of the last write made at that offset, if there is one. -/
def last_write (accesses : List mmio_access) (offset : Nat) : Option Nat :=
  accesses.foldl (fun held a =>
    match a with
    | .writel o v => if o = offset then some v else held
    | .writeq o v => if o = offset then some v else held
    | _ => held) none

/-- An environment in which every allocation succeeds: slot `i` gets its input
buffer at device address `0x10000000 + i * 0x200000` and its output buffer
`0x100000` above, the control region is at `0x80000000` and the result region
at `0x90000000`; kernel addresses are the device addresses plus
`0xffff888000000000`. -/
def dma_environment_ok : dma_environment :=
  { alloc_input := fun i =>
      (0xffff888000000000 + 0x10000000 + i * 0x200000, 0x10000000 + i * 0x200000),
    alloc_output := fun i =>
      (0xffff888000000000 + 0x10100000 + i * 0x200000, 0x10100000 + i * 0x200000),
    alloc_control := (0xffff888080000000, 0x80000000),
    alloc_result := (0xffff888090000000, 0x90000000),
    bitmap_ok := true, pid_map_ok := true }

/-- A device as `catapult_probe` hands it to `catapult_dma_init`: BAR mapped,
nothing allocated, no register accessed. -/
def probed_device : catapult_device :=
  { number_of_slots := 0, bytes_per_slot := 0,
    slot_map := fun _ => false, slot_map_pids := fun _ => 0,
    registers_base := 0x1000, registers := zero_registers, registers_cb := 0x1000000 }

/-! ## Reference decode of a register read -/

/-- The byte offset of the 64-bit soft register number `n`:
`(n << 8) | (8 << 4) | 4`. -/
def soft_register_offset (n : Nat) : Nat := (n <<< 8) ||| (8 <<< 4) ||| 4

/-- The 64-bit word the device holds in soft register number `n`. -/
def soft_register (registers : register_space) (n : Nat) : Nat :=
  registers.content64 (soft_register_offset n) % 2 ^ 64

/-- The value a read of the logical address `(interp_addr, app_addr)` has to
return and the one hardware access it has to make, as the register protocol
describes them, by the low four bits of `interp_addr`; `none` for an address
that is not mapped. -/
def reference_read (registers : register_space) (interp_addr app_addr : Nat) :
    Option (Nat × mmio_access) :=
  let sel := interp_addr % 16
  let legacy_offset := ((app_addr <<< 8) ||| (interp_addr <<< 4) ||| 4) % 2 ^ 32
  let legacy : Nat × mmio_access :=
    (registers.content32 legacy_offset % 2 ^ 32, .readl legacy_offset)
  let soft_low : Nat → Nat × mmio_access := fun n =>
    (soft_register registers n % 2 ^ 32, .readq (soft_register_offset n))
  let soft_bit : Nat → Nat × mmio_access := fun n =>
    ((soft_register registers n / 2 ^ app_addr) % 2, .readq (soft_register_offset n))
  if sel = 3 ∨ sel = 10 then some legacy
  else if sel = 0 then some (soft_bit (0x7E00 + 62))
  else if sel = 1 then some (soft_bit (0x7E00 + 61))
  else if sel = 2 then some (soft_bit (0x7E00 + 60))
  else if sel = 12 ∧ 2 ≤ app_addr ∧ app_addr ≤ 6 then
    some (soft_low (0x7E00 + 55 + (app_addr - 2)))
  else if sel = 14 ∧ app_addr = 257 then some (soft_low (0x7E00 + 54))
  else if sel = 15 ∧ (app_addr = 4 ∨ app_addr = 5 ∨ app_addr = 6) then some legacy
  else if sel = 15 ∧ app_addr ≤ 53 then some (soft_low (0x7E00 + app_addr))
  else none

/-- A register space in which every 64-bit register answers
`0x0123456789ABCDEF` and every 32-bit register answers `0xCAFE`. -/
def pattern_registers : register_space :=
  { content32 := fun _ => 0xCAFE, content64 := fun _ => 0x0123456789ABCDEF, accesses := [] }

/-! ## Module initialisation (`catapult-drv.c`) -/

/-- What the kernel answers to the registration calls of
`catapult_init_module`. -/
structure module_environment where
  /-- The value `alloc_chrdev_region` returns. -/
  alloc_chrdev_region : Int
  /-- Whether `cdev_alloc` returned a device. -/
  cdev_alloc_ok : Bool
  /-- The value `cdev_add` returns. -/
  cdev_add : Int
  /-- Whether `class_create` returned a class. -/
  class_create_ok : Bool
  /-- The value `pci_register_driver` returns. -/
  pci_register_driver : Int

/-- The function `catapult_init_module`: the value it returns for the module
parameter `dma_slot_count` (a `uint32_t`). The cleanup it runs on an error
leaves nothing behind that the slot code uses. -/
def catapult_init_module (dma_slot_count : Nat) (env : module_environment) : Int :=
  if dma_slot_count > SLOT_COUNT then -EINVAL
  else
    let err := env.alloc_chrdev_region
    if err ≠ 0 then err
    else if !env.cdev_alloc_ok then -ENOMEM
    else
      let err := env.cdev_add
      if err ≠ 0 then err
      else if !env.class_create_ok then -ENOMEM
      else
        let err := env.pci_register_driver
        if err ≠ 0 then err
        else err

/-- An environment in which every registration call succeeds. -/
def module_environment_ok : module_environment :=
  { alloc_chrdev_region := 0, cdev_alloc_ok := true, cdev_add := 0,
    class_create_ok := true, pci_register_driver := 0 }

/-! ## The kernel's wait primitives -/

/-- Modelled from the spec: the kernel primitive `try_wait_for_completion`
(`kernel/sched/completion.c`, not part of the driver sources): reports, without
blocking, whether the completion is signalled. Waiting observes the state of
the completion and does not change it; only an explicit reset takes a
completion back to unsignalled. -/
def try_wait_for_completion (x : completion) : Bool × completion :=
  (decide (x.done ≠ 0), x)

/-- Modelled from the spec: the kernel primitive
`wait_for_completion_interruptible` (`kernel/sched/completion.c`, not part of
the driver sources): returns 0 when the completion is signalled, observing it
without changing it. On an unsignalled completion the caller sleeps; requests
are served one after the other here, so the sleep ends only if a signal to the
process interrupts it (`interrupted`, the wait returns `-ERESTARTSYS`), and
never otherwise. -/
def wait_for_completion_interruptible (interrupted : Bool) (x : completion) :
    Option (Int × completion) :=
  if x.done ≠ 0 then some (0, x)
  else if interrupted then some (-ERESTARTSYS, x)
  else none

/-- Modelled from the spec: the kernel primitive
`wait_for_completion_interruptible_timeout` (`kernel/sched/completion.c`, not
part of the driver sources): a positive number of jiffies when the completion
is signalled, observing it without changing it; on an unsignalled completion
`-ERESTARTSYS` when a signal to the process interrupts the sleep and 0 when
the timeout expires. -/
def wait_for_completion_interruptible_timeout (interrupted : Bool) (x : completion)
    (timeout : Nat) : Int × completion :=
  if x.done ≠ 0 then (((if timeout = 0 then 1 else timeout : Nat) : Int), x)
  else if interrupted then (-ERESTARTSYS, x)
  else (0, x)

/-- The wait primitives as modelled above; `interrupted` says whether a signal
reaches the process while it sleeps, `msecs_to_jiffies` is the kernel's
conversion (`kernel/time/time.c`). -/
def kernel_wait_primitives (interrupted : Bool) (msecs_to_jiffies : Nat → Nat) :
    wait_primitives :=
  { wait_for_completion_interruptible := wait_for_completion_interruptible interrupted
    wait_for_completion_interruptible_timeout :=
      wait_for_completion_interruptible_timeout interrupted
    try_wait_for_completion := try_wait_for_completion
    msecs_to_jiffies := msecs_to_jiffies }

/-- The requests and interrupts other than a reset of the completion of slot
`s`; a wait among them uses the kernel's wait primitives. -/
def device_request.leaves_signal (s : Nat) : device_request → Prop
  | .reset_slot_event _ input => input.slot_index ≠ s
  | .wait_slot_event prims _ _ =>
    ∃ interrupted msecs_to_jiffies, prims = kernel_wait_primitives interrupted msecs_to_jiffies
  | _ => True

/-! ## Feature discovery (`catapult-device.c`, `catapult-shell.h`) -/

/-- The `enum catapult_dfh_type` value `DFH_TYPE_NOT_SUPPORTED`. -/
def DFH_TYPE_NOT_SUPPORTED : Nat := 0
/-- The `enum catapult_dfh_type` value `DFH_TYPE_MAX`. -/
def DFH_TYPE_MAX : Nat := 5
/-- Offset of the lower half of the feature identifier inside a header. -/
def DFH_FEATURE_GUID_OFFSET_LOWER : Nat := 0x08
/-- Offset of the higher half of the feature identifier inside a header. -/
def DFH_FEATURE_GUID_OFFSET_HIGHER : Nat := 0x10

/-- The bit field `afu_offset` of `union catapult_dfh_header`, bits 39:16. -/
def dfh_afu_offset (as_ulonglong : Nat) : Nat := (as_ulonglong >>> 16) &&& 0xFFFFFF
/-- The bit field `afu_eol` of `union catapult_dfh_header`, bit 40. -/
def dfh_afu_eol (as_ulonglong : Nat) : Nat := (as_ulonglong >>> 40) &&& 1
/-- The bit field `afu_type` of `union catapult_dfh_header`, bits 63:60. -/
def dfh_afu_type (as_ulonglong : Nat) : Nat := (as_ulonglong >>> 60) &&& 0xF

/-- The condition of the `while` loop of `catapult_get_dfh_offset` on the
header last read: the type tag lies strictly between `DFH_TYPE_NOT_SUPPORTED`
and `DFH_TYPE_MAX` and the end-of-list flag is clear. -/
def dfh_continues (dfh_header : Nat) : Bool :=
  decide (dfh_afu_type dfh_header > DFH_TYPE_NOT_SUPPORTED ∧
    dfh_afu_type dfh_header < DFH_TYPE_MAX ∧ dfh_afu_eol dfh_header = 0)

/-- The local variables of `catapult_get_dfh_offset` together with the
register space: the header last read, the offset, and `read_guid` as its two
64-bit halves (bytes 0 to 7 and bytes 8 to 15). -/
structure dfh_walk_state where
  /-- The local `dfh_header.as_ulonglong`. -/
  dfh_header : Nat
  /-- The local `offset`, a `uint32_t`. -/
  offset : Nat
  /-- The local `read_guid`. -/
  read_guid : Nat × Nat
  /-- The register space. -/
  registers : register_space

/-- The body of the `while` loop of `catapult_get_dfh_offset` up to the
comparison: the offset is advanced by `afu_offset` and the header and the two
halves of the identifier are read there. A read that
`catapult_read_dfh_register` refuses leaves its target as it was. -/
def dfh_advance (idev : catapult_device) (st : dfh_walk_state) : dfh_walk_state :=
  let offset := (st.offset + dfh_afu_offset st.dfh_header % 2 ^ 32) % 2 ^ 32
  let r1 := catapult_read_dfh_register { idev with registers := st.registers } offset
    st.dfh_header
  let r2 := catapult_read_dfh_register { idev with registers := r1.2.2 }
    ((offset + DFH_FEATURE_GUID_OFFSET_LOWER) % 2 ^ 32) st.read_guid.1
  let r3 := catapult_read_dfh_register { idev with registers := r2.2.2 }
    ((offset + DFH_FEATURE_GUID_OFFSET_HIGHER) % 2 ^ 32) st.read_guid.2
  { dfh_header := r1.2.1, offset := offset, read_guid := (r2.2.1, r3.2.1),
    registers := r3.2.2 }

/-- The `while` loop of `catapult_get_dfh_offset` with `fuel` iterations
allowed: the offset returned and the register space, or `none` when the
iterations are used up before the loop is left. `guid_equal` compares the
sixteen bytes, that is both halves. -/
def dfh_walk (idev : catapult_device) (feature_guid : Nat × Nat) :
    Nat → dfh_walk_state → Option (Nat × register_space)
  | 0, _ => none
  | fuel + 1, st =>
    if dfh_continues st.dfh_header then
      let st1 := dfh_advance idev st
      if st1.read_guid = feature_guid then some (st1.offset, st1.registers)
      else dfh_walk idev feature_guid fuel st1
    else some (0, st.registers)

/-- The state of `catapult_get_dfh_offset` when it reaches its loop: the base
header has been read at offset 0 unless `avoid_hip1_access` is set. -/
def dfh_initial (idev : catapult_device) : dfh_walk_state :=
  let r0 : Int × Nat × register_space :=
    if idev.avoid_hip1_access = false then catapult_read_dfh_register idev 0 0
    else (0, 0, idev.registers)
  { dfh_header := r0.2.1, offset := 0, read_guid := (0, 0), registers := r0.2.2 }

/-- The function `catapult_get_dfh_offset` (`catapult-device.c`) with `fuel`
iterations of its loop allowed: the offset it returns and the register space,
or `none` when the loop has not ended. The identifier is given by its two
64-bit halves. -/
def catapult_get_dfh_offset (idev : catapult_device) (feature_guid : Nat × Nat) (fuel : Nat) :
    Option (Nat × register_space) :=
  dfh_walk idev feature_guid fuel (dfh_initial idev)

/-- The state of the walk after `n` iterations that did not return. -/
def dfh_iterate (idev : catapult_device) : Nat → dfh_walk_state → dfh_walk_state
  | 0, st => st
  | n + 1, st => dfh_iterate idev n (dfh_advance idev st)

/-! ### Reference walk over a header chain -/

/-- The byte offset of header number `k` of the chain that starts at offset 0:
each header gives the distance to the next in bits 39:16. -/
def chain_offset (registers : register_space) : Nat → Nat
  | 0 => 0
  | k + 1 =>
    chain_offset registers k +
      (registers.content64 (chain_offset registers k) % 2 ^ 64 / 2 ^ 16) % 2 ^ 24

/-- Header number `k` of the chain. -/
def chain_header (registers : register_space) (k : Nat) : Nat :=
  registers.content64 (chain_offset registers k) % 2 ^ 64

/-- The 128-bit identifier of header number `k`: the words at `+0x08` and
`+0x10`. -/
def chain_guid (registers : register_space) (k : Nat) : Nat × Nat :=
  (registers.content64 (chain_offset registers k + 0x08) % 2 ^ 64,
    registers.content64 (chain_offset registers k + 0x10) % 2 ^ 64)

/-- The type tag of a header, bits 63:60. -/
def header_type (h : Nat) : Nat := h / 2 ^ 60 % 16

/-- The end-of-list flag of a header, bit 40. -/
def header_eol (h : Nat) : Nat := h / 2 ^ 40 % 2

/-- A chain of `n + 1` headers that the walk can follow to its end: every
header lies in the BAR at an 8-byte aligned offset that fits the `uint32_t`
the walk computes with, together with its identifier; every header before the
last has a type tag strictly between 0 and 5 and its end-of-list flag clear;
the last one ends the walk, by its end-of-list flag or by its type tag. -/
def well_formed_chain (idev : catapult_device) (n : Nat) : Prop :=
  (∀ k, k ≤ n → chain_offset idev.registers k % 8 = 0 ∧
    chain_offset idev.registers k + 0x18 ≤ idev.registers_cb ∧
    chain_offset idev.registers k + 0x18 ≤ 2 ^ 32) ∧
  (∀ k, k < n → 0 < header_type (chain_header idev.registers k) ∧
    header_type (chain_header idev.registers k) < 5 ∧
    header_eol (chain_header idev.registers k) = 0) ∧
  (header_eol (chain_header idev.registers n) = 1 ∨
    header_type (chain_header idev.registers n) = 0 ∨
    5 ≤ header_type (chain_header idev.registers n))

/-- The search through the headers number `k`, `k + 1`, ... of which `cnt` are
left: the offset of the first whose identifier is `g`, and 0 when there is
none. -/
def reference_dfh_scan (registers : register_space) (g : Nat × Nat) : Nat → Nat → Nat
  | 0, _ => 0
  | cnt + 1, k =>
    if chain_guid registers k = g then chain_offset registers k
    else reference_dfh_scan registers g cnt (k + 1)

/-- The offset the discovery has to return on a chain of `n + 1` headers: that
of the first header after the base whose identifier is `g`, and 0 when there
is none. -/
def reference_dfh_offset (registers : register_space) (g : Nat × Nat) (n : Nat) : Nat :=
  reference_dfh_scan registers g n 1

/-- The walk from state `st` ends after `n` further iterations with result
`r`: the first `n` iterations go on (the loop condition holds and the header
reached does not carry `g`), and then either the loop condition fails and 0 is
returned, or the next header carries `g` and its offset is returned. -/
def dfh_ends (idev : catapult_device) (g : Nat × Nat) (n : Nat) (st : dfh_walk_state)
    (r : Nat × register_space) : Prop :=
  (∀ k, k < n → dfh_continues (dfh_iterate idev k st).dfh_header = true ∧
    (dfh_iterate idev (k + 1) st).read_guid ≠ g) ∧
  ((dfh_continues (dfh_iterate idev n st).dfh_header = false ∧
      r = (0, (dfh_iterate idev n st).registers)) ∨
    (dfh_continues (dfh_iterate idev n st).dfh_header = true ∧
      (dfh_iterate idev (n + 1) st).read_guid = g ∧
      r = ((dfh_iterate idev (n + 1) st).offset, (dfh_iterate idev (n + 1) st).registers)))

/-- A register space with a chain of three headers: the base at 0 (type 4,
next at `+0x100`), a feature at `0x100` (type 3, next at `+0x200`) with
identifier `(0x11, 0x22)`, and a last feature at `0x300` (type 3, end of list)
with identifier `(0x33, 0x44)`. -/
def chain_registers : register_space :=
  { content32 := fun _ => 0,
    content64 := fun offset =>
      if offset = 0 then 0x4000000001000000
      else if offset = 0x100 then 0x3000000002000000
      else if offset = 0x108 then 0x11
      else if offset = 0x110 then 0x22
      else if offset = 0x300 then 0x3000010000000000
      else if offset = 0x308 then 0x33
      else if offset = 0x310 then 0x44
      else 0,
    accesses := [] }

/-- A device whose BAR of `0x1000` bytes holds `chain_registers`. -/
def chain_device : catapult_device :=
  { number_of_slots := 64, bytes_per_slot := BYTES_PER_SLOT,
    slot_map := fun _ => false, slot_map_pids := fun _ => 0,
    registers_base := 0x1000, registers := chain_registers, registers_cb := 0x1000 }

/-- A device whose every 64-bit register reads as a header of type 4 with the
end-of-list flag clear and distance 0 to the next header. -/
def looping_device : catapult_device :=
  { number_of_slots := 64, bytes_per_slot := BYTES_PER_SLOT,
    slot_map := fun _ => false, slot_map_pids := fun _ => 0,
    registers_base := 0x1000,
    registers :=
      { content32 := fun _ => 0, content64 := fun _ => 0x4000000000000000, accesses := [] },
    registers_cb := 0x1000 }

/-! ### The interrupt status the handler tests -/

/-- The field `slot_dma_interrupt` of `union catapult_interrupt_status_register`
(`catapult-shell.h`): bit 0 of the 64-bit word `as_ulonglong`. -/
def slot_dma_interrupt (as_ulonglong : Nat) : Nat := as_ulonglong &&& 1

/-- The local `int_status_reg` of `catapult_interrupt_handler` at the point
where the handler tests it: initialised to zero, and filled by
`catapult_read_dfh_register` from the interrupt status register when the
interrupt feature is present. The handler does not look at the status of that
read; a refused read leaves the zero. -/
def handler_int_status_reg (idev : catapult_device) : Nat :=
  let int_status_reg : Nat := 0
  let dfh : Int × Nat × register_space :=
    if idev.interrupt_feature_offset ≠ 0 then
      catapult_read_dfh_register idev
        ((idev.interrupt_feature_offset + DFH_FEATURE_INTERRUPT_STATUS_REG_OFFSET) % 2 ^ 32)
        int_status_reg
    else (0, int_status_reg, idev.registers)
  dfh.2.1

/-- A device of 64 slots with the BAR mapped whose interrupt feature sits at
the offset `0x104`, so that its interrupt status register at `0x124` is not
8-byte aligned and `catapult_read_dfh_register` refuses the read; every 64-bit
register has bit 0 set and the legacy interrupt status register reads
`0x00000501`. -/
def device_with_refused_status : catapult_device :=
  { number_of_slots := 64, bytes_per_slot := BYTES_PER_SLOT,
    slot_map := fun _ => false, slot_map_pids := fun _ => 0,
    registers_base := 0x1000,
    registers :=
      { content32 := fun offset => if offset = 0x100E4 then 0x00000501 else 0,
        content64 := fun _ => 1, accesses := [] },
    registers_cb := 0x1000000,
    interrupt_feature_offset := 0x104 }

/-! ## Facts about the bitmap primitives -/

theorem test_bit_set_bit (nr j : Nat) (m : Nat → Bool) :
    test_bit j (set_bit nr m) = if j = nr then true else test_bit j m := rfl

theorem test_bit_clear_bit (nr j : Nat) (m : Nat → Bool) :
    test_bit j (clear_bit nr m) = if j = nr then false else test_bit j m := rfl

theorem find_next_zero_bit_scan_spec (map : Nat → Bool) (size : Nat) :
    ∀ cnt i, i + cnt = size →
      i ≤ find_next_zero_bit_scan map size cnt i ∧
      find_next_zero_bit_scan map size cnt i ≤ size ∧
      (∀ j, i ≤ j → j < find_next_zero_bit_scan map size cnt i → map j = true) ∧
      (find_next_zero_bit_scan map size cnt i < size →
        map (find_next_zero_bit_scan map size cnt i) = false) := by
  intro cnt
  induction cnt with
  | zero =>
    intro i h
    simp only [find_next_zero_bit_scan]
    refine ⟨by omega, le_refl _, fun j h1 h2 => by omega, fun h3 => by omega⟩
  | succ n ih =>
    intro i h
    unfold find_next_zero_bit_scan
    by_cases hb : test_bit i map = true
    · rw [if_pos hb]
      obtain ⟨h1, h2, h3, h4⟩ := ih (i + 1) (by omega)
      refine ⟨by omega, h2, fun j hj1 hj2 => ?_, h4⟩
      by_cases hji : j = i
      · subst hji; exact hb
      · exact h3 j (by omega) hj2
    · rw [if_neg hb]
      refine ⟨le_refl _, by omega, fun j h1 h2 => by omega, fun _ => ?_⟩
      simpa [test_bit] using hb

theorem find_next_bit_scan_spec (map : Nat → Bool) (size : Nat) :
    ∀ cnt i, i + cnt = size →
      i ≤ find_next_bit_scan map size cnt i ∧
      find_next_bit_scan map size cnt i ≤ size ∧
      (∀ j, i ≤ j → j < find_next_bit_scan map size cnt i → map j = false) ∧
      (find_next_bit_scan map size cnt i < size →
        map (find_next_bit_scan map size cnt i) = true) := by
  intro cnt
  induction cnt with
  | zero =>
    intro i h
    simp only [find_next_bit_scan]
    refine ⟨by omega, le_refl _, fun j h1 h2 => by omega, fun h3 => by omega⟩
  | succ n ih =>
    intro i h
    unfold find_next_bit_scan
    by_cases hb : test_bit i map = true
    · rw [if_pos hb]
      refine ⟨le_refl _, by omega, fun j h1 h2 => by omega, fun _ => hb⟩
    · rw [if_neg hb]
      obtain ⟨h1, h2, h3, h4⟩ := ih (i + 1) (by omega)
      refine ⟨by omega, h2, fun j hj1 hj2 => ?_, h4⟩
      by_cases hji : j = i
      · subst hji; simpa [test_bit] using hb
      · exact h3 j (by omega) hj2

/-- What `find_next_zero_bit` returns for an offset within the bitmap. -/
theorem find_next_zero_bit_spec (map : Nat → Bool) (size offset : Nat) (h : offset ≤ size) :
    offset ≤ find_next_zero_bit map size offset ∧
    find_next_zero_bit map size offset ≤ size ∧
    (∀ j, offset ≤ j → j < find_next_zero_bit map size offset → map j = true) ∧
    (find_next_zero_bit map size offset < size →
      map (find_next_zero_bit map size offset) = false) :=
  find_next_zero_bit_scan_spec map size (size - offset) offset (by omega)

/-- What `find_next_bit` returns for an offset within the bitmap. -/
theorem find_next_bit_spec (map : Nat → Bool) (size offset : Nat) (h : offset ≤ size) :
    offset ≤ find_next_bit map size offset ∧
    find_next_bit map size offset ≤ size ∧
    (∀ j, offset ≤ j → j < find_next_bit map size offset → map j = false) ∧
    (find_next_bit map size offset < size →
      map (find_next_bit map size offset) = true) :=
  find_next_bit_scan_spec map size (size - offset) offset (by omega)

theorem ALIGN_MASK_zero (x : Nat) (h : x < 2 ^ 64) : ALIGN_MASK x 0 = x := by
  unfold ALIGN_MASK
  have h1 : (2 : Nat) ^ 64 - 1 - 0 % 2 ^ 64 = 2 ^ 64 - 1 := by norm_num
  rw [h1, Nat.and_pow_two_sub_one_eq_mod, Nat.add_zero, Nat.mod_mod, Nat.mod_eq_of_lt h]

/-- The call `bitmap_find_next_zero_area(map, size, 0, 1, 0)` made by
`catapult_acquire_slot`: the lowest clear bit below `size`, and `size + 1` when
all `size` bits are set. -/
theorem bitmap_find_next_zero_area_one (map : Nat → Bool) (size : Nat) (h : size < 2 ^ 64) :
    bitmap_find_next_zero_area map size 0 1 0 =
      if find_next_zero_bit map size 0 < size then find_next_zero_bit map size 0
      else size + 1 := by
  obtain ⟨-, h2, -, h4⟩ := find_next_zero_bit_spec map size 0 (Nat.zero_le _)
  unfold bitmap_find_next_zero_area
  rw [show size + 1 - 0 = size + 1 from rfl]
  unfold bitmap_find_next_zero_area_off_loop
  simp only [Nat.add_zero, Nat.sub_zero]
  rw [ALIGN_MASK_zero _ (by omega)]
  by_cases hlt : find_next_zero_bit map size 0 < size
  · rw [if_pos hlt, if_neg (by omega)]
    have hclear := h4 hlt
    have hfb : find_next_bit map (find_next_zero_bit map size 0 + 1)
        (find_next_zero_bit map size 0) = find_next_zero_bit map size 0 + 1 := by
      unfold find_next_bit
      rw [show find_next_zero_bit map size 0 + 1 - find_next_zero_bit map size 0 = 0 + 1 by omega]
      simp [find_next_bit_scan, test_bit, hclear]
    rw [hfb, if_neg (lt_irrefl _)]
  · have heq : find_next_zero_bit map size 0 = size := by omega
    rw [if_neg hlt, heq, if_pos (by omega)]

/-! ## Single-slot acquire -/

/-- With the mutex taken, `catapult_acquire_slot` in closed form. -/
theorem catapult_acquire_slot_locked (idev : catapult_device) (copy_left : Nat) (p : Int)
    (hN : idev.number_of_slots ≤ MAX_FPGA_NUM_SLOTS) :
    catapult_acquire_slot idev 0 copy_left p =
      if find_next_zero_bit idev.slot_map idev.number_of_slots 0 < idev.number_of_slots then
        if copy_left ≠ 0 then
          { status := -EFAULT
            idev := mark_slot idev (find_next_zero_bit idev.slot_map idev.number_of_slots 0) p
            arg := none }
        else
          { status := 0
            idev := mark_slot idev (find_next_zero_bit idev.slot_map idev.number_of_slots 0) p
            arg := some (reservation_of (find_next_zero_bit idev.slot_map idev.number_of_slots 0)) }
      else { status := -ENOSPC, idev := idev, arg := none } := by
  have hN' : idev.number_of_slots ≤ 256 := hN
  unfold catapult_acquire_slot
  rw [bitmap_find_next_zero_area_one _ _ (by omega)]
  by_cases hlt : find_next_zero_bit idev.slot_map idev.number_of_slots 0 < idev.number_of_slots
  · have hmod : find_next_zero_bit idev.slot_map idev.number_of_slots 0 % 2 ^ 32 =
        find_next_zero_bit idev.slot_map idev.number_of_slots 0 :=
      Nat.mod_eq_of_lt (by omega)
    simp only [if_pos hlt, hmod, Nat.zero_le, true_and, if_true, mark_slot, reservation_of]
    by_cases hc : copy_left = 0
    · simp [hc]
    · simp [hc]
  · have hmod : (idev.number_of_slots + 1) % 4294967296 = idev.number_of_slots + 1 := by
      omega
    have hfull : ¬ idev.number_of_slots + 1 < idev.number_of_slots := by omega
    have hns : (-ENOSPC : Int) ≠ 0 := by decide
    simp [if_neg hlt, hmod, hns, hfull]

/-- Claim C2. `catapult_acquire_slot` with the mutex taken and the copy-out
succeeding, on a device of at most `MAX_FPGA_NUM_SLOTS` slots and for every
bitmap, owner table and caller `p`: when some bit below `number_of_slots` is
clear, the request succeeds and reports the lowest index `i` whose bit is clear,
sets bit `i`, stores `p` in `slot_map_pids[i]` and changes no other slot; it
returns `-ENOSPC` exactly when all `number_of_slots` bits are set, and then the
device is unchanged. -/
theorem catapult_acquire_slot_lowest_free (idev : catapult_device) (p : Int)
    (hN : idev.number_of_slots ≤ MAX_FPGA_NUM_SLOTS) :
    ((∃ i, i < idev.number_of_slots ∧ idev.slot_map i = false) →
      ∃ i, i < idev.number_of_slots ∧ idev.slot_map i = false ∧
        (∀ j, j < i → idev.slot_map j = true) ∧
        (catapult_acquire_slot idev 0 0 p).status = 0 ∧
        (catapult_acquire_slot idev 0 0 p).arg = some (reservation_of i) ∧
        (catapult_acquire_slot idev 0 0 p).idev.slot_map i = true ∧
        (catapult_acquire_slot idev 0 0 p).idev.slot_map_pids i = p ∧
        (catapult_acquire_slot idev 0 0 p).idev.number_of_slots = idev.number_of_slots ∧
        ∀ j, j ≠ i →
          (catapult_acquire_slot idev 0 0 p).idev.slot_map j = idev.slot_map j ∧
          (catapult_acquire_slot idev 0 0 p).idev.slot_map_pids j = idev.slot_map_pids j) ∧
    ((catapult_acquire_slot idev 0 0 p).status = -ENOSPC ↔
      ∀ i, i < idev.number_of_slots → idev.slot_map i = true) ∧
    ((catapult_acquire_slot idev 0 0 p).status = -ENOSPC →
      (catapult_acquire_slot idev 0 0 p).idev = idev) := by
  obtain ⟨-, h2, h3, h4⟩ :=
    find_next_zero_bit_spec idev.slot_map idev.number_of_slots 0 (Nat.zero_le _)
  rw [catapult_acquire_slot_locked idev 0 p hN]
  by_cases hlt : find_next_zero_bit idev.slot_map idev.number_of_slots 0 < idev.number_of_slots
  · rw [if_pos hlt, if_neg (by simp)]
    refine ⟨fun _ => ⟨_, hlt, h4 hlt, fun j hj => h3 j (Nat.zero_le _) hj, rfl, rfl, ?_, ?_, rfl,
      fun j hj => ⟨?_, ?_⟩⟩, ⟨fun h => ?_, fun h => ?_⟩, fun h => ?_⟩
    · simp [mark_slot, set_bit]
    · simp [mark_slot, pid_store]
    · simp [mark_slot, set_bit, hj]
    · simp [mark_slot, pid_store, hj]
    · exact absurd (show (0 : Int) = -ENOSPC from h) (by decide)
    · have := h _ hlt
      rw [h4 hlt] at this
      exact absurd this (by decide)
    · exact absurd (show (0 : Int) = -ENOSPC from h) (by decide)
  · have heq : find_next_zero_bit idev.slot_map idev.number_of_slots 0 = idev.number_of_slots := by
      omega
    rw [if_neg hlt]
    refine ⟨fun ⟨i, hi, hclr⟩ => ?_, ⟨fun _ i hi => h3 i (Nat.zero_le _) (by omega), fun _ => rfl⟩,
      fun _ => rfl⟩
    have := h3 i (Nat.zero_le _) (by omega)
    rw [hclr] at this
    exact absurd this (by decide)

/-- Claim C2 at a device of four slots whose slots 0 and 2 are taken: the
request by process 1000 gets slot 1. -/
theorem catapult_acquire_slot_lowest_free_witness :
    (4 : Nat) ≤ MAX_FPGA_NUM_SLOTS ∧
    (catapult_acquire_slot
      { number_of_slots := 4, bytes_per_slot := BYTES_PER_SLOT,
        slot_map := fun j => decide (j = 0 ∨ j = 2),
        slot_map_pids := fun j => if j = 0 ∨ j = 2 then 77 else 0 } 0 0 1000).arg =
      some (reservation_of 1) := by
  refine ⟨by decide, ?_⟩
  obtain ⟨i, hi, hclr, hlow, -, harg, -⟩ :=
    (catapult_acquire_slot_lowest_free
      { number_of_slots := 4, bytes_per_slot := BYTES_PER_SLOT,
        slot_map := fun j => decide (j = 0 ∨ j = 2),
        slot_map_pids := fun j => if j = 0 ∨ j = 2 then 77 else 0 } 1000 (by decide)).1
      ⟨1, by decide, by decide⟩
  have h1 : i = 1 := by
    rcases Nat.lt_or_ge i 1 with h | h
    · have h0 : i = 0 := by omega
      subst h0
      exact absurd hclr (by decide)
    · rcases Nat.eq_or_lt_of_le h with h | h
      · exact h.symm
      · exact absurd (hlow 1 h) (by decide)
  rw [harg, h1]

/-! ## Filling the device one slot at a time -/

/-- When exactly the bits below `k` are set, the first clear bit is `k`. -/
theorem find_next_zero_bit_of_filled (map : Nat → Bool) (size k : Nat) (hk : k ≤ size)
    (h : ∀ j, map j = true ↔ j < k) : find_next_zero_bit map size 0 = k := by
  obtain ⟨-, h2, h3, h4⟩ := find_next_zero_bit_spec map size 0 (Nat.zero_le _)
  have hle : find_next_zero_bit map size 0 ≤ k := by
    by_contra hgt
    have := (h k).1 (h3 k (Nat.zero_le _) (by omega))
    omega
  have hge : k ≤ find_next_zero_bit map size 0 := by
    by_contra hlt
    have hclr := h4 (by omega)
    have hset := (h (find_next_zero_bit map size 0)).2 (by omega)
    rw [hclr] at hset
    exact absurd hset (by decide)
  omega

theorem fresh_device_number_of_slots (n : Nat) : (fresh_device n).number_of_slots = n := rfl

theorem fresh_device_slot_map (n j : Nat) : (fresh_device n).slot_map j = false := rfl

theorem fresh_device_slot_map_pids (n j : Nat) : (fresh_device n).slot_map_pids j = 0 := rfl

/-- The state after `k` acquires on a fresh device of `n ≥ k` slots: exactly
the bits below `k` are set, and the requests returned slots `0 .. k - 1`. -/
theorem acquire_repeat_fresh (callers : Nat → Int) (n : Nat) (hn : n ≤ MAX_FPGA_NUM_SLOTS) :
    ∀ k, k ≤ n →
      (acquire_repeat callers (fresh_device n) k).1.number_of_slots = n ∧
      (∀ j, (acquire_repeat callers (fresh_device n) k).1.slot_map j = true ↔ j < k) ∧
      (acquire_repeat callers (fresh_device n) k).2 =
        (List.range k).map (fun i => ((0 : Int), some (reservation_of i))) := by
  intro k
  induction k with
  | zero =>
    intro _
    refine ⟨rfl, fun j => ?_, rfl⟩
    simp [acquire_repeat, fresh_device_slot_map]
  | succ k ih =>
    intro hk
    obtain ⟨h1, h2, h3⟩ := ih (by omega)
    have hfree : find_next_zero_bit (acquire_repeat callers (fresh_device n) k).1.slot_map
        (acquire_repeat callers (fresh_device n) k).1.number_of_slots 0 = k := by
      rw [h1]
      exact find_next_zero_bit_of_filled _ n k (by omega) h2
    have hstep := catapult_acquire_slot_locked (acquire_repeat callers (fresh_device n) k).1 0
      (callers k) (by rw [h1]; exact hn)
    rw [hfree, h1, if_pos (by omega), if_neg (by simp)] at hstep
    simp only [acquire_repeat, hstep]
    refine ⟨h1, fun j => ?_, ?_⟩
    · simp only [mark_slot, set_bit]
      by_cases hj : j = k
      · simp [hj]
      · rw [if_neg hj, h2 j]
        omega
    · rw [h3, List.range_succ, List.map_append]
      rfl

/-- Claim C3. For every slot count `n ≤ 256` (so for every `n` with
`2 ≤ n ≤ 256`) and every choice of callers, `n` consecutive `catapult_acquire_slot` requests on the freshly
initialised device all succeed and report the slots `0, 1, ..., n - 1` in that
order, which are pairwise distinct, and the request after them (by any process
`q`) returns `-ENOSPC`. -/
theorem acquire_fills_then_exhausts (n : Nat) (hhi : n ≤ MAX_FPGA_NUM_SLOTS)
    (callers : Nat → Int) (q : Int) :
    (acquire_repeat callers (fresh_device n) n).2 =
      (List.range n).map (fun i => ((0 : Int), some (reservation_of i))) ∧
    ((acquire_repeat callers (fresh_device n) n).2.map Prod.snd).Nodup ∧
    (catapult_acquire_slot (acquire_repeat callers (fresh_device n) n).1 0 0 q).status =
      -ENOSPC := by
  obtain ⟨h1, h2, h3⟩ := acquire_repeat_fresh callers n hhi n (le_refl _)
  refine ⟨h3, ?_, ?_⟩
  · rw [h3, List.map_map]
    refine List.Nodup.map ?_ (List.nodup_range n)
    intro a b hab
    simpa [reservation_of] using hab
  · have hfull : find_next_zero_bit (acquire_repeat callers (fresh_device n) n).1.slot_map
        (acquire_repeat callers (fresh_device n) n).1.number_of_slots 0 = n := by
      rw [h1]
      exact find_next_zero_bit_of_filled _ n n (le_refl _) h2
    rw [catapult_acquire_slot_locked _ 0 q (by rw [h1]; exact hhi), hfull, h1,
      if_neg (lt_irrefl _)]

/-- Claim C3 at three slots, requested by processes 100, 101 and 102. -/
theorem acquire_fills_then_exhausts_witness :
    (acquire_repeat (fun k => 100 + k) (fresh_device 3) 3).2 =
      [(0, some (reservation_of 0)), (0, some (reservation_of 1)),
        (0, some (reservation_of 2))] ∧
    (catapult_acquire_slot (acquire_repeat (fun k => 100 + k) (fresh_device 3) 3).1 0 0
      103).status = -ENOSPC :=
  ⟨(acquire_fills_then_exhausts 3 (by decide) (fun k => 100 + k) 103).1,
    (acquire_fills_then_exhausts 3 (by decide) (fun k => 100 + k) 103).2.2⟩

/-! ## Range acquire -/

theorem acquire_range_check_busy (map : Nat → Bool) :
    ∀ cnt i, (∃ j, i ≤ j ∧ j < i + cnt ∧ map j = true) →
      acquire_range_check map 0 cnt i = -EBUSY := by
  intro cnt
  induction cnt with
  | zero =>
    rintro i ⟨j, h1, h2, -⟩
    omega
  | succ n ih =>
    rintro i ⟨j, h1, h2, h3⟩
    unfold acquire_range_check
    by_cases hb : test_bit i map = true
    · rw [if_pos hb]
    · rw [if_neg hb]
      refine ih (i + 1) ⟨j, ?_, by omega, h3⟩
      by_contra hlt
      have hji : j = i := by omega
      subst hji
      exact hb h3

theorem acquire_range_check_free (map : Nat → Bool) :
    ∀ cnt i, (∀ j, i ≤ j → j < i + cnt → map j = false) →
      acquire_range_check map 0 cnt i = 0 := by
  intro cnt
  induction cnt with
  | zero => intro i _; rfl
  | succ n ih =>
    intro i h
    unfold acquire_range_check
    have hb : ¬ test_bit i map = true := by
      rw [test_bit, h i (le_refl _) (by omega)]
      decide
    rw [if_neg hb]
    exact ih (i + 1) (fun j h1 h2 => h j (by omega) (by omega))

theorem acquire_range_mark_bits (current : Int) :
    ∀ cnt i (st : (Nat → Bool) × (Nat → Int)) j,
      (acquire_range_mark current cnt i st).1 j =
        if i ≤ j ∧ j < i + cnt then true else st.1 j := by
  intro cnt
  induction cnt with
  | zero =>
    intro i st j
    rw [if_neg (by omega)]
    rfl
  | succ n ih =>
    intro i st j
    unfold acquire_range_mark
    rw [ih]
    simp only [set_bit]
    by_cases h1 : i + 1 ≤ j ∧ j < i + 1 + n
    · rw [if_pos h1, if_pos (by omega)]
    · rw [if_neg h1]
      by_cases h2 : j = i
      · rw [if_pos h2, if_pos (by omega)]
      · rw [if_neg h2, if_neg (by omega)]

theorem acquire_range_mark_pids (current : Int) :
    ∀ cnt i (st : (Nat → Bool) × (Nat → Int)) j,
      (acquire_range_mark current cnt i st).2 j =
        if i ≤ j ∧ j < i + cnt then current else st.2 j := by
  intro cnt
  induction cnt with
  | zero =>
    intro i st j
    rw [if_neg (by omega)]
    rfl
  | succ n ih =>
    intro i st j
    unfold acquire_range_mark
    rw [ih]
    simp only [pid_store]
    by_cases h1 : i + 1 ≤ j ∧ j < i + 1 + n
    · rw [if_pos h1, if_pos (by omega)]
    · rw [if_neg h1]
      by_cases h2 : j = i
      · rw [if_pos h2, if_pos (by omega)]
      · rw [if_neg h2, if_neg (by omega)]

theorem acquire_range_fill_entry (start : Nat) :
    ∀ cnt i (r : Nat → catapult_slot_reservation) k, start ≤ i →
      acquire_range_fill start cnt i r k =
        if i - start ≤ k ∧ k < i - start + cnt then reservation_of (start + k) else r k := by
  intro cnt
  induction cnt with
  | zero =>
    intro i r k _
    rw [if_neg (by omega)]
    rfl
  | succ n ih =>
    intro i r k hi
    unfold acquire_range_fill
    rw [ih _ _ _ (by omega)]
    simp only [reservation_store]
    by_cases h1 : i + 1 - start ≤ k ∧ k < i + 1 - start + n
    · rw [if_pos h1, if_pos (by omega)]
    · rw [if_neg h1]
      by_cases h2 : k = i - start
      · rw [if_pos h2, if_pos (by omega)]
        have : start + k = i := by omega
        rw [this]
        rfl
      · rw [if_neg h2, if_neg (by omega)]

/-- Past its argument checks and with the mutex taken,
`catapult_acquire_slot_range` is the three loops followed by the copy-out. -/
theorem catapult_acquire_slot_range_locked (idev : catapult_device)
    (uarg : catapult_acquire_slot_range_info) (copy_out_left : Nat) (p : Int)
    (htype : uarg.slot_range.range_type = CATAPULT_SLOT_RANGE_CONTIGUOUS)
    (hse : uarg.slot_range.start ≤ uarg.slot_range.end_)
    (hend : uarg.slot_range.end_ < idev.number_of_slots) :
    catapult_acquire_slot_range idev true 0 uarg 0 copy_out_left p =
      if copy_out_left ≠ 0 then
        { status := -EFAULT
          idev := { idev with
            slot_map := (if acquire_range_check idev.slot_map 0
                (uarg.slot_range.end_ + 1 - uarg.slot_range.start) uarg.slot_range.start = 0 then
              acquire_range_mark p (uarg.slot_range.end_ + 1 - uarg.slot_range.start)
                uarg.slot_range.start (idev.slot_map, idev.slot_map_pids)
              else (idev.slot_map, idev.slot_map_pids)).1
            slot_map_pids := (if acquire_range_check idev.slot_map 0
                (uarg.slot_range.end_ + 1 - uarg.slot_range.start) uarg.slot_range.start = 0 then
              acquire_range_mark p (uarg.slot_range.end_ + 1 - uarg.slot_range.start)
                uarg.slot_range.start (idev.slot_map, idev.slot_map_pids)
              else (idev.slot_map, idev.slot_map_pids)).2 }
          arg := none }
      else
        { status := acquire_range_check idev.slot_map 0
            (uarg.slot_range.end_ + 1 - uarg.slot_range.start) uarg.slot_range.start
          idev := { idev with
            slot_map := (if acquire_range_check idev.slot_map 0
                (uarg.slot_range.end_ + 1 - uarg.slot_range.start) uarg.slot_range.start = 0 then
              acquire_range_mark p (uarg.slot_range.end_ + 1 - uarg.slot_range.start)
                uarg.slot_range.start (idev.slot_map, idev.slot_map_pids)
              else (idev.slot_map, idev.slot_map_pids)).1
            slot_map_pids := (if acquire_range_check idev.slot_map 0
                (uarg.slot_range.end_ + 1 - uarg.slot_range.start) uarg.slot_range.start = 0 then
              acquire_range_mark p (uarg.slot_range.end_ + 1 - uarg.slot_range.start)
                uarg.slot_range.start (idev.slot_map, idev.slot_map_pids)
              else (idev.slot_map, idev.slot_map_pids)).2 }
          arg := some { uarg with
            reservations := acquire_range_fill uarg.slot_range.start
              (uarg.slot_range.end_ + 1 - uarg.slot_range.start) uarg.slot_range.start
              uarg.reservations } } := by
  have hvalid : ¬ (uarg.slot_range.start ≥ idev.number_of_slots ∨
      uarg.slot_range.end_ ≥ idev.number_of_slots ∨
      uarg.slot_range.start > uarg.slot_range.end_) := by omega
  unfold catapult_acquire_slot_range
  simp only [Bool.not_true, Bool.false_eq_true, if_false, ne_eq, not_true_eq_false, htype,
    if_neg hvalid]

/-- On a conflict the device comes back unchanged, whatever the environment
does. -/
theorem catapult_acquire_slot_range_conflict (idev : catapult_device)
    (uarg : catapult_acquire_slot_range_info) (kzalloc_ok : Bool)
    (copy_in_left : Nat) (lock_status : Int) (copy_out_left : Nat) (p : Int)
    (hbusy : ∃ j, uarg.slot_range.start ≤ j ∧ j ≤ uarg.slot_range.end_ ∧
      idev.slot_map j = true) :
    (catapult_acquire_slot_range idev kzalloc_ok copy_in_left uarg lock_status copy_out_left
      p).idev = idev := by
  obtain ⟨j, h1, h2, h3⟩ := hbusy
  have hchk := acquire_range_check_busy idev.slot_map
    (uarg.slot_range.end_ + 1 - uarg.slot_range.start) uarg.slot_range.start
    ⟨j, h1, by omega, h3⟩
  have hne : ¬ (-EBUSY : Int) = 0 := by decide
  unfold catapult_acquire_slot_range
  by_cases hl : lock_status = 0
  · subst hl
    simp only [hchk, if_neg hne]
    split_ifs <;> rfl
  · simp only [if_pos (show lock_status ≠ 0 from hl)]
    split_ifs <;> rfl

/-- Claim C4. `catapult_acquire_slot_range` is atomic on a conflict: for every
device state and every contiguous request `[start, end]` with
`start ≤ end < number_of_slots` in which some slot already has its bit set, the
bitmap and the owner table (the whole device record) are the same after the
call as before, whatever the allocation, the copies and the mutex do; and when
all of those succeed the call returns `-EBUSY`. -/
theorem acquire_range_conflict_is_atomic (idev : catapult_device)
    (uarg : catapult_acquire_slot_range_info) (kzalloc_ok : Bool)
    (copy_in_left : Nat) (lock_status : Int) (copy_out_left : Nat) (p : Int)
    (htype : uarg.slot_range.range_type = CATAPULT_SLOT_RANGE_CONTIGUOUS)
    (hse : uarg.slot_range.start ≤ uarg.slot_range.end_)
    (hend : uarg.slot_range.end_ < idev.number_of_slots)
    (hbusy : ∃ j, uarg.slot_range.start ≤ j ∧ j ≤ uarg.slot_range.end_ ∧
      idev.slot_map j = true) :
    (catapult_acquire_slot_range idev kzalloc_ok copy_in_left uarg lock_status copy_out_left
      p).idev = idev ∧
    (∀ j, (catapult_acquire_slot_range idev kzalloc_ok copy_in_left uarg lock_status
        copy_out_left p).idev.slot_map j = idev.slot_map j ∧
      (catapult_acquire_slot_range idev kzalloc_ok copy_in_left uarg lock_status
        copy_out_left p).idev.slot_map_pids j = idev.slot_map_pids j) ∧
    (kzalloc_ok = true → copy_in_left = 0 → lock_status = 0 → copy_out_left = 0 →
      (catapult_acquire_slot_range idev kzalloc_ok copy_in_left uarg lock_status copy_out_left
        p).status = -EBUSY) := by
  have hsame := catapult_acquire_slot_range_conflict idev uarg kzalloc_ok copy_in_left
    lock_status copy_out_left p hbusy
  refine ⟨hsame, fun j => by rw [hsame]; exact ⟨rfl, rfl⟩, ?_⟩
  intro hk hc hl ho
  subst hk hc hl ho
  obtain ⟨j, h1, h2, h3⟩ := hbusy
  rw [catapult_acquire_slot_range_locked idev uarg 0 p htype hse hend, if_neg (by simp)]
  exact acquire_range_check_busy idev.slot_map _ _ ⟨j, h1, by omega, h3⟩

/-- Claim C4 on a device of eight slots where slot 3 is held by process 5 and
process 9 asks for the range `[2, 4]`. -/
theorem acquire_range_conflict_is_atomic_witness :
    (catapult_acquire_slot_range
      { number_of_slots := 8, bytes_per_slot := BYTES_PER_SLOT,
        slot_map := fun j => decide (j = 3), slot_map_pids := fun j => if j = 3 then 5 else 0 }
      true 0
      { slot_range := { range_type := CATAPULT_SLOT_RANGE_CONTIGUOUS, start := 2, end_ := 4 },
        reservations := fun _ => reservation_of 0 } 0 0 9).status = -EBUSY :=
  (acquire_range_conflict_is_atomic
    { number_of_slots := 8, bytes_per_slot := BYTES_PER_SLOT,
      slot_map := fun j => decide (j = 3), slot_map_pids := fun j => if j = 3 then 5 else 0 }
    { slot_range := { range_type := CATAPULT_SLOT_RANGE_CONTIGUOUS, start := 2, end_ := 4 },
      reservations := fun _ => reservation_of 0 } true 0 0 0 9 rfl (by decide) (by decide)
    ⟨3, by decide, by decide, by decide⟩).2.2 rfl rfl rfl rfl

/-- Claim C5. The outcome of `catapult_acquire_slot_range` when the allocation,
both user copies and the mutex succeed, for every device, request and caller:
it returns `-EINVAL` exactly when the range type is not
`CATAPULT_SLOT_RANGE_CONTIGUOUS` or `start ≤ end < number_of_slots` fails;
otherwise `-EBUSY` exactly when some bit in `[start, end]` is set; otherwise 0.
On `-EINVAL` the device is unchanged. -/
theorem acquire_range_outcome (idev : catapult_device)
    (uarg : catapult_acquire_slot_range_info) (p : Int) :
    ((catapult_acquire_slot_range idev true 0 uarg 0 0 p).status = -EINVAL ↔
      (uarg.slot_range.range_type ≠ CATAPULT_SLOT_RANGE_CONTIGUOUS ∨
        ¬ (uarg.slot_range.start ≤ uarg.slot_range.end_ ∧
          uarg.slot_range.end_ < idev.number_of_slots))) ∧
    ((catapult_acquire_slot_range idev true 0 uarg 0 0 p).status = -EBUSY ↔
      (uarg.slot_range.range_type = CATAPULT_SLOT_RANGE_CONTIGUOUS ∧
        uarg.slot_range.start ≤ uarg.slot_range.end_ ∧
        uarg.slot_range.end_ < idev.number_of_slots ∧
        ∃ j, uarg.slot_range.start ≤ j ∧ j ≤ uarg.slot_range.end_ ∧ idev.slot_map j = true)) ∧
    ((catapult_acquire_slot_range idev true 0 uarg 0 0 p).status = 0 ↔
      (uarg.slot_range.range_type = CATAPULT_SLOT_RANGE_CONTIGUOUS ∧
        uarg.slot_range.start ≤ uarg.slot_range.end_ ∧
        uarg.slot_range.end_ < idev.number_of_slots ∧
        ∀ j, uarg.slot_range.start ≤ j → j ≤ uarg.slot_range.end_ →
          idev.slot_map j = false)) ∧
    ((catapult_acquire_slot_range idev true 0 uarg 0 0 p).status = -EINVAL →
      (catapult_acquire_slot_range idev true 0 uarg 0 0 p).idev = idev) := by
  have e1 : ¬ (-EINVAL : Int) = -EBUSY := by decide
  have e2 : ¬ (-EINVAL : Int) = 0 := by decide
  have e3 : ¬ (-EBUSY : Int) = -EINVAL := by decide
  have e4 : ¬ (-EBUSY : Int) = 0 := by decide
  have e5 : ¬ (0 : Int) = -EINVAL := by decide
  have e6 : ¬ (0 : Int) = -EBUSY := by decide
  by_cases htype : uarg.slot_range.range_type = CATAPULT_SLOT_RANGE_CONTIGUOUS
  · by_cases hvalid : uarg.slot_range.start ≤ uarg.slot_range.end_ ∧
        uarg.slot_range.end_ < idev.number_of_slots
    · obtain ⟨hse, hend⟩ := hvalid
      rw [catapult_acquire_slot_range_locked idev uarg 0 p htype hse hend, if_neg (by simp)]
      by_cases hbusy : ∃ j, uarg.slot_range.start ≤ j ∧ j ≤ uarg.slot_range.end_ ∧
          idev.slot_map j = true
      · obtain ⟨j, h1, h2, h3⟩ := hbusy
        have hchk := acquire_range_check_busy idev.slot_map
          (uarg.slot_range.end_ + 1 - uarg.slot_range.start) uarg.slot_range.start
          ⟨j, h1, by omega, h3⟩
        simp only [hchk]
        refine ⟨⟨fun h => absurd h e3, fun h => ?_⟩, ⟨fun _ => ⟨htype, hse, hend, j, h1, h2, h3⟩,
          fun _ => trivial⟩, ⟨fun h => absurd h e4, fun h => ?_⟩, fun h => absurd h e3⟩
        · rcases h with h | h
          · exact absurd htype h
          · exact absurd ⟨hse, hend⟩ h
        · have := h.2.2.2 j h1 h2
          rw [h3] at this
          exact absurd this (by decide)
      · have hfree : ∀ j, uarg.slot_range.start ≤ j → j ≤ uarg.slot_range.end_ →
            idev.slot_map j = false := by
          intro j h1 h2
          by_contra hset
          exact hbusy ⟨j, h1, h2, by simpa using hset⟩
        have hchk := acquire_range_check_free idev.slot_map
          (uarg.slot_range.end_ + 1 - uarg.slot_range.start) uarg.slot_range.start
          (fun j h1 h2 => hfree j h1 (by omega))
        simp only [hchk]
        refine ⟨⟨fun h => absurd h e5, fun h => ?_⟩, ⟨fun h => absurd h e6, fun h => ?_⟩,
          ⟨fun _ => ⟨htype, hse, hend, hfree⟩, fun _ => trivial⟩, fun h => absurd h e5⟩
        · rcases h with h | h
          · exact absurd htype h
          · exact absurd ⟨hse, hend⟩ h
        · exact absurd h.2.2.2 hbusy
    · have hinv : uarg.slot_range.start ≥ idev.number_of_slots ∨
          uarg.slot_range.end_ ≥ idev.number_of_slots ∨
          uarg.slot_range.start > uarg.slot_range.end_ := by omega
      have hres : catapult_acquire_slot_range idev true 0 uarg 0 0 p =
          { status := -EINVAL, idev := idev, arg := none } := by
        unfold catapult_acquire_slot_range
        simp only [Bool.not_true, Bool.false_eq_true, if_false, ne_eq, not_true_eq_false, htype,
          if_pos hinv]
      rw [hres]
      refine ⟨⟨fun _ => Or.inr hvalid, fun _ => rfl⟩, ⟨fun h => absurd h e1, fun h => ?_⟩,
        ⟨fun h => absurd h e2, fun h => ?_⟩, fun _ => rfl⟩
      · exact absurd ⟨h.2.1, h.2.2.1⟩ hvalid
      · exact absurd ⟨h.2.1, h.2.2.1⟩ hvalid
  · have hres : catapult_acquire_slot_range idev true 0 uarg 0 0 p =
        { status := -EINVAL, idev := idev, arg := none } := by
      unfold catapult_acquire_slot_range
      simp only [Bool.not_true, Bool.false_eq_true, if_false, ne_eq, not_true_eq_false,
        if_pos (show ¬ uarg.slot_range.range_type = CATAPULT_SLOT_RANGE_CONTIGUOUS from htype)]
    rw [hres]
    refine ⟨⟨fun _ => Or.inl htype, fun _ => rfl⟩, ⟨fun h => absurd h e1, fun h => ?_⟩,
      ⟨fun h => absurd h e2, fun h => ?_⟩, fun _ => rfl⟩
    · exact absurd h.1 htype
    · exact absurd h.1 htype

/-- Claim C6. The effect of a successful `catapult_acquire_slot_range`: for
every device state in which all slots of a contiguous request `[start, end]`
with `start ≤ end < number_of_slots` are free, after the call by process `p`
(allocation, copies and mutex succeeding) the call has returned 0, every slot
of `[start, end]` has its bit set and `p` as its owner, every slot outside the
range has its bit and owner unchanged, and the record copied out has
`reservations[k].slot = start + k` for `0 ≤ k ≤ end - start`. -/
theorem acquire_range_success_effect (idev : catapult_device)
    (uarg : catapult_acquire_slot_range_info) (p : Int)
    (htype : uarg.slot_range.range_type = CATAPULT_SLOT_RANGE_CONTIGUOUS)
    (hse : uarg.slot_range.start ≤ uarg.slot_range.end_)
    (hend : uarg.slot_range.end_ < idev.number_of_slots)
    (hfree : ∀ j, uarg.slot_range.start ≤ j → j ≤ uarg.slot_range.end_ →
      idev.slot_map j = false) :
    (catapult_acquire_slot_range idev true 0 uarg 0 0 p).status = 0 ∧
    (∀ i, uarg.slot_range.start ≤ i → i ≤ uarg.slot_range.end_ →
      (catapult_acquire_slot_range idev true 0 uarg 0 0 p).idev.slot_map i = true ∧
      (catapult_acquire_slot_range idev true 0 uarg 0 0 p).idev.slot_map_pids i = p) ∧
    (∀ i, i < uarg.slot_range.start ∨ uarg.slot_range.end_ < i →
      (catapult_acquire_slot_range idev true 0 uarg 0 0 p).idev.slot_map i = idev.slot_map i ∧
      (catapult_acquire_slot_range idev true 0 uarg 0 0 p).idev.slot_map_pids i =
        idev.slot_map_pids i) ∧
    (catapult_acquire_slot_range idev true 0 uarg 0 0 p).idev.number_of_slots =
      idev.number_of_slots ∧
    ∃ info, (catapult_acquire_slot_range idev true 0 uarg 0 0 p).arg = some info ∧
      info.slot_range = uarg.slot_range ∧
      ∀ k, k ≤ uarg.slot_range.end_ - uarg.slot_range.start →
        (info.reservations k).slot = uarg.slot_range.start + k := by
  have hchk := acquire_range_check_free idev.slot_map
    (uarg.slot_range.end_ + 1 - uarg.slot_range.start) uarg.slot_range.start
    (fun j h1 h2 => hfree j h1 (by omega))
  rw [catapult_acquire_slot_range_locked idev uarg 0 p htype hse hend, if_neg (by simp)]
  simp only [hchk, if_true]
  refine ⟨trivial, fun i h1 h2 => ⟨?_, ?_⟩, fun i hi => ⟨?_, ?_⟩, trivial, _, rfl, rfl,
    fun k hk => ?_⟩
  · rw [acquire_range_mark_bits, if_pos (by omega)]
  · rw [acquire_range_mark_pids, if_pos (by omega)]
  · rw [acquire_range_mark_bits, if_neg (by omega)]
  · rw [acquire_range_mark_pids, if_neg (by omega)]
  · simp only
    rw [acquire_range_fill_entry _ _ _ _ _ (le_refl _), if_pos (by omega)]
    rfl

/-- Claim C6 on a fresh device of eight slots: process 9 takes `[2, 4]`. -/
theorem acquire_range_success_effect_witness :
    (catapult_acquire_slot_range (fresh_device 8) true 0
      { slot_range := { range_type := CATAPULT_SLOT_RANGE_CONTIGUOUS, start := 2, end_ := 4 },
        reservations := fun _ => reservation_of 0 } 0 0 9).status = 0 :=
  (acquire_range_success_effect (fresh_device 8)
    { slot_range := { range_type := CATAPULT_SLOT_RANGE_CONTIGUOUS, start := 2, end_ := 4 },
      reservations := fun _ => reservation_of 0 } 9 rfl (by decide) (by decide)
    (fun _ _ _ => rfl)).1

/-! ## Single-slot release -/

/-- The index `r` is the first clear bit when it is clear and every bit below
it is set. -/
theorem find_next_zero_bit_unique (map : Nat → Bool) (size r : Nat) (hr : r < size)
    (hclr : map r = false) (hlow : ∀ j, j < r → map j = true) :
    find_next_zero_bit map size 0 = r := by
  obtain ⟨-, h2, h3, h4⟩ := find_next_zero_bit_spec map size 0 (Nat.zero_le _)
  have hle : find_next_zero_bit map size 0 ≤ r := by
    by_contra hgt
    have := h3 r (Nat.zero_le _) (by omega)
    rw [hclr] at this
    exact absurd this (by decide)
  have hge : r ≤ find_next_zero_bit map size 0 := by
    by_contra hlt
    have h5 := h4 (by omega)
    rw [hlow _ (by omega)] at h5
    exact absurd h5 (by decide)
  omega

/-- A release that is refused leaves the device as it was, whatever
`copy_from_user` did. -/
theorem catapult_release_slot_refused (idev : catapult_device) (copy_left : Nat)
    (input : catapult_slot_reservation) (p : Int)
    (h : ¬ (idev.slot_map input.slot = true ∧ idev.slot_map_pids input.slot = p)) :
    (catapult_release_slot idev copy_left input p).2 = idev := by
  unfold catapult_release_slot
  simp only [test_bit]
  rw [if_neg h]
  split_ifs <;> rfl

/-- The status of a release that is refused for a slot within range. -/
theorem catapult_release_slot_refused_status (idev : catapult_device)
    (input : catapult_slot_reservation) (p : Int) (hi : input.slot < idev.number_of_slots)
    (h : ¬ (idev.slot_map input.slot = true ∧ idev.slot_map_pids input.slot = p)) :
    (catapult_release_slot idev 0 input p).1 = -EACCES := by
  have hrange : ¬ (input.slot < 0 ∨ input.slot ≥ idev.number_of_slots) := by omega
  unfold catapult_release_slot
  simp only [test_bit]
  rw [if_neg (by simp), if_neg hrange, if_neg h]

/-- The release of a slot by its owner. -/
theorem catapult_release_slot_owner (idev : catapult_device)
    (input : catapult_slot_reservation) (p : Int) (hi : input.slot < idev.number_of_slots)
    (hset : idev.slot_map input.slot = true) (hown : idev.slot_map_pids input.slot = p) :
    catapult_release_slot idev 0 input p =
      (0, { idev with
        slot_map := clear_bit input.slot idev.slot_map
        slot_map_pids := pid_store idev.slot_map_pids input.slot 0 }) := by
  have hrange : ¬ (input.slot < 0 ∨ input.slot ≥ idev.number_of_slots) := by omega
  unfold catapult_release_slot
  simp only [test_bit]
  rw [if_neg (by simp), if_neg hrange, if_pos ⟨hset, hown⟩]

/-- Claim C7. `catapult_release_slot` by a process that does not own the slot:
for every device state, slot `i < number_of_slots` and caller `p`, if slot `i`
is reserved with `slot_map_pids[i] ≠ p`, or if its bit is clear, the device is
the same after the call as before (slot `i` keeps its bit and its owner, and so
does every other slot), whatever `copy_from_user` did, and when the copy-in
succeeds the call returns `-EACCES`, which is not success. -/
theorem release_slot_by_non_owner (idev : catapult_device) (copy_left : Nat)
    (input : catapult_slot_reservation) (p : Int) (hi : input.slot < idev.number_of_slots)
    (h : (idev.slot_map input.slot = true ∧ idev.slot_map_pids input.slot ≠ p) ∨
      idev.slot_map input.slot = false) :
    (catapult_release_slot idev copy_left input p).2 = idev ∧
    (∀ j, (catapult_release_slot idev copy_left input p).2.slot_map j = idev.slot_map j ∧
      (catapult_release_slot idev copy_left input p).2.slot_map_pids j =
        idev.slot_map_pids j) ∧
    (catapult_release_slot idev 0 input p).1 = -EACCES ∧
    (catapult_release_slot idev 0 input p).1 ≠ 0 := by
  have hno : ¬ (idev.slot_map input.slot = true ∧ idev.slot_map_pids input.slot = p) := by
    rintro ⟨h1, h2⟩
    rcases h with ⟨-, h3⟩ | h3
    · exact h3 h2
    · rw [h3] at h1
      exact absurd h1 (by decide)
  have hsame := catapult_release_slot_refused idev copy_left input p hno
  have hst := catapult_release_slot_refused_status idev input p hi hno
  refine ⟨hsame, fun j => by rw [hsame]; exact ⟨rfl, rfl⟩, hst, ?_⟩
  rw [hst]
  decide

/-- Claim C7 on a device of four slots: slot 1 belongs to process 5, process 6
tries to release it. -/
theorem release_slot_by_non_owner_witness :
    (catapult_release_slot
      { number_of_slots := 4, bytes_per_slot := BYTES_PER_SLOT,
        slot_map := fun j => decide (j = 1), slot_map_pids := fun j => if j = 1 then 5 else 0 }
      0 (reservation_of 1) 6).1 = -EACCES :=
  (release_slot_by_non_owner
    { number_of_slots := 4, bytes_per_slot := BYTES_PER_SLOT,
      slot_map := fun j => decide (j = 1), slot_map_pids := fun j => if j = 1 then 5 else 0 }
    0 (reservation_of 1) 6 (by decide) (Or.inl ⟨by decide, by decide⟩)).2.2.1

/-- Claim C8. Acquire/release round trip: for every device of at most
`MAX_FPGA_NUM_SLOTS` slots with a free slot and every caller `p` (mutex taken,
copies succeeding), `catapult_acquire_slot` succeeds and reports some slot `i`;
`catapult_release_slot` of slot `i` by `p` then returns 0 and leaves bit `i`
clear, `slot_map_pids[i] = 0` and every other slot as it was before the
acquire; and a following `catapult_acquire_slot` by any process `q` succeeds
and reports `i` again. -/
theorem acquire_release_round_trip (idev : catapult_device) (p q : Int)
    (hN : idev.number_of_slots ≤ MAX_FPGA_NUM_SLOTS)
    (hfree : ∃ i, i < idev.number_of_slots ∧ idev.slot_map i = false) :
    ∃ i, i < idev.number_of_slots ∧
      (catapult_acquire_slot idev 0 0 p).status = 0 ∧
      (catapult_acquire_slot idev 0 0 p).arg = some (reservation_of i) ∧
      ∀ input : catapult_slot_reservation, input.slot = i →
        (catapult_release_slot (catapult_acquire_slot idev 0 0 p).idev 0 input p).1 = 0 ∧
        (catapult_release_slot (catapult_acquire_slot idev 0 0 p).idev 0 input p).2.slot_map i =
          false ∧
        (catapult_release_slot (catapult_acquire_slot idev 0 0 p).idev 0 input
          p).2.slot_map_pids i = 0 ∧
        (∀ j, j ≠ i →
          (catapult_release_slot (catapult_acquire_slot idev 0 0 p).idev 0 input
            p).2.slot_map j = idev.slot_map j ∧
          (catapult_release_slot (catapult_acquire_slot idev 0 0 p).idev 0 input
            p).2.slot_map_pids j = idev.slot_map_pids j) ∧
        (catapult_acquire_slot
          (catapult_release_slot (catapult_acquire_slot idev 0 0 p).idev 0 input p).2 0 0
          q).status = 0 ∧
        (catapult_acquire_slot
          (catapult_release_slot (catapult_acquire_slot idev 0 0 p).idev 0 input p).2 0 0
          q).arg = some (reservation_of i) := by
  obtain ⟨-, h2, h3, h4⟩ :=
    find_next_zero_bit_spec idev.slot_map idev.number_of_slots 0 (Nat.zero_le _)
  have hlt : find_next_zero_bit idev.slot_map idev.number_of_slots 0 < idev.number_of_slots := by
    obtain ⟨i, hi, hclr⟩ := hfree
    by_contra hge
    have := h3 i (Nat.zero_le _) (by omega)
    rw [hclr] at this
    exact absurd this (by decide)
  have hacq := catapult_acquire_slot_locked idev 0 p hN
  rw [if_pos hlt, if_neg (by simp)] at hacq
  refine ⟨find_next_zero_bit idev.slot_map idev.number_of_slots 0, hlt, ?_, ?_, ?_⟩
  · rw [hacq]
  · rw [hacq]
  · intro input hin
    rw [hacq]
    simp only
    have hrel := catapult_release_slot_owner
      (mark_slot idev (find_next_zero_bit idev.slot_map idev.number_of_slots 0) p) input p
      (by rw [hin]; exact hlt) (by rw [hin]; simp [mark_slot, set_bit])
      (by rw [hin]; simp [mark_slot, pid_store])
    rw [hrel, hin]
    have hagain : find_next_zero_bit
        (clear_bit (find_next_zero_bit idev.slot_map idev.number_of_slots 0)
          (mark_slot idev (find_next_zero_bit idev.slot_map idev.number_of_slots 0) p).slot_map)
        idev.number_of_slots 0 = find_next_zero_bit idev.slot_map idev.number_of_slots 0 := by
      apply find_next_zero_bit_unique _ _ _ hlt
      · simp [clear_bit]
      · intro j hj
        have hne : j ≠ find_next_zero_bit idev.slot_map idev.number_of_slots 0 := by omega
        simp only [clear_bit, mark_slot, set_bit, if_neg hne]
        exact h3 j (Nat.zero_le _) hj
    have hacq2 := catapult_acquire_slot_locked
      { mark_slot idev (find_next_zero_bit idev.slot_map idev.number_of_slots 0) p with
        slot_map := clear_bit (find_next_zero_bit idev.slot_map idev.number_of_slots 0)
          (mark_slot idev (find_next_zero_bit idev.slot_map idev.number_of_slots 0) p).slot_map
        slot_map_pids := pid_store
          (mark_slot idev (find_next_zero_bit idev.slot_map idev.number_of_slots 0)
            p).slot_map_pids
          (find_next_zero_bit idev.slot_map idev.number_of_slots 0) 0 } 0 q hN
    simp only [mark_slot] at hacq2 hagain ⊢
    rw [hagain, if_pos hlt, if_neg (by simp)] at hacq2
    refine ⟨trivial, ?_, ?_, fun j hj => ⟨?_, ?_⟩, ?_, ?_⟩
    · simp [clear_bit]
    · simp [pid_store]
    · simp [clear_bit, set_bit, hj]
    · simp [pid_store, hj]
    · rw [hacq2]
    · rw [hacq2]

/-- Claim C8 on a device of four slots whose slot 0 is taken by process 77. -/
theorem acquire_release_round_trip_witness :
    ∃ i, i < 4 ∧
      (catapult_acquire_slot
        { number_of_slots := 4, bytes_per_slot := BYTES_PER_SLOT,
          slot_map := fun j => decide (j = 0),
          slot_map_pids := fun j => if j = 0 then 77 else 0 } 0 0 1000).arg =
        some (reservation_of i) :=
  (acquire_release_round_trip
    { number_of_slots := 4, bytes_per_slot := BYTES_PER_SLOT,
      slot_map := fun j => decide (j = 0),
      slot_map_pids := fun j => if j = 0 then 77 else 0 } 1000 1001 (by decide)
    ⟨1, by decide, by decide⟩).imp (fun _ h => ⟨h.1, h.2.2.1⟩)

/-! ## Bulk release -/

/-- The bitmap after the scan of `catapult_release_slot_range`, bit by bit. -/
theorem release_range_scan_bit (pids : Nat → Int) (current : Int) :
    ∀ cnt i (map : Nat → Bool) j,
      release_range_scan pids current cnt i map j =
        if i ≤ j ∧ j < i + cnt ∧ map j = true ∧ pids j = current then false else map j := by
  intro cnt
  induction cnt with
  | zero =>
    intro i map j
    rw [if_neg (by omega)]
    rfl
  | succ n ih =>
    intro i map j
    unfold release_range_scan
    rw [ih]
    simp only [test_bit]
    by_cases hown : map i = true ∧ pids i = current
    · rw [if_pos hown]
      by_cases hji : j = i
      · subst hji
        rw [if_neg (by omega), if_pos ⟨le_refl _, by omega, hown.1, hown.2⟩]
        simp [clear_bit]
      · have hcb : clear_bit i map j = map j := by simp [clear_bit, hji]
        rw [hcb]
        by_cases hc : i + 1 ≤ j ∧ j < i + 1 + n ∧ map j = true ∧ pids j = current
        · rw [if_pos hc, if_pos ⟨by omega, by omega, hc.2.2.1, hc.2.2.2⟩]
        · rw [if_neg hc, if_neg]
          rintro ⟨h1, h2, h3, h4⟩
          exact hc ⟨by omega, by omega, h3, h4⟩
    · rw [if_neg hown]
      by_cases hc : i + 1 ≤ j ∧ j < i + 1 + n ∧ map j = true ∧ pids j = current
      · rw [if_pos hc, if_pos ⟨by omega, by omega, hc.2.2.1, hc.2.2.2⟩]
      · rw [if_neg hc, if_neg]
        rintro ⟨h1, h2, h3, h4⟩
        by_cases hji : j = i
        · subst hji
          exact hown ⟨h3, h4⟩
        · exact hc ⟨by omega, by omega, h3, h4⟩

/-- Claim C9. `catapult_release_slot_range`, for every device state and caller
`p`: after the call every slot below `number_of_slots` that was reserved with
owner `p` has its bit clear, every slot that was free or reserved by another
process has its bit unchanged, and the call returns 0. -/
theorem release_slot_range_effect (idev : catapult_device) (p : Int) :
    (∀ j, j < idev.number_of_slots → idev.slot_map j = true → idev.slot_map_pids j = p →
      (catapult_release_slot_range idev p).2.slot_map j = false) ∧
    (∀ j, idev.slot_map j = false ∨ idev.slot_map_pids j ≠ p →
      (catapult_release_slot_range idev p).2.slot_map j = idev.slot_map j) ∧
    (catapult_release_slot_range idev p).1 = 0 := by
  refine ⟨fun j hj hset hown => ?_, fun j h => ?_, rfl⟩
  · simp only [catapult_release_slot_range]
    rw [release_range_scan_bit, if_pos ⟨Nat.zero_le _, by omega, hset, hown⟩]
  · simp only [catapult_release_slot_range]
    rw [release_range_scan_bit, if_neg]
    rintro ⟨-, -, h3, h4⟩
    rcases h with h | h
    · rw [h] at h3
      exact absurd h3 (by decide)
    · exact h h4

/-- Claim C9 on a device of four slots: slots 0 and 2 belong to process 5,
slot 1 to process 6; process 5 releases its slots. -/
theorem release_slot_range_effect_witness :
    (catapult_release_slot_range
      { number_of_slots := 4, bytes_per_slot := BYTES_PER_SLOT,
        slot_map := fun j => decide (j < 3),
        slot_map_pids := fun j => if j = 1 then 6 else 5 } 5).2.slot_map 2 = false ∧
    (catapult_release_slot_range
      { number_of_slots := 4, bytes_per_slot := BYTES_PER_SLOT,
        slot_map := fun j => decide (j < 3),
        slot_map_pids := fun j => if j = 1 then 6 else 5 } 5).2.slot_map 1 = true :=
  ⟨(release_slot_range_effect
      { number_of_slots := 4, bytes_per_slot := BYTES_PER_SLOT,
        slot_map := fun j => decide (j < 3),
        slot_map_pids := fun j => if j = 1 then 6 else 5 } 5).1 2 (by decide) (by decide)
      (by decide),
    (release_slot_range_effect
      { number_of_slots := 4, bytes_per_slot := BYTES_PER_SLOT,
        slot_map := fun j => decide (j < 3),
        slot_map_pids := fun j => if j = 1 then 6 else 5 } 5).2.1 1 (Or.inr (by decide))⟩

/-! ## Session close -/

/-- The loop of `catapult_slot_map_release` breaks within the iterations it is
given, and clears exactly the set bits from `slot` on whose owner entry is
`pid`. A position costs at most two iterations (one that clears its bit, one
that finds the next set bit), and one iteration less when its bit is clear
already. -/
theorem slot_map_release_loop_terminates (pids : Nat → Int) (n : Nat) (pid : Int) :
    ∀ fuel slot (map : Nat → Bool), slot ≤ n →
      (if slot < n ∧ map slot = false then 2 * (n - slot) else 2 * (n - slot) + 1) ≤ fuel →
      slot_map_release_loop pids n pid fuel slot map =
        some (fun j => if slot ≤ j ∧ j < n ∧ map j = true ∧ pids j = pid then false
          else map j) := by
  intro fuel
  induction fuel with
  | zero =>
    intro slot map hs hf
    exfalso
    split_ifs at hf with hc
    · omega
    · omega
  | succ f ih =>
    intro slot map hs hf
    obtain ⟨h1, h2, h3, h4⟩ := find_next_bit_spec map n slot hs
    unfold slot_map_release_loop
    simp only
    by_cases hend : find_next_bit map n slot < 0 ∨ find_next_bit map n slot ≥ n
    · rw [if_pos hend]
      congr 1
      funext j
      rw [if_neg]
      rintro ⟨h5, h6, h7, -⟩
      rw [h3 j h5 (by omega)] at h7
      exact absurd h7 (by decide)
    · rw [if_neg hend]
      have hlt : find_next_bit map n slot < n := by omega
      have hset := h4 hlt
      have hadv : slot < n ∧ map slot = false → slot + 1 ≤ find_next_bit map n slot := by
        rintro ⟨-, hclr⟩
        by_contra hle
        have heq : find_next_bit map n slot = slot := by omega
        rw [heq, hclr] at hset
        exact absurd hset (by decide)
      have hfuel : 2 * (n - find_next_bit map n slot) ≤ f := by
        split_ifs at hf with hc
        · have := hadv hc
          omega
        · omega
      by_cases hown : pids (find_next_bit map n slot) = pid
      · rw [if_pos hown, ih _ _ (by omega)]
        · congr 1
          funext j
          by_cases hj : j = find_next_bit map n slot
          · rw [hj, if_neg (by simp [clear_bit]), if_pos ⟨h1, hlt, hset, hown⟩]
            simp [clear_bit]
          · have hcb : clear_bit (find_next_bit map n slot) map j = map j := by
              simp [clear_bit, hj]
            rw [hcb]
            by_cases hc : slot ≤ j ∧ j < n ∧ map j = true ∧ pids j = pid
            · have hge : find_next_bit map n slot ≤ j := by
                by_contra hb
                have := h3 j hc.1 (by omega)
                rw [hc.2.2.1] at this
                exact absurd this (by decide)
              rw [if_pos hc, if_pos ⟨hge, hc.2⟩]
            · rw [if_neg hc, if_neg]
              rintro ⟨h5, h6⟩
              exact hc ⟨by omega, h6⟩
        · rw [if_pos ⟨hlt, by simp [clear_bit]⟩]
          exact hfuel
      · rw [if_neg hown, ih _ _ (by omega)]
        · congr 1
          funext j
          by_cases hc : slot ≤ j ∧ j < n ∧ map j = true ∧ pids j = pid
          · have hge : find_next_bit map n slot + 1 ≤ j := by
              by_contra hb
              by_cases hj : j = find_next_bit map n slot
              · rw [hj] at hc
                exact hown hc.2.2.2
              · have := h3 j hc.1 (by omega)
                rw [hc.2.2.1] at this
                exact absurd this (by decide)
            rw [if_pos hc, if_pos ⟨hge, hc.2⟩]
          · rw [if_neg hc, if_neg]
            rintro ⟨h5, h6⟩
            exact hc ⟨by omega, h6⟩
        · split_ifs
          · omega
          · omega

/-- The function `catapult_slot_map_release` returns, and its result in closed
form: the bits of the slots below `number_of_slots` that are set and carry
`pid` are cleared, every other bit and the whole owner table are as before. -/
theorem catapult_slot_map_release_eq (idev : catapult_device) (pid : Int) :
    catapult_slot_map_release idev pid =
      some { idev with
        slot_map := fun j =>
          if 0 ≤ j ∧ j < idev.number_of_slots ∧ idev.slot_map j = true ∧
            idev.slot_map_pids j = pid then false
          else idev.slot_map j } := by
  unfold catapult_slot_map_release
  simp only
  rw [slot_map_release_loop_terminates _ _ _ _ _ _ (Nat.zero_le _)]
  · rfl
  · split_ifs <;> omega

/-- Claim C10, the code at a session that holds the slots 2, 7 and 9 and is
closed by its process 4242: `catapult_release` returns 0 and clears the three
bits, but the three owner entries still hold 4242 afterwards; they are not
reset to 0. (`catapult_release_slot` resets the entry it releases.) -/
theorem session_close_leaves_owner_entries :
    (catapult_release device_2_7_9 false 4242).map
      (fun r => (r.1, r.2.slot_map 2, r.2.slot_map 7, r.2.slot_map 9,
        r.2.slot_map_pids 2, r.2.slot_map_pids 7, r.2.slot_map_pids 9)) =
      some (0, false, false, false, 4242, 4242, 4242) := by
  rfl

/-- Claim C1, the code on a reachable state: on a fresh device of four slots,
process 1000 acquires a slot (it gets slot 0) and then issues
`CATAPULT_IOCTL_RELEASE_SLOT_RANGE`, or closes its session. In both resulting
states bit 0 is clear while `slot_map_pids[0]` is still 1000, a nonzero process
identity. -/
theorem bulk_release_breaks_bit_owner_invariant :
    (slot_run (fresh_device 4) [.acquire_one 0 0 1000, .release_range 1000]).map
      (fun idev => (idev.slot_map 0, idev.slot_map_pids 0)) = some (false, 1000) ∧
    (slot_run (fresh_device 4) [.acquire_one 0 0 1000, .session_close 1000]).map
      (fun idev => (idev.slot_map 0, idev.slot_map_pids 0)) = some (false, 1000) := by
  decide

/-! ## Session close and foreign slots -/

/-- Claim C11, the code on a device of four slots where slot 1 is reserved
for process 5 and process 9 closes its session: `catapult_slot_map_release`
meets the foreign slot and steps over it; bit 1 is still set and the owner
entry still 5 afterwards. -/
theorem session_close_skips_foreign_slot :
    (catapult_slot_map_release
      { number_of_slots := 4, bytes_per_slot := BYTES_PER_SLOT,
        slot_map := fun j => decide (j = 1),
        slot_map_pids := fun j => if j = 1 then 5 else 0 } 9).map
      (fun idev => (idev.slot_map 1, idev.slot_map_pids 1)) = some (true, 5) := by
  decide

/-- Claim C11 as amended. `catapult_slot_map_release` for a closing process `p`
returns and applies the ownership check: a reserved slot whose recorded owner
differs from `p` is stepped over and keeps its bit; the reserved slots below
`number_of_slots` whose recorded owner is `p` have their bit cleared; and these
are the only bits that change. -/
theorem session_close_clears_own_slots_only (idev : catapult_device) (p : Int) :
    ∃ after, catapult_slot_map_release idev p = some after ∧
      (∀ j, idev.slot_map j = true → idev.slot_map_pids j ≠ p → after.slot_map j = true) ∧
      (∀ j, j < idev.number_of_slots → idev.slot_map j = true → idev.slot_map_pids j = p →
        after.slot_map j = false) ∧
      (∀ j, after.slot_map j ≠ idev.slot_map j →
        j < idev.number_of_slots ∧ idev.slot_map j = true ∧ idev.slot_map_pids j = p) := by
  refine ⟨_, catapult_slot_map_release_eq idev p, fun j hset hown => ?_,
    fun j hj hset hown => ?_, fun j hne => ?_⟩
  · simp only
    rw [if_neg (fun h => hown h.2.2.2), hset]
  · simp only
    rw [if_pos ⟨Nat.zero_le _, hj, hset, hown⟩]
  · simp only at hne
    by_cases hc : 0 ≤ j ∧ j < idev.number_of_slots ∧ idev.slot_map j = true ∧
        idev.slot_map_pids j = p
    · exact hc.2
    · rw [if_neg hc] at hne
      exact absurd rfl hne

/-! ## Failure atomicity -/

/-- Claim C12, the code on a fresh device of four slots when process 1000 asks
for a slot and the copy-out of the reservation fails: the request returns
`-EFAULT`, a nonzero status, and yet bit 0 is set and `slot_map_pids[0]` is
1000 afterwards, while they were clear and 0 before. -/
theorem acquire_fault_keeps_slot_taken :
    (catapult_acquire_slot (fresh_device 4) 0 1 1000).status = -EFAULT ∧
    (catapult_acquire_slot (fresh_device 4) 0 1 1000).status ≠ 0 ∧
    (catapult_acquire_slot (fresh_device 4) 0 1 1000).idev.slot_map 0 = true ∧
    (catapult_acquire_slot (fresh_device 4) 0 1 1000).idev.slot_map_pids 0 = 1000 ∧
    (fresh_device 4).slot_map 0 = false ∧
    (fresh_device 4).slot_map_pids 0 = 0 := by
  decide

/-- A failed range acquire leaves the device unchanged unless it got past the
three loops with a free range and then failed to copy out. -/
theorem catapult_acquire_slot_range_failed (idev : catapult_device)
    (uarg : catapult_acquire_slot_range_info) (kzalloc_ok : Bool)
    (copy_in_left : Nat) (lock_status : Int) (copy_out_left : Nat) (p : Int)
    (hfail : (catapult_acquire_slot_range idev kzalloc_ok copy_in_left uarg lock_status
      copy_out_left p).status ≠ 0) :
    (catapult_acquire_slot_range idev kzalloc_ok copy_in_left uarg lock_status copy_out_left
      p).idev = idev ∨
    (copy_out_left ≠ 0 ∧
      (catapult_acquire_slot_range idev kzalloc_ok copy_in_left uarg lock_status copy_out_left
        p).status = -EFAULT ∧
      uarg.slot_range.start ≤ uarg.slot_range.end_ ∧
      uarg.slot_range.end_ < idev.number_of_slots ∧
      (∀ j, uarg.slot_range.start ≤ j → j ≤ uarg.slot_range.end_ → idev.slot_map j = false) ∧
      ∀ j, (uarg.slot_range.start ≤ j ∧ j ≤ uarg.slot_range.end_ →
          (catapult_acquire_slot_range idev kzalloc_ok copy_in_left uarg lock_status
            copy_out_left p).idev.slot_map j = true ∧
          (catapult_acquire_slot_range idev kzalloc_ok copy_in_left uarg lock_status
            copy_out_left p).idev.slot_map_pids j = p) ∧
        (¬ (uarg.slot_range.start ≤ j ∧ j ≤ uarg.slot_range.end_) →
          (catapult_acquire_slot_range idev kzalloc_ok copy_in_left uarg lock_status
            copy_out_left p).idev.slot_map j = idev.slot_map j ∧
          (catapult_acquire_slot_range idev kzalloc_ok copy_in_left uarg lock_status
            copy_out_left p).idev.slot_map_pids j = idev.slot_map_pids j)) := by
  by_cases hbusy : ∃ j, uarg.slot_range.start ≤ j ∧ j ≤ uarg.slot_range.end_ ∧
      idev.slot_map j = true
  · exact Or.inl (catapult_acquire_slot_range_conflict idev uarg kzalloc_ok copy_in_left
      lock_status copy_out_left p hbusy)
  · have hfree : ∀ j, uarg.slot_range.start ≤ j → j ≤ uarg.slot_range.end_ →
        idev.slot_map j = false := by
      intro j h1 h2
      by_contra hset
      exact hbusy ⟨j, h1, h2, by simpa using hset⟩
    by_cases hk : kzalloc_ok = true
    swap
    · left
      unfold catapult_acquire_slot_range
      simp [hk]
    by_cases hc : copy_in_left = 0
    swap
    · left
      unfold catapult_acquire_slot_range
      simp [hk, hc]
    by_cases htype : uarg.slot_range.range_type = CATAPULT_SLOT_RANGE_CONTIGUOUS
    swap
    · left
      unfold catapult_acquire_slot_range
      simp [hk, hc, htype]
    by_cases hvalid : uarg.slot_range.start ≤ uarg.slot_range.end_ ∧
        uarg.slot_range.end_ < idev.number_of_slots
    swap
    · left
      have hinv : uarg.slot_range.start ≥ idev.number_of_slots ∨
          uarg.slot_range.end_ ≥ idev.number_of_slots ∨
          uarg.slot_range.start > uarg.slot_range.end_ := by omega
      unfold catapult_acquire_slot_range
      simp only [hk, hc, htype, Bool.not_true, Bool.false_eq_true, if_false, ne_eq,
        not_true_eq_false, if_pos hinv]
    by_cases hl : lock_status = 0
    swap
    · left
      have hinv : ¬ (uarg.slot_range.start ≥ idev.number_of_slots ∨
          uarg.slot_range.end_ ≥ idev.number_of_slots ∨
          uarg.slot_range.start > uarg.slot_range.end_) := by omega
      unfold catapult_acquire_slot_range
      simp only [hk, hc, htype, Bool.not_true, Bool.false_eq_true, if_false, ne_eq,
        not_true_eq_false, if_neg hinv, hl, not_false_eq_true, if_true]
    subst hk hc hl
    obtain ⟨hse, hend⟩ := hvalid
    have hchk := acquire_range_check_free idev.slot_map
      (uarg.slot_range.end_ + 1 - uarg.slot_range.start) uarg.slot_range.start
      (fun j h1 h2 => hfree j h1 (by omega))
    rw [catapult_acquire_slot_range_locked idev uarg copy_out_left p htype hse hend] at hfail ⊢
    by_cases ho : copy_out_left = 0
    · rw [if_neg (by simp [ho])] at hfail
      exact absurd hchk hfail
    · right
      rw [if_pos ho]
      simp only [hchk, if_true]
      refine ⟨ho, trivial, hse, hend, hfree, fun j => ⟨fun hj => ⟨?_, ?_⟩, fun hj => ⟨?_, ?_⟩⟩⟩
      · rw [acquire_range_mark_bits, if_pos (by omega)]
      · rw [acquire_range_mark_pids, if_pos (by omega)]
      · rw [acquire_range_mark_bits, if_neg (by omega)]
      · rw [acquire_range_mark_pids, if_neg (by omega)]

/-- Claim C12 as amended. For every device of at most `MAX_FPGA_NUM_SLOTS`
slots and every outcome of the environment calls: a `catapult_release_slot`
that returns a nonzero status leaves the device unchanged; a
`catapult_acquire_slot` or `catapult_acquire_slot_range` that returns a
nonzero status leaves the device unchanged, except when the slots were taken
under the mutex and the copy-out afterwards failed: then the status is
`-EFAULT` and the slots stay reserved for the caller (the change under the
mutex is still all or nothing). -/
theorem failed_request_leaves_tables (idev : catapult_device)
    (hN : idev.number_of_slots ≤ MAX_FPGA_NUM_SLOTS) :
    (∀ (lock_status : Int) (copy_left : Nat) (p : Int),
      (catapult_acquire_slot idev lock_status copy_left p).status ≠ 0 →
      (catapult_acquire_slot idev lock_status copy_left p).idev = idev ∨
      (lock_status = 0 ∧ copy_left ≠ 0 ∧
        (catapult_acquire_slot idev lock_status copy_left p).status = -EFAULT ∧
        ∃ i, i < idev.number_of_slots ∧ idev.slot_map i = false ∧
          (catapult_acquire_slot idev lock_status copy_left p).idev = mark_slot idev i p)) ∧
    (∀ (kzalloc_ok : Bool) (copy_in_left : Nat) (uarg : catapult_acquire_slot_range_info)
        (lock_status : Int) (copy_out_left : Nat) (p : Int),
      (catapult_acquire_slot_range idev kzalloc_ok copy_in_left uarg lock_status copy_out_left
        p).status ≠ 0 →
      (catapult_acquire_slot_range idev kzalloc_ok copy_in_left uarg lock_status
        copy_out_left p).idev = idev ∨
      (copy_out_left ≠ 0 ∧
        (catapult_acquire_slot_range idev kzalloc_ok copy_in_left uarg lock_status
          copy_out_left p).status = -EFAULT ∧
        ∀ j, uarg.slot_range.start ≤ j → j ≤ uarg.slot_range.end_ →
          idev.slot_map j = false ∧
          (catapult_acquire_slot_range idev kzalloc_ok copy_in_left uarg lock_status
            copy_out_left p).idev.slot_map j = true ∧
          (catapult_acquire_slot_range idev kzalloc_ok copy_in_left uarg lock_status
            copy_out_left p).idev.slot_map_pids j = p)) ∧
    (∀ (copy_left : Nat) (input : catapult_slot_reservation) (p : Int),
      (catapult_release_slot idev copy_left input p).1 ≠ 0 →
      (catapult_release_slot idev copy_left input p).2 = idev) := by
  refine ⟨fun lock_status copy_left p hfail => ?_,
    fun kzalloc_ok copy_in_left uarg lock_status copy_out_left p hfail => ?_,
    fun copy_left input p hfail => ?_⟩
  · by_cases hl : lock_status = 0
    · subst hl
      obtain ⟨-, -, -, h4⟩ :=
        find_next_zero_bit_spec idev.slot_map idev.number_of_slots 0 (Nat.zero_le _)
      rw [catapult_acquire_slot_locked idev copy_left p hN] at hfail ⊢
      by_cases hlt : find_next_zero_bit idev.slot_map idev.number_of_slots 0 <
          idev.number_of_slots
      · rw [if_pos hlt] at hfail ⊢
        by_cases hc : copy_left = 0
        · rw [if_neg (by simp [hc])] at hfail
          exact absurd rfl hfail
        · rw [if_pos hc]
          exact Or.inr ⟨rfl, hc, rfl, _, hlt, h4 hlt, rfl⟩
      · rw [if_neg hlt]
        exact Or.inl rfl
    · left
      unfold catapult_acquire_slot
      simp [hl]
  · rcases catapult_acquire_slot_range_failed idev uarg kzalloc_ok copy_in_left lock_status
      copy_out_left p hfail with h | ⟨h1, h2, -, -, h5, h6⟩
    · exact Or.inl h
    · exact Or.inr ⟨h1, h2, fun j hj1 hj2 =>
        ⟨h5 j hj1 hj2, ((h6 j).1 ⟨hj1, hj2⟩).1, ((h6 j).1 ⟨hj1, hj2⟩).2⟩⟩
  · unfold catapult_release_slot at hfail ⊢
    split_ifs at hfail ⊢ with h1 h2 h3
    · rfl
    · rfl
    · exact absurd rfl hfail
    · rfl

/-- Claim C12 as amended, on the device of sixteen slots where process 4242
holds slots 2, 7 and 9: a release of slot 7 by process 1 fails and changes
nothing. -/
theorem failed_request_leaves_tables_witness :
    (catapult_release_slot device_2_7_9 0 (reservation_of 7) 1).2 = device_2_7_9 :=
  (failed_request_leaves_tables device_2_7_9 (by decide)).2.2 0 (reservation_of 7) 1
    (by decide)

/-! ## The ownership gate -/

/-- Claim C13. The ownership gate, for every device state (a free slot may
still carry a stale owner entry), caller `p` and outcome of the environment
calls: `catapult_release_slot` returns 0 only if the bit of the slot is set and
its owner entry is `p`, and `catapult_mmap_get_slot` returns 0 only if the
slot it computes from the offset is below `number_of_slots`, the size is
`bytes_per_slot`, the bit is set and the owner entry is `p`; both do return 0
in that case, and when the slot index and the size are valid but the slot is
not reserved for `p` they return `-EACCES` (copy-in and mutex succeeding). -/
theorem ownership_gate (idev : catapult_device) (p : Int) :
    (∀ (copy_left : Nat) (input : catapult_slot_reservation),
      (catapult_release_slot idev copy_left input p).1 = 0 →
      idev.slot_map input.slot = true ∧ idev.slot_map_pids input.slot = p) ∧
    (∀ input : catapult_slot_reservation, input.slot < idev.number_of_slots →
      (idev.slot_map input.slot = true ∧ idev.slot_map_pids input.slot = p →
        (catapult_release_slot idev 0 input p).1 = 0) ∧
      (¬ (idev.slot_map input.slot = true ∧ idev.slot_map_pids input.slot = p) →
        (catapult_release_slot idev 0 input p).1 = -EACCES)) ∧
    (∀ (offset size : Nat) (lock_status : Int) (slot : Nat),
      catapult_mmap_get_slot idev offset size lock_status p = some (0, slot) →
      slot = (offset / idev.bytes_per_slot) % 2 ^ 32 ∧ slot < idev.number_of_slots ∧
      size = idev.bytes_per_slot ∧
      idev.slot_map slot = true ∧ idev.slot_map_pids slot = p) ∧
    (∀ offset size : Nat, idev.bytes_per_slot ≠ 0 →
      (offset / idev.bytes_per_slot) % 2 ^ 32 < idev.number_of_slots →
      size = idev.bytes_per_slot →
      (idev.slot_map ((offset / idev.bytes_per_slot) % 2 ^ 32) = true ∧
        idev.slot_map_pids ((offset / idev.bytes_per_slot) % 2 ^ 32) = p →
        catapult_mmap_get_slot idev offset size 0 p =
          some (0, (offset / idev.bytes_per_slot) % 2 ^ 32)) ∧
      (¬ (idev.slot_map ((offset / idev.bytes_per_slot) % 2 ^ 32) = true ∧
          idev.slot_map_pids ((offset / idev.bytes_per_slot) % 2 ^ 32) = p) →
        catapult_mmap_get_slot idev offset size 0 p =
          some (-EACCES, (offset / idev.bytes_per_slot) % 2 ^ 32))) := by
  have e1 : ¬ (-EFAULT : Int) = 0 := by decide
  have e2 : ¬ (-EINVAL : Int) = 0 := by decide
  have e3 : ¬ (-EACCES : Int) = 0 := by decide
  refine ⟨fun copy_left input h => ?_, fun input hi => ⟨fun h => ?_, fun h => ?_⟩,
    fun offset size lock_status slot h => ?_, fun offset size hb hs hsz => ⟨fun h => ?_, fun h => ?_⟩⟩
  · unfold catapult_release_slot at h
    simp only [test_bit] at h
    split_ifs at h with h1 h2 h3
    · exact absurd h e1
    · exact absurd h e2
    · exact h3
    · exact absurd h e3
  · rw [catapult_release_slot_owner idev input p hi h.1 h.2]
  · exact catapult_release_slot_refused_status idev input p hi h
  · unfold catapult_mmap_get_slot at h
    simp only [test_bit] at h
    split_ifs at h with h1 h2 h3 h4 h5
    all_goals simp only [Option.some.injEq, Prod.mk.injEq] at h
    · exact absurd h.1 e2
    · exact absurd h.1 e2
    · exact absurd h.1 e3
    · obtain ⟨-, hslot⟩ := h
      subst hslot
      refine ⟨rfl, by omega, not_not.mp h3, ?_, ?_⟩
      · by_contra hclr
        exact h5 (Or.inl (by simpa using hclr))
      · by_contra hown
        exact h5 (Or.inr hown)
    · exact absurd h.1 h4
  · unfold catapult_mmap_get_slot
    simp only [test_bit]
    rw [if_neg hb, if_neg (by omega), if_neg (by simp [hsz]), if_pos trivial, if_neg]
    rintro (hclr | hown)
    · rw [h.1] at hclr
      exact absurd hclr (by decide)
    · exact hown h.2
  · unfold catapult_mmap_get_slot
    simp only [test_bit]
    rw [if_neg hb, if_neg (by omega), if_neg (by simp [hsz]), if_pos trivial, if_pos]
    by_cases hset : idev.slot_map ((offset / idev.bytes_per_slot) % 2 ^ 32) = true
    · exact Or.inr (fun hown => h ⟨hset, hown⟩)
    · exact Or.inl (by simpa using hset)

/-- Claim C13 on the device of sixteen slots where process 4242 holds slots 2,
7 and 9: process 1 may not map slot 7 (offset `7 * bytes_per_slot`). -/
theorem ownership_gate_witness :
    catapult_mmap_get_slot device_2_7_9 (7 * BYTES_PER_SLOT) BYTES_PER_SLOT 0 1 =
      some (-EACCES, 7) :=
  ((ownership_gate device_2_7_9 1).2.2.2 (7 * BYTES_PER_SLOT) BYTES_PER_SLOT (by decide)
    (by decide) rfl).2 (by decide)

/-! ## Exclusive ownership -/

/-- The slot count is not changed by `catapult_acquire_slot`. -/
theorem catapult_acquire_slot_number_of_slots (idev : catapult_device) (lock_status : Int)
    (copy_left : Nat) (q : Int) :
    (catapult_acquire_slot idev lock_status copy_left q).idev.number_of_slots =
      idev.number_of_slots := by
  unfold catapult_acquire_slot
  simp only
  split_ifs <;> rfl

/-- The slot count is not changed by `catapult_acquire_slot_range`. -/
theorem catapult_acquire_slot_range_number_of_slots (idev : catapult_device)
    (uarg : catapult_acquire_slot_range_info) (kzalloc_ok : Bool)
    (copy_in_left : Nat) (lock_status : Int) (copy_out_left : Nat) (q : Int) :
    (catapult_acquire_slot_range idev kzalloc_ok copy_in_left uarg lock_status copy_out_left
      q).idev.number_of_slots = idev.number_of_slots := by
  unfold catapult_acquire_slot_range
  simp only
  split_ifs <;> rfl

/-- The slot count is not changed by `catapult_release_slot`. -/
theorem catapult_release_slot_number_of_slots (idev : catapult_device) (copy_left : Nat)
    (input : catapult_slot_reservation) (q : Int) :
    (catapult_release_slot idev copy_left input q).2.number_of_slots =
      idev.number_of_slots := by
  unfold catapult_release_slot
  split_ifs <;> rfl

/-- A slot whose bit is set is left alone by `catapult_acquire_slot`, whoever
calls it and whatever the environment does. -/
theorem catapult_acquire_slot_keeps_reserved (idev : catapult_device)
    (hN : idev.number_of_slots ≤ MAX_FPGA_NUM_SLOTS) (lock_status : Int) (copy_left : Nat)
    (q : Int) (j : Nat) (hset : idev.slot_map j = true) :
    (catapult_acquire_slot idev lock_status copy_left q).idev.slot_map j = true ∧
    (catapult_acquire_slot idev lock_status copy_left q).idev.slot_map_pids j =
      idev.slot_map_pids j := by
  by_cases hl : lock_status = 0
  · subst hl
    obtain ⟨-, -, -, h4⟩ :=
      find_next_zero_bit_spec idev.slot_map idev.number_of_slots 0 (Nat.zero_le _)
    rw [catapult_acquire_slot_locked idev copy_left q hN]
    by_cases hlt : find_next_zero_bit idev.slot_map idev.number_of_slots 0 <
        idev.number_of_slots
    · have hne : j ≠ find_next_zero_bit idev.slot_map idev.number_of_slots 0 := by
        intro heq
        have := h4 hlt
        rw [← heq, hset] at this
        exact absurd this (by decide)
      rw [if_pos hlt]
      split_ifs <;> simp [mark_slot, set_bit, pid_store, hne, hset]
    · rw [if_neg hlt]
      exact ⟨hset, rfl⟩
  · unfold catapult_acquire_slot
    simp [hl, hset]

/-- A slot outside the requested range is left alone by
`catapult_acquire_slot_range`. -/
theorem catapult_acquire_slot_range_outside (idev : catapult_device)
    (uarg : catapult_acquire_slot_range_info) (kzalloc_ok : Bool)
    (copy_in_left : Nat) (lock_status : Int) (copy_out_left : Nat) (q : Int) (j : Nat)
    (hout : ¬ (uarg.slot_range.start ≤ j ∧ j ≤ uarg.slot_range.end_)) :
    (catapult_acquire_slot_range idev kzalloc_ok copy_in_left uarg lock_status copy_out_left
      q).idev.slot_map j = idev.slot_map j ∧
    (catapult_acquire_slot_range idev kzalloc_ok copy_in_left uarg lock_status copy_out_left
      q).idev.slot_map_pids j = idev.slot_map_pids j := by
  unfold catapult_acquire_slot_range
  simp only
  split_ifs
  all_goals first
    | exact ⟨rfl, rfl⟩
    | (simp only [acquire_range_mark_bits, acquire_range_mark_pids]
       rw [if_neg (by omega), if_neg (by omega)]
       exact ⟨rfl, rfl⟩)

/-- A slot whose bit is set is left alone by `catapult_acquire_slot_range`,
whoever calls it and whatever the environment does. -/
theorem catapult_acquire_slot_range_keeps_reserved (idev : catapult_device)
    (uarg : catapult_acquire_slot_range_info) (kzalloc_ok : Bool)
    (copy_in_left : Nat) (lock_status : Int) (copy_out_left : Nat) (q : Int) (j : Nat)
    (hset : idev.slot_map j = true) :
    (catapult_acquire_slot_range idev kzalloc_ok copy_in_left uarg lock_status copy_out_left
      q).idev.slot_map j = true ∧
    (catapult_acquire_slot_range idev kzalloc_ok copy_in_left uarg lock_status copy_out_left
      q).idev.slot_map_pids j = idev.slot_map_pids j := by
  by_cases hin : uarg.slot_range.start ≤ j ∧ j ≤ uarg.slot_range.end_
  · rw [catapult_acquire_slot_range_conflict idev uarg kzalloc_ok copy_in_left lock_status
      copy_out_left q ⟨j, hin.1, hin.2, hset⟩]
    exact ⟨hset, rfl⟩
  · obtain ⟨h1, h2⟩ := catapult_acquire_slot_range_outside idev uarg kzalloc_ok copy_in_left
      lock_status copy_out_left q j hin
    rw [h1, h2]
    exact ⟨hset, rfl⟩

/-- A slot reserved for `p` is left alone by a `catapult_release_slot` of
another process. -/
theorem catapult_release_slot_keeps_foreign (idev : catapult_device) (copy_left : Nat)
    (input : catapult_slot_reservation) (p q : Int) (hq : q ≠ p) (j : Nat)
    (hown : idev.slot_map_pids j = p) :
    (catapult_release_slot idev copy_left input q).2.slot_map j = idev.slot_map j ∧
    (catapult_release_slot idev copy_left input q).2.slot_map_pids j =
      idev.slot_map_pids j := by
  unfold catapult_release_slot
  split_ifs with h1 h2 h3
  · exact ⟨rfl, rfl⟩
  · exact ⟨rfl, rfl⟩
  · have hne : j ≠ input.slot := by
      intro heq
      rw [heq] at hown
      exact hq (h3.2.symm.trans hown)
    simp [clear_bit, pid_store, hne]
  · exact ⟨rfl, rfl⟩

/-- A slot reserved for `p` is left alone by every slot request of another
process; the request returns and keeps the slot count. -/
theorem slot_step_keeps_foreign (idev : catapult_device)
    (hN : idev.number_of_slots ≤ MAX_FPGA_NUM_SLOTS) (j : Nat) (p : Int)
    (hset : idev.slot_map j = true) (hown : idev.slot_map_pids j = p)
    (r : slot_request) (hr : r.issuer ≠ p) :
    ∃ after, slot_step idev r = some after ∧
      after.number_of_slots = idev.number_of_slots ∧
      after.slot_map j = true ∧ after.slot_map_pids j = p := by
  cases r with
  | acquire_one lock_status copy_left q =>
    obtain ⟨h1, h2⟩ := catapult_acquire_slot_keeps_reserved idev hN lock_status copy_left q j hset
    exact ⟨_, rfl, catapult_acquire_slot_number_of_slots idev lock_status copy_left q, h1,
      h2.trans hown⟩
  | release_one copy_left input q =>
    obtain ⟨h1, h2⟩ := catapult_release_slot_keeps_foreign idev copy_left input p q hr j hown
    exact ⟨_, rfl, catapult_release_slot_number_of_slots idev copy_left input q,
      h1.trans hset, h2.trans hown⟩
  | acquire_range kzalloc_ok copy_in_left uarg lock_status copy_out_left q =>
    obtain ⟨h1, h2⟩ := catapult_acquire_slot_range_keeps_reserved idev uarg kzalloc_ok
      copy_in_left lock_status copy_out_left q j hset
    exact ⟨_, rfl, catapult_acquire_slot_range_number_of_slots idev uarg kzalloc_ok
      copy_in_left lock_status copy_out_left q, h1, h2.trans hown⟩
  | release_range q =>
    refine ⟨_, rfl, rfl, ?_, hown⟩
    have hq : q ≠ p := hr
    simp only [catapult_release_slot_range]
    rw [release_range_scan_bit, if_neg, hset]
    rintro ⟨-, -, -, h4⟩
    exact hq (h4.symm.trans hown)
  | session_close q =>
    have hq : q ≠ p := hr
    have hstep : slot_step idev (.session_close q) =
        some { idev with
          slot_map := fun j =>
            if 0 ≤ j ∧ j < idev.number_of_slots ∧ idev.slot_map j = true ∧
              idev.slot_map_pids j = q then false
            else idev.slot_map j } := by
      simp only [slot_step, catapult_release, Bool.false_eq_true, if_false,
        catapult_slot_map_release_eq, Option.map_some']
    refine ⟨_, hstep, rfl, ?_, hown⟩
    simp only
    rw [if_neg, hset]
    rintro ⟨-, -, -, h4⟩
    exact hq (h4.symm.trans hown)

/-- Slot event requests, mapping checks and interrupts do not touch the bitmap,
the owner table or the slot count. -/
theorem device_step_other_keeps_tables (idev after : catapult_device) (r : device_request)
    (hr : ∀ sr, r ≠ .slot sr) (h : device_step idev r = some after) :
    after.number_of_slots = idev.number_of_slots ∧ after.slot_map = idev.slot_map ∧
    after.slot_map_pids = idev.slot_map_pids := by
  cases r with
  | slot sr => exact absurd rfl (hr sr)
  | get_slot_event copy_left input =>
    simp only [device_step, Option.some.injEq] at h
    subst h
    exact ⟨rfl, rfl, rfl⟩
  | wait_slot_event prims copy_left input =>
    simp only [device_step, catapult_wait_slot_event] at h
    split_ifs at h
    all_goals first
      | (simp only [Option.map_some', Option.some.injEq] at h
         subst h
         exact ⟨rfl, rfl, rfl⟩)
      | (simp only [Option.map_map, Option.map_eq_some'] at h
         obtain ⟨a, -, ha⟩ := h
         subst ha
         exact ⟨rfl, rfl, rfl⟩)
  | reset_slot_event copy_left input =>
    simp only [device_step, catapult_reset_slot_event, Option.some.injEq] at h
    subst h
    split_ifs <;> exact ⟨rfl, rfl, rfl⟩
  | complete_slot_event copy_left input =>
    simp only [device_step, catapult_complete_slot_event, Option.some.injEq] at h
    subst h
    split_ifs <;> exact ⟨rfl, rfl, rfl⟩
  | mmap_get_slot offset size lock_status current =>
    simp only [device_step, Option.map_eq_some'] at h
    obtain ⟨a, -, ha⟩ := h
    subst ha
    exact ⟨rfl, rfl, rfl⟩
  | interrupt =>
    simp only [device_step, catapult_interrupt_handler, Option.some.injEq] at h
    subst h
    split_ifs <;> exact ⟨rfl, rfl, rfl⟩

/-- One step that is foreign to `p` keeps a slot reserved for `p`. -/
theorem device_step_keeps_foreign (idev after : catapult_device)
    (hN : idev.number_of_slots ≤ MAX_FPGA_NUM_SLOTS) (j : Nat) (p : Int)
    (hset : idev.slot_map j = true) (hown : idev.slot_map_pids j = p)
    (r : device_request) (hr : r.foreign_to p) (h : device_step idev r = some after) :
    after.number_of_slots = idev.number_of_slots ∧ after.slot_map j = true ∧
    after.slot_map_pids j = p := by
  by_cases hs : ∃ sr, r = .slot sr
  · obtain ⟨sr, rfl⟩ := hs
    obtain ⟨a, h1, h2, h3, h4⟩ := slot_step_keeps_foreign idev hN j p hset hown sr hr
    have : a = after := by
      have h5 : slot_step idev sr = some after := h
      rw [h1] at h5
      exact Option.some.inj h5
    subst this
    exact ⟨h2, h3, h4⟩
  · obtain ⟨h1, h2, h3⟩ := device_step_other_keeps_tables idev after r
      (fun sr heq => hs ⟨sr, heq⟩) h
    rw [h1, h2, h3]
    exact ⟨rfl, hset, hown⟩

/-- A run of steps that are foreign to `p` keeps a slot reserved for `p`. -/
theorem device_run_keeps_foreign (j : Nat) (p : Int) :
    ∀ (rs : List device_request) (idev after : catapult_device),
      idev.number_of_slots ≤ MAX_FPGA_NUM_SLOTS →
      idev.slot_map j = true → idev.slot_map_pids j = p →
      (∀ r, r ∈ rs → r.foreign_to p) → device_run idev rs = some after →
      after.slot_map j = true ∧ after.slot_map_pids j = p := by
  intro rs
  induction rs with
  | nil =>
    intro idev after _ hset hown _ h
    simp only [device_run, Option.some.injEq] at h
    subst h
    exact ⟨hset, hown⟩
  | cons r rs ih =>
    intro idev after hN hset hown hall h
    simp only [device_run, Option.bind_eq_some] at h
    obtain ⟨mid, hstep, hrest⟩ := h
    obtain ⟨h1, h2, h3⟩ := device_step_keeps_foreign idev mid hN j p hset hown r
      (hall r (List.mem_cons_self _ _)) hstep
    exact ih mid after (by rw [h1]; exact hN) h2 h3
      (fun r' hr' => hall r' (List.mem_cons_of_mem _ hr')) hrest

/-- A range acquire that meets a reserved slot does not return success. -/
theorem catapult_acquire_slot_range_conflict_status (idev : catapult_device)
    (uarg : catapult_acquire_slot_range_info) (kzalloc_ok : Bool)
    (copy_in_left : Nat) (lock_status : Int) (copy_out_left : Nat) (q : Int)
    (hbusy : ∃ j, uarg.slot_range.start ≤ j ∧ j ≤ uarg.slot_range.end_ ∧
      idev.slot_map j = true) :
    (catapult_acquire_slot_range idev kzalloc_ok copy_in_left uarg lock_status copy_out_left
      q).status ≠ 0 := by
  obtain ⟨j, h1, h2, h3⟩ := hbusy
  have hchk := acquire_range_check_busy idev.slot_map
    (uarg.slot_range.end_ + 1 - uarg.slot_range.start) uarg.slot_range.start
    ⟨j, h1, by omega, h3⟩
  have e1 : ¬ (-EBUSY : Int) = 0 := by decide
  have e2 : ¬ (-ENOMEM : Int) = 0 := by decide
  have e3 : ¬ (-EFAULT : Int) = 0 := by decide
  have e4 : ¬ (-EINVAL : Int) = 0 := by decide
  unfold catapult_acquire_slot_range
  by_cases hl : lock_status = 0
  · subst hl
    simp only [hchk, if_neg e1]
    split_ifs
    all_goals first
      | exact e1
      | exact e2
      | exact e3
      | exact e4
      | (exfalso; simp_all)
  · simp only [if_pos (show lock_status ≠ 0 from hl)]
    split_ifs
    all_goals first
      | exact e2
      | exact e3
      | exact e4
      | exact hl

/-- Claim C14. Exclusive ownership: on every device of at most
`MAX_FPGA_NUM_SLOTS` slots on which slot `i` is reserved with owner `p`, every
slot request issued by a process other than `p` (single and range acquire,
single and bulk release, session close) returns and leaves bit `i` set and
`slot_map_pids[i] = p`, and so does the interrupt handler and every sequence
of such requests, slot event requests, mapping checks and interrupts that
runs to its end; and an acquire, by whatever process, never reports nor stamps
a slot whose bit is set. -/
theorem exclusive_ownership (idev : catapult_device)
    (hN : idev.number_of_slots ≤ MAX_FPGA_NUM_SLOTS) (i : Nat) (p : Int)
    (hset : idev.slot_map i = true) (hown : idev.slot_map_pids i = p) :
    (∀ r : slot_request, r.issuer ≠ p →
      ∃ after, slot_step idev r = some after ∧ after.slot_map i = true ∧
        after.slot_map_pids i = p) ∧
    ((catapult_interrupt_handler idev).2.slot_map i = true ∧
      (catapult_interrupt_handler idev).2.slot_map_pids i = p) ∧
    (∀ (rs : List device_request) (after : catapult_device),
      (∀ r, r ∈ rs → r.foreign_to p) → device_run idev rs = some after →
      after.slot_map i = true ∧ after.slot_map_pids i = p) ∧
    (∀ (lock_status : Int) (copy_left : Nat) (q : Int),
      (∀ j, idev.slot_map j = true →
        (catapult_acquire_slot idev lock_status copy_left q).idev.slot_map_pids j =
          idev.slot_map_pids j) ∧
      (∀ res, (catapult_acquire_slot idev lock_status copy_left q).arg = some res →
        idev.slot_map res.slot = false)) ∧
    (∀ (kzalloc_ok : Bool) (copy_in_left : Nat) (uarg : catapult_acquire_slot_range_info)
        (lock_status : Int) (copy_out_left : Nat) (q : Int),
      (∀ j, idev.slot_map j = true →
        (catapult_acquire_slot_range idev kzalloc_ok copy_in_left uarg lock_status
          copy_out_left q).idev.slot_map_pids j = idev.slot_map_pids j) ∧
      ((catapult_acquire_slot_range idev kzalloc_ok copy_in_left uarg lock_status
          copy_out_left q).status = 0 →
        ∀ j, uarg.slot_range.start ≤ j → j ≤ uarg.slot_range.end_ →
          idev.slot_map j = false)) := by
  refine ⟨fun r hr => ?_, ?_, fun rs after hall hrun => ?_, fun lock_status copy_left q => ⟨?_, ?_⟩,
    fun kzalloc_ok copy_in_left uarg lock_status copy_out_left q => ⟨?_, ?_⟩⟩
  · obtain ⟨after, h1, -, h3, h4⟩ := slot_step_keeps_foreign idev hN i p hset hown r hr
    exact ⟨after, h1, h3, h4⟩
  · obtain ⟨-, h2, h3⟩ := device_step_keeps_foreign idev _ hN i p hset hown .interrupt
      trivial rfl
    exact ⟨h2, h3⟩
  · exact device_run_keeps_foreign i p rs idev after hN hset hown hall hrun
  · intro j hj
    exact (catapult_acquire_slot_keeps_reserved idev hN lock_status copy_left q j hj).2
  · intro res hres
    by_cases hl : lock_status = 0
    · subst hl
      obtain ⟨-, -, -, h4⟩ :=
        find_next_zero_bit_spec idev.slot_map idev.number_of_slots 0 (Nat.zero_le _)
      rw [catapult_acquire_slot_locked idev copy_left q hN] at hres
      split_ifs at hres with hlt hc
      simp only [Option.some.injEq] at hres
      rw [← hres]
      exact h4 hlt
    · unfold catapult_acquire_slot at hres
      simp [hl] at hres
  · intro j hj
    exact (catapult_acquire_slot_range_keeps_reserved idev uarg kzalloc_ok copy_in_left
      lock_status copy_out_left q j hj).2
  · intro hok j h1 h2
    by_contra hne
    exact catapult_acquire_slot_range_conflict_status idev uarg kzalloc_ok copy_in_left
      lock_status copy_out_left q ⟨j, h1, h2, by simpa using hne⟩ hok

/-- Claim C14 on the device of sixteen slots where process 4242 holds slots 2,
7 and 9: after a bulk release by process 1, slot 7 is still reserved for
4242. -/
theorem exclusive_ownership_witness :
    ∃ after, slot_step device_2_7_9 (.release_range 1) = some after ∧
      after.slot_map 7 = true ∧ after.slot_map_pids 7 = 4242 :=
  (exclusive_ownership device_2_7_9 (by decide) 7 4242 (by decide) (by decide)).1
    (.release_range 1) (by decide)

/-! ## Interrupt decode -/

theorem shift_byte_eq (w i : Nat) : (w >>> (8 * i)) &&& 0xff = (w / 256 ^ i) % 256 := by
  have h1 : (0xff : Nat) = 2 ^ 8 - 1 := by norm_num
  have h2 : (2 : Nat) ^ (8 * i) = 256 ^ i := by
    rw [pow_mul]
    norm_num
  rw [h1, Nat.and_pow_two_sub_one_eq_mod, Nat.shiftRight_eq_div_pow, h2]

theorem and_three_eq (w : Nat) : w &&& 3 = w % 4 := by
  have h1 : (3 : Nat) = 2 ^ 2 - 1 := by norm_num
  rw [h1, Nat.and_pow_two_sub_one_eq_mod]

theorem signal_all_cons (event_obj : Nat → completion) (s : Nat) (l : List Nat) :
    signal_all event_obj (s :: l) =
      signal_all (completion_store event_obj s (complete (event_obj s))) l := rfl

/-- The loop of the handler signals the packed identifiers that are below the
slot count, in order. -/
theorem interrupt_signal_loop_eq (w n : Nat) :
    ∀ cnt i (event_obj : Nat → completion),
      interrupt_signal_loop w n cnt i event_obj =
        signal_all event_obj
          (((List.range cnt).map (fun k => (w / 256 ^ (k + i)) % 256)).filter
            (fun s => decide (s < n))) := by
  intro cnt
  induction cnt with
  | zero => intro i event_obj; rfl
  | succ c ih =>
    intro i event_obj
    unfold interrupt_signal_loop
    simp only
    rw [ih, List.range_succ_eq_map, List.map_cons, List.map_map, shift_byte_eq, Nat.zero_add]
    have hfun : ((fun k => w / 256 ^ (k + i) % 256) ∘ Nat.succ) =
        (fun k => w / 256 ^ (k + (i + 1)) % 256) := by
      funext k
      simp only [Function.comp, Nat.succ_eq_add_one]
      rw [Nat.add_right_comm k 1 i, Nat.add_assoc k i 1]
    rw [hfun]
    by_cases hlt : w / 256 ^ i % 256 < n
    · rw [List.filter_cons_of_pos (by simpa using hlt), signal_all_cons,
        if_neg (by omega)]
    · rw [List.filter_cons_of_neg (by simpa using hlt), if_pos (by omega)]

/-- A slot that is not in the list keeps its completion. -/
theorem signal_all_other (s : Nat) :
    ∀ (l : List Nat) (event_obj : Nat → completion), s ∉ l →
      signal_all event_obj l s = event_obj s := by
  intro l
  induction l with
  | nil => intro event_obj _; rfl
  | cons a l ih =>
    intro event_obj hs
    rw [signal_all_cons, ih _ (fun h => hs (List.mem_cons_of_mem _ h))]
    have hne : s ≠ a := fun h => hs (h ▸ List.mem_cons_self _ _)
    simp [completion_store, hne]

/-- A slot is signalled once for every time it occurs in the list. -/
theorem signal_all_done (s : Nat) :
    ∀ (l : List Nat) (event_obj : Nat → completion),
      (event_obj s).done + l.count s ≤ UINT_MAX →
      (signal_all event_obj l s).done = (event_obj s).done + l.count s := by
  intro l
  induction l with
  | nil => intro event_obj _; rfl
  | cons a l ih =>
    intro event_obj hs
    rw [signal_all_cons]
    by_cases ha : a = s
    · subst ha
      rw [List.count_cons_self] at hs ⊢
      have hlt : (event_obj a).done ≠ UINT_MAX := by omega
      have hstore : completion_store event_obj a (complete (event_obj a)) a =
          { done := (event_obj a).done + 1 } := by
        simp [completion_store, complete, hlt]
      rw [ih _ (by rw [hstore]; simp only; omega), hstore]
      simp only
      omega
    · rw [List.count_cons_of_ne (Ne.symm ha)] at hs ⊢
      have hstore : completion_store event_obj a (complete (event_obj a)) s = event_obj s := by
        simp [completion_store, Ne.symm ha]
      rw [ih _ (by rw [hstore]; exact hs), hstore]

theorem catapult_register_offset_interrupt :
    catapult_register_offset INTER_ADDR_INTERRUPT 256 = 0x100E4 := by decide

/-- The completions after the handler has run, in closed form. -/
theorem catapult_interrupt_handler_event_obj (idev : catapult_device) :
    (catapult_interrupt_handler idev).2.event_obj =
      if (idev.interrupt_feature_offset = 0 ∨
          (catapult_read_dfh_register idev
            ((idev.interrupt_feature_offset + DFH_FEATURE_INTERRUPT_STATUS_REG_OFFSET) % 2 ^ 32)
            0).2.1 &&& 1 ≠ 0) ∧ idev.registers_base ≠ 0 then
        signal_all idev.event_obj
          (reference_decode (legacy_interrupt_status idev) idev.number_of_slots)
      else idev.event_obj := by
  have hcontent : ∀ off v, (catapult_read_dfh_register idev off v).2.2.content32 =
      idev.registers.content32 := by
    intro off v
    unfold catapult_read_dfh_register catapult_register_read64
    simp only
    split_ifs <;> rfl
  unfold catapult_interrupt_handler
  simp only
  by_cases hf : idev.interrupt_feature_offset = 0
  · simp only [hf, ne_eq, not_true_eq_false, if_false, true_or, if_true, true_and]
    by_cases hb : idev.registers_base = 0
    · simp [hb]
    · simp only [hb, not_false_eq_true, if_true]
      unfold catapult_register_read32 reference_decode legacy_interrupt_status
      simp only
      split_ifs with hw
      · rfl
      · simp only [interrupt_signal_loop_eq, and_three_eq, Nat.add_one]
        rfl
  · simp only [hf, ne_eq, not_false_eq_true, if_true, false_or]
    by_cases hs : (catapult_read_dfh_register idev
        ((idev.interrupt_feature_offset + DFH_FEATURE_INTERRUPT_STATUS_REG_OFFSET) % 2 ^ 32)
        0).2.1 &&& 1 = 0
    · simp only [hs, not_true_eq_false, if_false, false_and]
    · simp only [hs, not_false_eq_true, if_true, true_and]
      by_cases hb : idev.registers_base = 0
      · simp only [hb, not_true_eq_false, if_false]
      · simp only [hb, not_false_eq_true, if_true]
        unfold catapult_register_read32 reference_decode legacy_interrupt_status
        simp only [hcontent]
        split_ifs with hw
        · rfl
        · simp only [interrupt_signal_loop_eq, and_three_eq, Nat.add_one]
          rfl

/-- Bit 0 of what the handler holds as interrupt status after its read: the
bit of the register when the read is accepted, 0 when it is rejected. -/
theorem dfh_status_bit (idev : catapult_device) (offset : Nat) :
    (catapult_read_dfh_register idev offset 0).2.1 &&& 1 =
      if offset < idev.registers_cb ∧ offset % 8 = 0 then idev.registers.content64 offset % 2
      else 0 := by
  unfold catapult_read_dfh_register catapult_register_read64
  simp only [Nat.and_one_is_mod]
  by_cases h1 : offset ≥ idev.registers_cb
  · rw [if_pos h1, if_neg (by omega)]
    rfl
  · rw [if_neg h1]
    by_cases h2 : offset % 8 = 0
    · rw [if_neg (by simp [h2]), if_pos ⟨by omega, h2⟩]
      exact Nat.mod_mod_of_dvd _ (by norm_num)
    · rw [if_pos h2, if_neg (fun h => h2 h.2)]
      rfl

/-- Membership in the reference decode, in the words of the driver: byte `k`
of the word for `k` from 1 to the count in the low two bits. -/
theorem mem_reference_decode (w n s : Nat) :
    s ∈ reference_decode w n ↔
      w ≠ 0xFFFFFFFF ∧ s < n ∧ ∃ k, 1 ≤ k ∧ k ≤ w &&& 3 ∧ s = (w >>> (8 * k)) &&& 0xff := by
  unfold reference_decode packed_slot_ids
  by_cases hw : w = 0xFFFFFFFF
  · simp [hw]
  · rw [if_neg hw]
    simp only [List.mem_filter, List.mem_map, List.mem_range, decide_eq_true_eq, ne_eq, hw,
      not_false_eq_true, true_and, and_three_eq, shift_byte_eq]
    constructor
    · rintro ⟨⟨k, hk, rfl⟩, hs⟩
      exact ⟨hs, k + 1, by omega, by omega, rfl⟩
    · rintro ⟨hs, k, hk1, hk2, rfl⟩
      refine ⟨⟨k - 1, by omega, ?_⟩, hs⟩
      rw [Nat.sub_add_cancel hk1]

/-- The bit `slot_dma_interrupt` the handler tests is bit 0 of the interrupt
status register when the feature is present and `catapult_read_dfh_register`
accepts the read (offset inside the BAR and 8-byte aligned); it is 0 in every
other case. -/
theorem handler_slot_dma_interrupt (idev : catapult_device) :
    slot_dma_interrupt (handler_int_status_reg idev) =
      if idev.interrupt_feature_offset ≠ 0 ∧
          (idev.interrupt_feature_offset + DFH_FEATURE_INTERRUPT_STATUS_REG_OFFSET) % 2 ^ 32 <
            idev.registers_cb ∧
          (idev.interrupt_feature_offset + DFH_FEATURE_INTERRUPT_STATUS_REG_OFFSET) % 2 ^ 32 % 8 =
            0 then
        idev.registers.content64
          ((idev.interrupt_feature_offset + DFH_FEATURE_INTERRUPT_STATUS_REG_OFFSET) % 2 ^ 32) % 2
      else 0 := by
  unfold slot_dma_interrupt handler_int_status_reg
  simp only
  by_cases hf : idev.interrupt_feature_offset = 0
  · rw [if_neg (not_not.mpr hf), if_neg (fun h => h.1 hf)]
    show (0 : Nat) &&& 1 = 0
    decide
  · rw [if_pos hf, dfh_status_bit]
    by_cases hc : (idev.interrupt_feature_offset + DFH_FEATURE_INTERRUPT_STATUS_REG_OFFSET) %
        2 ^ 32 < idev.registers_cb ∧
        (idev.interrupt_feature_offset + DFH_FEATURE_INTERRUPT_STATUS_REG_OFFSET) % 2 ^ 32 % 8 = 0
    · rw [if_pos hc, if_pos ⟨hf, hc⟩]
    · rw [if_neg hc, if_neg (fun h => hc h.2)]

/-- The completions after the handler has run, by the bit the handler tests. -/
theorem catapult_interrupt_handler_by_status (idev : catapult_device) :
    (catapult_interrupt_handler idev).2.event_obj =
      if (idev.interrupt_feature_offset ≠ 0 ∧
          slot_dma_interrupt (handler_int_status_reg idev) = 0) ∨ idev.registers_base = 0 then
        idev.event_obj
      else
        signal_all idev.event_obj
          (reference_decode (legacy_interrupt_status idev) idev.number_of_slots) := by
  rw [catapult_interrupt_handler_event_obj]
  by_cases hf : idev.interrupt_feature_offset = 0
  · by_cases hb : idev.registers_base = 0
    · rw [if_neg (fun h => h.2 hb), if_pos (Or.inr hb)]
    · rw [if_pos ⟨Or.inl hf, hb⟩, if_neg]
      rintro (h | h)
      · exact h.1 hf
      · exact hb h
  · have hst : slot_dma_interrupt (handler_int_status_reg idev) =
        (catapult_read_dfh_register idev
          ((idev.interrupt_feature_offset + DFH_FEATURE_INTERRUPT_STATUS_REG_OFFSET) % 2 ^ 32)
          0).2.1 &&& 1 := by
      unfold slot_dma_interrupt handler_int_status_reg
      simp only
      rw [if_pos hf]
    rw [hst]
    by_cases hb : idev.registers_base = 0
    · rw [if_neg (fun h => h.2 hb), if_pos (Or.inr hb)]
    · by_cases hs : (catapult_read_dfh_register idev
          ((idev.interrupt_feature_offset + DFH_FEATURE_INTERRUPT_STATUS_REG_OFFSET) % 2 ^ 32)
          0).2.1 &&& 1 = 0
      · rw [if_neg, if_pos (Or.inl ⟨hf, hs⟩)]
        rintro ⟨h | h, -⟩
        · exact hf h
        · exact h hs
      · rw [if_pos ⟨Or.inr hs, hb⟩, if_neg]
        rintro (h | h)
        · exact hs h.2
        · exact hb h

/-- Claim C15. The interrupt decode of `catapult_interrupt_handler` equals the
reference, for every device with the register space mapped, every status word
`w` read at the legacy interrupt status register and every slot count: the
handler returns `IRQ_HANDLED`; it signals no completion if `w = 0xFFFFFFFF`, or
if the interrupt feature is present and bit 0 (`slot_dma_interrupt`) of the
interrupt status the handler holds is clear; in every other case it signals the
slots of `reference_decode w number_of_slots` in order: the identifiers
`(w >> 8k) & 0xFF` for `k = 1 .. (w & 3)` that are below the slot count, once
for each `k`, and no other slot. The bit the handler holds is bit 0 of the
status register of the feature when the read of that register is accepted, and
is clear when the read is refused, so that nothing is signalled then. -/
theorem interrupt_decode_matches_reference (idev : catapult_device)
    (hmap : idev.registers_base ≠ 0) :
    (catapult_interrupt_handler idev).1 = IRQ_HANDLED ∧
    (legacy_interrupt_status idev = 0xFFFFFFFF →
      (catapult_interrupt_handler idev).2.event_obj = idev.event_obj) ∧
    (idev.interrupt_feature_offset ≠ 0 →
      slot_dma_interrupt (handler_int_status_reg idev) = 0 →
      (catapult_interrupt_handler idev).2.event_obj = idev.event_obj) ∧
    (legacy_interrupt_status idev ≠ 0xFFFFFFFF →
      ¬ (idev.interrupt_feature_offset ≠ 0 ∧
        slot_dma_interrupt (handler_int_status_reg idev) = 0) →
      (catapult_interrupt_handler idev).2.event_obj =
        signal_all idev.event_obj
          (reference_decode (legacy_interrupt_status idev) idev.number_of_slots) ∧
      (∀ s, s ∉ reference_decode (legacy_interrupt_status idev) idev.number_of_slots →
        (catapult_interrupt_handler idev).2.event_obj s = idev.event_obj s) ∧
      (∀ s, (idev.event_obj s).done +
          (reference_decode (legacy_interrupt_status idev) idev.number_of_slots).count s ≤
            UINT_MAX →
        ((catapult_interrupt_handler idev).2.event_obj s).done =
          (idev.event_obj s).done +
            (reference_decode (legacy_interrupt_status idev) idev.number_of_slots).count s)) ∧
    (slot_dma_interrupt (handler_int_status_reg idev) =
      if idev.interrupt_feature_offset ≠ 0 ∧
          (idev.interrupt_feature_offset + DFH_FEATURE_INTERRUPT_STATUS_REG_OFFSET) % 2 ^ 32 <
            idev.registers_cb ∧
          (idev.interrupt_feature_offset + DFH_FEATURE_INTERRUPT_STATUS_REG_OFFSET) % 2 ^ 32 % 8 =
            0 then
        idev.registers.content64
          ((idev.interrupt_feature_offset + DFH_FEATURE_INTERRUPT_STATUS_REG_OFFSET) % 2 ^ 32) % 2
      else 0) ∧
    (∀ s, s ∈ reference_decode (legacy_interrupt_status idev) idev.number_of_slots ↔
      legacy_interrupt_status idev ≠ 0xFFFFFFFF ∧ s < idev.number_of_slots ∧
      ∃ k, 1 ≤ k ∧ k ≤ legacy_interrupt_status idev &&& 3 ∧
        s = (legacy_interrupt_status idev >>> (8 * k)) &&& 0xff) := by
  have hclosed := catapult_interrupt_handler_by_status idev
  refine ⟨?_, fun hw => ?_, fun hf hbit => ?_, fun hw hsel => ?_,
    handler_slot_dma_interrupt idev, fun s => mem_reference_decode _ _ s⟩
  · unfold catapult_interrupt_handler
    simp only
    split_ifs <;> rfl
  · rw [hclosed]
    have hnil : reference_decode (legacy_interrupt_status idev) idev.number_of_slots = [] := by
      unfold reference_decode
      rw [if_pos hw]
    rw [hnil]
    split_ifs <;> rfl
  · rw [hclosed, if_pos (Or.inl ⟨hf, hbit⟩)]
  · rw [if_neg (fun h => h.elim hsel hmap)] at hclosed
    refine ⟨hclosed, fun s hs => ?_, fun s hs => ?_⟩
    · rw [hclosed, signal_all_other s _ _ hs]
    · rw [hclosed, signal_all_done s _ _ hs]

/-- Claim C15 at the two status words of the specification, on a device of 64
slots without interrupt feature: `0x00000501` signals exactly slot 5, and
`0x03020103` exactly the slots 1, 2 and 3; and on a device whose interrupt
feature is present with a status register that cannot be read, where nothing
is signalled although the register has bit 0 set. -/
theorem interrupt_decode_matches_reference_witness :
    (catapult_interrupt_handler (device_with_status 0x00000501)).2.event_obj =
      signal_all (device_with_status 0x00000501).event_obj [5] ∧
    (catapult_interrupt_handler (device_with_status 0x03020103)).2.event_obj =
      signal_all (device_with_status 0x03020103).event_obj [1, 2, 3] ∧
    device_with_refused_status.registers.content64 0x124 % 2 = 1 ∧
    (catapult_interrupt_handler device_with_refused_status).2.event_obj =
      device_with_refused_status.event_obj :=
  ⟨((interrupt_decode_matches_reference (device_with_status 0x00000501)
      (by decide)).2.2.2.1 (by decide) (fun h => h.1 rfl)).1,
    ((interrupt_decode_matches_reference (device_with_status 0x03020103)
      (by decide)).2.2.2.1 (by decide) (fun h => h.1 rfl)).1,
    by decide,
    (interrupt_decode_matches_reference device_with_refused_status
      (by decide)).2.2.1 (by decide) (by decide)⟩

/-! ## Register offsets and the register translator -/

theorem or_mod_two_pow (a b n : Nat) : (a ||| b) % 2 ^ n = a % 2 ^ n ||| b % 2 ^ n := by
  apply Nat.eq_of_testBit_eq
  intro i
  simp only [Nat.testBit_mod_two_pow, Nat.testBit_or]
  by_cases h : i < n <;> simp [h]

/-- The offset as the C expression reads, reduced modulo `2 ^ 32`. -/
theorem catapult_register_offset_eq (interp_addr register_number : Nat) :
    catapult_register_offset interp_addr register_number =
      ((register_number <<< 8) ||| (interp_addr <<< 4) ||| 4) % 2 ^ 32 := by
  unfold catapult_register_offset
  rw [or_mod_two_pow, or_mod_two_pow]
  rfl

theorem catapult_register_offset_lt (interp_addr register_number : Nat) :
    catapult_register_offset interp_addr register_number < 2 ^ 32 := by
  rw [catapult_register_offset_eq]
  exact Nat.mod_lt _ (by norm_num)

/-- The word of an indirect write: offset in the high half, value in the low
half. -/
theorem indirect_write_word (offset value : Nat) (ho : offset < 2 ^ 32) (hv : value < 2 ^ 32) :
    ((offset <<< 32) % 2 ^ 64 ||| value) >>> 32 = offset ∧
    ((offset <<< 32) % 2 ^ 64 ||| value) % 2 ^ 32 = value ∧
    ((offset <<< 32) % 2 ^ 64 ||| value) = (offset <<< 32) ||| value := by
  have h1 : (offset <<< 32) % 2 ^ 64 = 2 ^ 32 * offset := by
    rw [Nat.shiftLeft_eq, Nat.mod_eq_of_lt, Nat.mul_comm]
    calc offset * 2 ^ 32 < 2 ^ 32 * 2 ^ 32 := by
          exact Nat.mul_lt_mul_of_pos_right ho (by norm_num)
      _ = 2 ^ 64 := by norm_num
  have h2 : offset <<< 32 = 2 ^ 32 * offset := by
    rw [Nat.shiftLeft_eq, Nat.mul_comm]
  rw [h1, h2, ← Nat.mul_add_lt_is_or hv, Nat.shiftRight_eq_div_pow]
  refine ⟨?_, ?_, rfl⟩
  · rw [Nat.mul_add_div (by norm_num), Nat.div_eq_of_lt hv, Nat.add_zero]
  · rw [Nat.mul_add_mod, Nat.mod_eq_of_lt hv]

theorem soft_reg_magic_offset :
    catapult_register_offset INTER_ADDR_SOFT_REG (SOFT_REG_SLOT_DMA_BASE_ADDR + 63) =
      0x7E3F84 := by decide

/-- A read of an unmapped logical address returns 0 and leaves the register
space untouched. -/
theorem catapult_low_level_read_unsupported (registers : register_space)
    (interp_address app_address : Nat) (h : unsupported_address interp_address app_address) :
    catapult_low_level_read registers interp_address app_address = (0, registers) := by
  unfold catapult_low_level_read
  simp only [INTER_ADDR_FULL_STATUS_REG, INTER_ADDR_DONE_STATUS_REG, INTER_ADDR_PEND_STATUS_REG,
    INTER_ADDR_GENERAL_PURPOSE_REG, INTER_ADDR_ASMI_RSU, INTER_ADDR_HACK_OVERRIDE_OUT_DATA_SIZE,
    INTER_ADDR_INTERRUPT, INTER_ADDR_DMA_DESCRIPTORS_AND_RESERVED]
  rcases h with (h | h | h | h | h | h | h | h) | ⟨h, h2⟩ | ⟨h, h2⟩ | ⟨h, h2⟩
  all_goals rw [h]
  all_goals norm_num
  · intro h3 h4
    omega
  · intro h3
    exact absurd h3 h2
  · intro h3
    omega

/-- A write to an address other than the two legacy ones is one 64-bit write
to the fixed soft register. -/
theorem catapult_low_level_write_indirect (registers : register_space)
    (interp_address app_address value : Nat)
    (h : ¬ (interp_address &&& 0xf = 3 ∨ interp_address &&& 0xf = 10)) :
    catapult_low_level_write registers interp_address app_address value =
      { registers with
        accesses := registers.accesses ++
          [.writeq 0x7E3F84
            ((catapult_register_offset interp_address app_address <<< 32) % 2 ^ 64 |||
              value)] } := by
  unfold catapult_low_level_write catapult_low_level_write_64 catapult_register_write64
  simp only [INTER_ADDR_GENERAL_PURPOSE_REG, INTER_ADDR_ASMI_RSU, soft_reg_magic_offset]
  rw [if_neg (fun h3 => h (Or.inl h3)), if_neg (fun h10 => h (Or.inr h10))]

/-- A write to one of the two legacy addresses is one 32-bit write. -/
theorem catapult_low_level_write_direct (registers : register_space)
    (interp_address app_address value : Nat)
    (h : interp_address &&& 0xf = 3 ∨ interp_address &&& 0xf = 10) :
    catapult_low_level_write registers interp_address app_address value =
      { registers with
        accesses := registers.accesses ++
          [.writel (catapult_register_offset interp_address app_address) value] } := by
  unfold catapult_low_level_write catapult_low_level_write_legacy catapult_register_write32
  simp only [INTER_ADDR_GENERAL_PURPOSE_REG, INTER_ADDR_ASMI_RSU]
  rcases h with h | h
  · rw [if_pos h]
  · rw [h]
    rfl

theorem unsupported_address_not_legacy (interp_address app_address : Nat)
    (h : unsupported_address interp_address app_address) :
    ¬ (interp_address &&& 0xf = 3 ∨ interp_address &&& 0xf = 10) := by
  rcases h with (h | h | h | h | h | h | h | h) | ⟨h, -⟩ | ⟨h, -⟩ | ⟨h, -⟩
  all_goals rw [h]
  all_goals norm_num

/-- Claim C18. Reads of unsupported logical addresses return 0: for every
register content, `catapult_low_level_read` returns 0 and leaves the register
space as it was, without a single access, when `interp_addr & 0xF` is one of
4, 5, 6, 7, 8, 9, 11, 13, or is 12 with `app_addr` outside `[2, 6]`, or is 14
with `app_addr ≠ 257`, or is 15 with `app_addr > 53`. -/
theorem low_level_read_unsupported_is_zero (registers : register_space)
    (interp_address app_address : Nat)
    (h : (interp_address &&& 0xf = 4 ∨ interp_address &&& 0xf = 5 ∨
        interp_address &&& 0xf = 6 ∨ interp_address &&& 0xf = 7 ∨
        interp_address &&& 0xf = 8 ∨ interp_address &&& 0xf = 9 ∨
        interp_address &&& 0xf = 11 ∨ interp_address &&& 0xf = 13) ∨
      (interp_address &&& 0xf = 12 ∧ (app_address < 2 ∨ 6 < app_address)) ∨
      (interp_address &&& 0xf = 14 ∧ app_address ≠ 257) ∨
      (interp_address &&& 0xf = 15 ∧ 53 < app_address)) :
    (catapult_low_level_read registers interp_address app_address).1 = 0 ∧
    (catapult_low_level_read registers interp_address app_address).2 = registers ∧
    (catapult_low_level_read registers interp_address app_address).2.accesses =
      registers.accesses := by
  rw [catapult_low_level_read_unsupported registers interp_address app_address h]
  exact ⟨rfl, rfl, rfl⟩

/-- Claim C18 at the interrupt address with application address 256, the read
`catapult_dma_init` makes. -/
theorem low_level_read_unsupported_is_zero_witness :
    (catapult_low_level_read zero_registers INTER_ADDR_INTERRUPT 256).1 = 0 ∧
    (catapult_low_level_read zero_registers INTER_ADDR_INTERRUPT 256).2.accesses = [] :=
  ⟨(low_level_read_unsupported_is_zero zero_registers INTER_ADDR_INTERRUPT 256
      (Or.inr (Or.inr (Or.inl ⟨by decide, by decide⟩)))).1,
    (low_level_read_unsupported_is_zero zero_registers INTER_ADDR_INTERRUPT 256
      (Or.inr (Or.inr (Or.inl ⟨by decide, by decide⟩)))).2.2⟩

/-- Claim C19, the code at interpretation address 13, application address 0
and value 1, an address that reads as 0 without hardware access: the write is
not a no-op, it performs a 64-bit write of `(0xD4 << 32) | 1` at offset
`0x7E3F84`. -/
theorem low_level_write_unsupported_writes :
    unsupported_address INTER_ADDR_ENABLE_DISABLE 0 ∧
    (catapult_low_level_write zero_registers INTER_ADDR_ENABLE_DISABLE 0 1).accesses =
      [.writeq 0x7E3F84 0xD400000001] ∧
    (catapult_low_level_write zero_registers INTER_ADDR_ENABLE_DISABLE 0 1).accesses ≠
      zero_registers.accesses := by
  refine ⟨Or.inl (by decide), by decide, by decide⟩

/-- Claim C19 as amended. `catapult_low_level_write` has no unsupported
addresses: for every logical address that `catapult_low_level_read` leaves
unmapped and every value, it performs exactly one register write, the 64-bit
write of `(offset << 32) | value` to the fixed soft register at `0x7E3F84`,
where `offset` is `catapult_register_offset` of the address; it reads nothing
and reports no error. -/
theorem low_level_write_unsupported_is_indirect (registers : register_space)
    (interp_address app_address value : Nat)
    (h : unsupported_address interp_address app_address) :
    catapult_low_level_write registers interp_address app_address value =
      { registers with
        accesses := registers.accesses ++
          [.writeq 0x7E3F84
            ((catapult_register_offset interp_address app_address <<< 32) % 2 ^ 64 |||
              value)] } ∧
    (catapult_low_level_read registers interp_address app_address).1 = 0 :=
  ⟨catapult_low_level_write_indirect registers interp_address app_address value
      (unsupported_address_not_legacy interp_address app_address h),
    by rw [catapult_low_level_read_unsupported registers interp_address app_address h]⟩

/-- Claim C19 as amended, at interpretation address 14 with application
address 256. -/
theorem low_level_write_unsupported_is_indirect_witness :
    (catapult_low_level_write zero_registers INTER_ADDR_INTERRUPT 256 1).accesses =
      [.writeq 0x7E3F84 0x100E400000001] :=
  congrArg register_space.accesses
    (low_level_write_unsupported_is_indirect zero_registers INTER_ADDR_INTERRUPT 256 1
      (Or.inr (Or.inr (Or.inl ⟨by decide, by decide⟩)))).1

/-- Claim C20. The write encoding of `catapult_low_level_write`, for every
interpretation address, application address and 32-bit value: it performs
exactly one register write; when `interp_addr & 0xF` is 3 or 10, the 32-bit
write of the value at offset `((app_addr << 8) | (interp_addr << 4) | 4) mod
2 ^ 32`; otherwise the 64-bit write, at the fixed offset
`catapult_register_offset(8, 0x7E00 + 63) = 0x7E3F84`, of the word
`W = (offset << 32) | value` for that same offset, so that `W >> 32` is the
offset and `W mod 2 ^ 32` the value. -/
theorem low_level_write_encoding (registers : register_space)
    (interp_address app_address value : Nat) (hv : value < 2 ^ 32) :
    (interp_address &&& 0xf = 3 ∨ interp_address &&& 0xf = 10 →
      catapult_low_level_write registers interp_address app_address value =
        { registers with
          accesses := registers.accesses ++
            [.writel (((app_address <<< 8) ||| (interp_address <<< 4) ||| 4) % 2 ^ 32)
              value] }) ∧
    (¬ (interp_address &&& 0xf = 3 ∨ interp_address &&& 0xf = 10) →
      ∃ W, catapult_low_level_write registers interp_address app_address value =
          { registers with accesses := registers.accesses ++ [.writeq 0x7E3F84 W] } ∧
        W = ((((app_address <<< 8) ||| (interp_address <<< 4) ||| 4) % 2 ^ 32) <<< 32) |||
          value ∧
        W >>> 32 = ((app_address <<< 8) ||| (interp_address <<< 4) ||| 4) % 2 ^ 32 ∧
        W % 2 ^ 32 = value) ∧
    catapult_register_offset INTER_ADDR_SOFT_REG (SOFT_REG_SLOT_DMA_BASE_ADDR + 63) =
      0x7E3F84 := by
  refine ⟨fun h => ?_, fun h => ?_, soft_reg_magic_offset⟩
  · rw [catapult_low_level_write_direct registers interp_address app_address value h,
      catapult_register_offset_eq]
  · obtain ⟨h1, h2, h3⟩ := indirect_write_word
      (catapult_register_offset interp_address app_address) value
      (catapult_register_offset_lt _ _) hv
    refine ⟨_, catapult_low_level_write_indirect registers interp_address app_address value h,
      ?_, ?_, h2⟩
    · rw [h3, catapult_register_offset_eq]
    · rw [h1, catapult_register_offset_eq]

/-- Claim C20 at the two writes `catapult_dma_init` makes and at a general
purpose register. -/
theorem low_level_write_encoding_witness :
    (catapult_low_level_write zero_registers INTER_ADDR_GENERAL_PURPOSE_REG 56 7).accesses =
      [.writel 0x3834 7] ∧
    ∃ W, (catapult_low_level_write zero_registers INTER_ADDR_INTERRUPT 257 1).accesses =
        [.writeq 0x7E3F84 W] ∧ W >>> 32 = 0x101E4 ∧ W % 2 ^ 32 = 1 :=
  ⟨congrArg register_space.accesses
      ((low_level_write_encoding zero_registers INTER_ADDR_GENERAL_PURPOSE_REG 56 7
        (by decide)).1 (Or.inl (by decide))),
    ((low_level_write_encoding zero_registers INTER_ADDR_INTERRUPT 257 1
      (by decide)).2.1 (by decide)).imp
      (fun _ h => ⟨congrArg register_space.accesses h.1, h.2.2.1, h.2.2.2⟩)⟩

/-! ## Slot indices stay below the slot count

Two facts say that a request touches no entry at or above `number_of_slots`:
it leaves those entries as they are (`same_above`), and what it returns and
does below the slot count does not depend on them (`agree_below`). -/

theorem same_above_refl (idev : catapult_device) : same_above idev idev :=
  ⟨rfl, fun _ _ => ⟨rfl, rfl, rfl⟩⟩

/-- The writes of `catapult_acquire_slot` stay below the slot count. -/
theorem catapult_acquire_slot_same_above (idev : catapult_device)
    (hN : idev.number_of_slots ≤ MAX_FPGA_NUM_SLOTS) (lock_status : Int) (copy_left : Nat)
    (q : Int) : same_above idev (catapult_acquire_slot idev lock_status copy_left q).idev := by
  by_cases hl : lock_status = 0
  · subst hl
    rw [catapult_acquire_slot_locked idev copy_left q hN]
    by_cases hlt : find_next_zero_bit idev.slot_map idev.number_of_slots 0 <
        idev.number_of_slots
    · rw [if_pos hlt]
      have hmark : same_above idev
          (mark_slot idev (find_next_zero_bit idev.slot_map idev.number_of_slots 0) q) := by
        refine ⟨rfl, fun j hj => ⟨?_, ?_, rfl⟩⟩
        · simp only [mark_slot, set_bit]
          rw [if_neg (by omega)]
        · simp only [mark_slot, pid_store]
          rw [if_neg (by omega)]
      split_ifs <;> exact hmark
    · rw [if_neg hlt]
      exact same_above_refl idev
  · have : (catapult_acquire_slot idev lock_status copy_left q).idev = idev := by
      unfold catapult_acquire_slot
      simp [hl]
    rw [this]
    exact same_above_refl idev

/-- The writes of `catapult_release_slot` stay below the slot count. -/
theorem catapult_release_slot_same_above (idev : catapult_device) (copy_left : Nat)
    (input : catapult_slot_reservation) (q : Int) :
    same_above idev (catapult_release_slot idev copy_left input q).2 := by
  unfold catapult_release_slot
  split_ifs with h1 h2 h3
  · exact same_above_refl idev
  · exact same_above_refl idev
  · refine ⟨rfl, fun j hj => ⟨?_, ?_, rfl⟩⟩
    · simp only [clear_bit]
      rw [if_neg (by omega)]
    · simp only [pid_store]
      rw [if_neg (by omega)]
  · exact same_above_refl idev

/-- A range request whose end is not below the slot count changes nothing. -/
theorem catapult_acquire_slot_range_invalid (idev : catapult_device)
    (uarg : catapult_acquire_slot_range_info) (kzalloc_ok : Bool)
    (copy_in_left : Nat) (lock_status : Int) (copy_out_left : Nat) (q : Int)
    (hend : idev.number_of_slots ≤ uarg.slot_range.end_) :
    (catapult_acquire_slot_range idev kzalloc_ok copy_in_left uarg lock_status copy_out_left
      q).idev = idev := by
  have hinv : uarg.slot_range.start ≥ idev.number_of_slots ∨
      uarg.slot_range.end_ ≥ idev.number_of_slots ∨
      uarg.slot_range.start > uarg.slot_range.end_ := Or.inr (Or.inl hend)
  unfold catapult_acquire_slot_range
  simp only [if_pos hinv]
  split_ifs <;> rfl

/-- The writes of `catapult_acquire_slot_range` stay below the slot count. -/
theorem catapult_acquire_slot_range_same_above (idev : catapult_device)
    (uarg : catapult_acquire_slot_range_info) (kzalloc_ok : Bool)
    (copy_in_left : Nat) (lock_status : Int) (copy_out_left : Nat) (q : Int) :
    same_above idev (catapult_acquire_slot_range idev kzalloc_ok copy_in_left uarg lock_status
      copy_out_left q).idev := by
  by_cases hend : idev.number_of_slots ≤ uarg.slot_range.end_
  · rw [catapult_acquire_slot_range_invalid idev uarg kzalloc_ok copy_in_left lock_status
      copy_out_left q hend]
    exact same_above_refl idev
  · refine ⟨catapult_acquire_slot_range_number_of_slots idev uarg kzalloc_ok copy_in_left
      lock_status copy_out_left q, fun j hj => ?_⟩
    obtain ⟨h1, h2⟩ := catapult_acquire_slot_range_outside idev uarg kzalloc_ok copy_in_left
      lock_status copy_out_left q j (by omega)
    refine ⟨h1, h2, ?_⟩
    unfold catapult_acquire_slot_range
    simp only
    split_ifs <;> rfl

/-- The writes of `catapult_release_slot_range` stay below the slot count. -/
theorem catapult_release_slot_range_same_above (idev : catapult_device) (q : Int) :
    same_above idev (catapult_release_slot_range idev q).2 := by
  refine ⟨rfl, fun j hj => ⟨?_, rfl, rfl⟩⟩
  simp only [catapult_release_slot_range]
  rw [release_range_scan_bit, if_neg (by omega)]

/-- The writes of `catapult_slot_map_release` stay below the slot count. -/
theorem catapult_release_same_above (idev : catapult_device) (q : Int) :
    ∃ after, catapult_release idev false q = some (0, after) ∧ same_above idev after := by
  refine ⟨{ idev with
      slot_map := fun j =>
        if 0 ≤ j ∧ j < idev.number_of_slots ∧ idev.slot_map j = true ∧
          idev.slot_map_pids j = q then false
        else idev.slot_map j }, ?_, ?_⟩
  · simp only [catapult_release, Bool.false_eq_true, if_false, catapult_slot_map_release_eq,
      Option.map_some']
  · refine ⟨rfl, fun j hj => ⟨?_, rfl, rfl⟩⟩
    simp only
    rw [if_neg (by omega)]

/-- Storing a completion below the slot count leaves the entries above. -/
theorem same_above_store (idev : catapult_device) (i : Nat) (v : completion)
    (hi : i < idev.number_of_slots) :
    same_above idev { idev with event_obj := completion_store idev.event_obj i v } := by
  refine ⟨rfl, fun j hj => ⟨rfl, rfl, ?_⟩⟩
  simp only [completion_store]
  rw [if_neg (by omega)]

/-- The writes of `catapult_wait_slot_event` stay below the slot count. -/
theorem catapult_wait_slot_event_same_above (prims : wait_primitives) (idev : catapult_device)
    (copy_left : Nat) (input : catapult_wait_slot_event_info) (st : Int)
    (after : catapult_device)
    (h : catapult_wait_slot_event prims idev copy_left input = some (st, after)) :
    same_above idev after := by
  unfold catapult_wait_slot_event at h
  by_cases hc : copy_left = 0
  swap
  · rw [if_pos hc] at h
    simp only [Option.some.injEq, Prod.mk.injEq] at h
    rw [← h.2]
    exact same_above_refl idev
  rw [if_neg (by simp [hc])] at h
  by_cases hi : input.slot_index ≥ idev.number_of_slots
  · rw [if_pos hi] at h
    simp only [Option.some.injEq, Prod.mk.injEq] at h
    rw [← h.2]
    exact same_above_refl idev
  rw [if_neg hi] at h
  simp only at h
  split_ifs at h
  all_goals first
    | (simp only [Option.map_eq_some', Prod.mk.injEq] at h
       obtain ⟨r, -, -, h2⟩ := h
       rw [← h2]
       exact same_above_store idev _ _ (by omega))
    | (simp only [Option.some.injEq, Prod.mk.injEq] at h
       rw [← h.2]
       exact same_above_store idev _ _ (by omega))

/-- The writes of `catapult_reset_slot_event` stay below the slot count. -/
theorem catapult_reset_slot_event_same_above (idev : catapult_device) (copy_left : Nat)
    (input : catapult_reset_slot_event_info) :
    same_above idev (catapult_reset_slot_event idev copy_left input).2 := by
  unfold catapult_reset_slot_event
  split_ifs with h1 h2
  · exact same_above_refl idev
  · exact same_above_refl idev
  · exact same_above_store idev _ _ (by omega)

/-- The writes of `catapult_complete_slot_event` stay below the slot count. -/
theorem catapult_complete_slot_event_same_above (idev : catapult_device) (copy_left : Nat)
    (input : catapult_complete_slot_event_info) :
    same_above idev (catapult_complete_slot_event idev copy_left input).2 := by
  unfold catapult_complete_slot_event
  split_ifs with h1 h2
  · exact same_above_refl idev
  · exact same_above_refl idev
  · exact same_above_store idev _ _ (by omega)

/-- The handler touches the registers and the completions only. -/
theorem catapult_interrupt_handler_tables (idev : catapult_device) :
    (catapult_interrupt_handler idev).2.number_of_slots = idev.number_of_slots ∧
    (catapult_interrupt_handler idev).2.slot_map = idev.slot_map ∧
    (catapult_interrupt_handler idev).2.slot_map_pids = idev.slot_map_pids ∧
    (catapult_interrupt_handler idev).2.bytes_per_slot = idev.bytes_per_slot ∧
    (catapult_interrupt_handler idev).2.registers_base = idev.registers_base ∧
    (catapult_interrupt_handler idev).2.registers_cb = idev.registers_cb ∧
    (catapult_interrupt_handler idev).2.interrupt_feature_offset =
      idev.interrupt_feature_offset := by
  unfold catapult_interrupt_handler
  simp only
  split_ifs <;> exact ⟨rfl, rfl, rfl, rfl, rfl, rfl, rfl⟩

/-- The completions the handler signals are below the slot count. -/
theorem catapult_interrupt_handler_same_above (idev : catapult_device) :
    same_above idev (catapult_interrupt_handler idev).2 := by
  obtain ⟨h1, h2, h3, -⟩ := catapult_interrupt_handler_tables idev
  refine ⟨h1, fun j hj => ⟨by rw [h2], by rw [h3], ?_⟩⟩
  rw [catapult_interrupt_handler_event_obj]
  split_ifs
  · apply signal_all_other
    intro hmem
    have := ((mem_reference_decode _ _ j).1 hmem).2.1
    omega
  · rfl

/-- Whatever a request or interrupt does, the entries of
the bitmap, the owner table and the completion array at or above the slot count
are the same afterwards. -/
theorem device_outcome_same_above (idev : catapult_device)
    (hN : idev.number_of_slots ≤ MAX_FPGA_NUM_SLOTS) (r : device_request) (st : Int)
    (after : catapult_device) (h : device_outcome idev r = some (st, after)) :
    same_above idev after := by
  cases r with
  | slot sr =>
    cases sr with
    | acquire_one lock_status copy_left q =>
      simp only [device_outcome, Option.some.injEq, Prod.mk.injEq] at h
      rw [← h.2]
      exact catapult_acquire_slot_same_above idev hN lock_status copy_left q
    | release_one copy_left input q =>
      simp only [device_outcome, Option.some.injEq] at h
      have := catapult_release_slot_same_above idev copy_left input q
      rw [h] at this
      exact this
    | acquire_range kzalloc_ok copy_in_left uarg lock_status copy_out_left q =>
      simp only [device_outcome, Option.some.injEq, Prod.mk.injEq] at h
      rw [← h.2]
      exact catapult_acquire_slot_range_same_above idev uarg kzalloc_ok copy_in_left
        lock_status copy_out_left q
    | release_range q =>
      simp only [device_outcome, Option.some.injEq] at h
      have := catapult_release_slot_range_same_above idev q
      rw [h] at this
      exact this
    | session_close q =>
      obtain ⟨a, h1, h2⟩ := catapult_release_same_above idev q
      simp only [device_outcome] at h
      rw [h1] at h
      simp only [Option.some.injEq, Prod.mk.injEq] at h
      rw [← h.2]
      exact h2
  | get_slot_event copy_left input =>
    simp only [device_outcome, Option.some.injEq, Prod.mk.injEq] at h
    rw [← h.2]
    exact same_above_refl idev
  | wait_slot_event prims copy_left input =>
    exact catapult_wait_slot_event_same_above prims idev copy_left input st after h
  | reset_slot_event copy_left input =>
    simp only [device_outcome, Option.some.injEq] at h
    have := catapult_reset_slot_event_same_above idev copy_left input
    rw [h] at this
    exact this
  | complete_slot_event copy_left input =>
    simp only [device_outcome, Option.some.injEq] at h
    have := catapult_complete_slot_event_same_above idev copy_left input
    rw [h] at this
    exact this
  | mmap_get_slot offset size lock_status current =>
    simp only [device_outcome, Option.map_eq_some', Prod.mk.injEq] at h
    obtain ⟨a, -, -, h2⟩ := h
    rw [← h2]
    exact same_above_refl idev
  | interrupt =>
    simp only [device_outcome, Option.some.injEq, Prod.mk.injEq] at h
    rw [← h.2]
    exact catapult_interrupt_handler_same_above idev

theorem find_next_zero_bit_scan_congr (m1 m2 : Nat → Bool) (size : Nat)
    (h : ∀ j, j < size → m1 j = m2 j) :
    ∀ cnt i, i + cnt ≤ size →
      find_next_zero_bit_scan m1 size cnt i = find_next_zero_bit_scan m2 size cnt i := by
  intro cnt
  induction cnt with
  | zero => intro i _; rfl
  | succ n ih =>
    intro i hi
    unfold find_next_zero_bit_scan
    simp only [test_bit, h i (by omega), ih (i + 1) (by omega)]

/-- The search for a clear bit looks at bits below `size` only. -/
theorem find_next_zero_bit_congr (m1 m2 : Nat → Bool) (size offset : Nat)
    (h : ∀ j, j < size → m1 j = m2 j) :
    find_next_zero_bit m1 size offset = find_next_zero_bit m2 size offset := by
  unfold find_next_zero_bit
  by_cases ho : offset ≤ size
  · exact find_next_zero_bit_scan_congr m1 m2 size h _ _ (by omega)
  · rw [show size - offset = 0 by omega]
    rfl

theorem agree_below_symm_slots (a b : catapult_device) (h : agree_below a b) :
    b.number_of_slots = a.number_of_slots := h.1.symm

/-- Stamping the same slot on two devices that agree keeps them agreeing. -/
theorem agree_below_mark_slot (a b : catapult_device) (h : agree_below a b) (i : Nat) (q : Int) :
    agree_below (mark_slot a i q) (mark_slot b i q) := by
  obtain ⟨h1, h2, h3, h4, h5, h6, h7⟩ := h
  refine ⟨h1, h2, h3, h4, h5, h6, fun j hj => ?_⟩
  obtain ⟨g1, g2, g3⟩ := h7 j hj
  refine ⟨?_, ?_, g3⟩
  · simp only [mark_slot, set_bit, g1]
  · simp only [mark_slot, pid_store, g2]

/-- What `catapult_acquire_slot` returns and does below the slot count does
not depend on entries at or above it. -/
theorem catapult_acquire_slot_agree (a b : catapult_device) (h : agree_below a b)
    (hN : a.number_of_slots ≤ MAX_FPGA_NUM_SLOTS) (lock_status : Int) (copy_left : Nat)
    (q : Int) :
    (catapult_acquire_slot a lock_status copy_left q).status =
      (catapult_acquire_slot b lock_status copy_left q).status ∧
    (catapult_acquire_slot a lock_status copy_left q).arg =
      (catapult_acquire_slot b lock_status copy_left q).arg ∧
    agree_below (catapult_acquire_slot a lock_status copy_left q).idev
      (catapult_acquire_slot b lock_status copy_left q).idev := by
  have hNb : b.number_of_slots ≤ MAX_FPGA_NUM_SLOTS := by rw [← h.1]; exact hN
  by_cases hl : lock_status = 0
  · subst hl
    have hfind : find_next_zero_bit b.slot_map b.number_of_slots 0 =
        find_next_zero_bit a.slot_map a.number_of_slots 0 := by
      rw [← h.1]
      exact (find_next_zero_bit_congr a.slot_map b.slot_map a.number_of_slots 0
        (fun j hj => (h.2.2.2.2.2.2 j hj).1)).symm
    rw [catapult_acquire_slot_locked a copy_left q hN,
      catapult_acquire_slot_locked b copy_left q hNb, hfind, ← h.1]
    split_ifs
    · exact ⟨rfl, rfl, agree_below_mark_slot a b h _ q⟩
    · exact ⟨rfl, rfl, agree_below_mark_slot a b h _ q⟩
    · exact ⟨rfl, rfl, h⟩
  · have hres : ∀ d : catapult_device, catapult_acquire_slot d lock_status copy_left q =
        { status := lock_status, idev := d, arg := none } := by
      intro d
      unfold catapult_acquire_slot
      simp [hl]
    rw [hres a, hres b]
    exact ⟨rfl, rfl, h⟩

/-- What `catapult_release_slot` returns and does below the slot count does
not depend on entries at or above it. -/
theorem catapult_release_slot_agree (a b : catapult_device) (h : agree_below a b)
    (copy_left : Nat) (input : catapult_slot_reservation) (q : Int) :
    (catapult_release_slot a copy_left input q).1 =
      (catapult_release_slot b copy_left input q).1 ∧
    agree_below (catapult_release_slot a copy_left input q).2
      (catapult_release_slot b copy_left input q).2 := by
  obtain ⟨h1, h2, h3, h4, h5, h6, h7⟩ := h
  unfold catapult_release_slot
  by_cases hc : copy_left ≠ 0
  · rw [if_pos hc, if_pos hc]
    exact ⟨rfl, h1, h2, h3, h4, h5, h6, h7⟩
  rw [if_neg hc, if_neg hc]
  by_cases hi : input.slot < 0 ∨ input.slot ≥ a.number_of_slots
  · rw [if_pos hi, if_pos (show input.slot < 0 ∨ input.slot ≥ b.number_of_slots by omega)]
    exact ⟨rfl, h1, h2, h3, h4, h5, h6, h7⟩
  rw [if_neg hi, if_neg (show ¬ (input.slot < 0 ∨ input.slot ≥ b.number_of_slots) by omega)]
  obtain ⟨g1, g2, -⟩ := h7 input.slot (by omega)
  simp only [test_bit]
  by_cases hown : a.slot_map input.slot = true ∧ a.slot_map_pids input.slot = q
  · rw [if_pos hown, if_pos (show b.slot_map input.slot = true ∧ b.slot_map_pids input.slot = q
      from ⟨g1 ▸ hown.1, g2 ▸ hown.2⟩)]
    refine ⟨rfl, h1, h2, h3, h4, h5, h6, fun j hj => ?_⟩
    obtain ⟨k1, k2, k3⟩ := h7 j hj
    refine ⟨?_, ?_, k3⟩
    · simp only [clear_bit, k1]
    · simp only [pid_store, k2]
  · rw [if_neg hown, if_neg (show ¬ (b.slot_map input.slot = true ∧
      b.slot_map_pids input.slot = q) from fun hb => hown ⟨g1.symm ▸ hb.1, g2.symm ▸ hb.2⟩)]
    exact ⟨rfl, h1, h2, h3, h4, h5, h6, h7⟩

theorem acquire_range_check_congr (m1 m2 : Nat → Bool) (status : Int) :
    ∀ cnt i, (∀ j, i ≤ j → j < i + cnt → m1 j = m2 j) →
      acquire_range_check m1 status cnt i = acquire_range_check m2 status cnt i := by
  intro cnt
  induction cnt with
  | zero => intro i _; rfl
  | succ n ih =>
    intro i h
    unfold acquire_range_check
    simp only [test_bit, h i (le_refl _) (by omega),
      ih (i + 1) (fun j h1 h2 => h j (by omega) (by omega))]

/-- What `catapult_acquire_slot_range` returns and does below the slot count
does not depend on entries at or above it. -/
theorem catapult_acquire_slot_range_agree (a b : catapult_device) (h : agree_below a b)
    (uarg : catapult_acquire_slot_range_info) (kzalloc_ok : Bool)
    (copy_in_left : Nat) (lock_status : Int) (copy_out_left : Nat) (q : Int) :
    (catapult_acquire_slot_range a kzalloc_ok copy_in_left uarg lock_status copy_out_left
      q).status =
      (catapult_acquire_slot_range b kzalloc_ok copy_in_left uarg lock_status copy_out_left
        q).status ∧
    agree_below
      (catapult_acquire_slot_range a kzalloc_ok copy_in_left uarg lock_status copy_out_left
        q).idev
      (catapult_acquire_slot_range b kzalloc_ok copy_in_left uarg lock_status copy_out_left
        q).idev := by
  obtain ⟨h1, h2, h3, h4, h5, h6, h7⟩ := h
  have hab : agree_below a b := ⟨h1, h2, h3, h4, h5, h6, h7⟩
  by_cases hvalid : uarg.slot_range.start ≤ uarg.slot_range.end_ ∧
      uarg.slot_range.end_ < a.number_of_slots
  swap
  · have hinv : ∀ d : catapult_device, d.number_of_slots = a.number_of_slots →
        (catapult_acquire_slot_range d kzalloc_ok copy_in_left uarg lock_status copy_out_left
          q).idev = d ∧
        (catapult_acquire_slot_range d kzalloc_ok copy_in_left uarg lock_status copy_out_left
          q).status =
          if !kzalloc_ok then -ENOMEM else if copy_in_left ≠ 0 then -EFAULT else -EINVAL := by
      intro d hd
      have hi : uarg.slot_range.start ≥ d.number_of_slots ∨
          uarg.slot_range.end_ ≥ d.number_of_slots ∨
          uarg.slot_range.start > uarg.slot_range.end_ := by omega
      unfold catapult_acquire_slot_range
      simp only [if_pos hi]
      split_ifs <;> exact ⟨rfl, rfl⟩
    rw [(hinv a rfl).1, (hinv a rfl).2, (hinv b h1.symm).1, (hinv b h1.symm).2]
    exact ⟨rfl, hab⟩
  obtain ⟨hse, hend⟩ := hvalid
  by_cases henv : kzalloc_ok = true ∧ copy_in_left = 0 ∧
      uarg.slot_range.range_type = CATAPULT_SLOT_RANGE_CONTIGUOUS ∧ lock_status = 0
  swap
  · have hearly : ∀ d : catapult_device, d.number_of_slots = a.number_of_slots →
        (catapult_acquire_slot_range d kzalloc_ok copy_in_left uarg lock_status copy_out_left
          q).idev = d ∧
        (catapult_acquire_slot_range d kzalloc_ok copy_in_left uarg lock_status copy_out_left
          q).status =
          if !kzalloc_ok then -ENOMEM else if copy_in_left ≠ 0 then -EFAULT
          else if uarg.slot_range.range_type ≠ CATAPULT_SLOT_RANGE_CONTIGUOUS then -EINVAL
          else lock_status := by
      intro d hd
      have hi : ¬ (uarg.slot_range.start ≥ d.number_of_slots ∨
          uarg.slot_range.end_ ≥ d.number_of_slots ∨
          uarg.slot_range.start > uarg.slot_range.end_) := by omega
      unfold catapult_acquire_slot_range
      simp only [if_neg hi]
      by_cases hk : kzalloc_ok = true
      swap
      · simp [hk]
      by_cases hc : copy_in_left = 0
      swap
      · simp [hk, hc]
      by_cases ht : uarg.slot_range.range_type = CATAPULT_SLOT_RANGE_CONTIGUOUS
      swap
      · simp [hk, hc, ht]
      have hl : lock_status ≠ 0 := fun hl => henv ⟨hk, hc, ht, hl⟩
      simp [hk, hc, ht, hl]
    rw [(hearly a rfl).1, (hearly a rfl).2, (hearly b h1.symm).1, (hearly b h1.symm).2]
    exact ⟨rfl, hab⟩
  obtain ⟨hk, hc, ht, hl⟩ := henv
  subst hk hc hl
  have hchk : acquire_range_check b.slot_map 0
      (uarg.slot_range.end_ + 1 - uarg.slot_range.start) uarg.slot_range.start =
      acquire_range_check a.slot_map 0
        (uarg.slot_range.end_ + 1 - uarg.slot_range.start) uarg.slot_range.start :=
    (acquire_range_check_congr a.slot_map b.slot_map 0 _ _
      (fun j hj1 hj2 => (h7 j (by omega)).1)).symm
  rw [catapult_acquire_slot_range_locked a uarg copy_out_left q ht hse hend,
    catapult_acquire_slot_range_locked b uarg copy_out_left q ht hse (by omega), hchk]
  have hmarked : agree_below
      { a with
        slot_map := (if acquire_range_check a.slot_map 0
            (uarg.slot_range.end_ + 1 - uarg.slot_range.start) uarg.slot_range.start = 0 then
          acquire_range_mark q (uarg.slot_range.end_ + 1 - uarg.slot_range.start)
            uarg.slot_range.start (a.slot_map, a.slot_map_pids)
          else (a.slot_map, a.slot_map_pids)).1
        slot_map_pids := (if acquire_range_check a.slot_map 0
            (uarg.slot_range.end_ + 1 - uarg.slot_range.start) uarg.slot_range.start = 0 then
          acquire_range_mark q (uarg.slot_range.end_ + 1 - uarg.slot_range.start)
            uarg.slot_range.start (a.slot_map, a.slot_map_pids)
          else (a.slot_map, a.slot_map_pids)).2 }
      { b with
        slot_map := (if acquire_range_check a.slot_map 0
            (uarg.slot_range.end_ + 1 - uarg.slot_range.start) uarg.slot_range.start = 0 then
          acquire_range_mark q (uarg.slot_range.end_ + 1 - uarg.slot_range.start)
            uarg.slot_range.start (b.slot_map, b.slot_map_pids)
          else (b.slot_map, b.slot_map_pids)).1
        slot_map_pids := (if acquire_range_check a.slot_map 0
            (uarg.slot_range.end_ + 1 - uarg.slot_range.start) uarg.slot_range.start = 0 then
          acquire_range_mark q (uarg.slot_range.end_ + 1 - uarg.slot_range.start)
            uarg.slot_range.start (b.slot_map, b.slot_map_pids)
          else (b.slot_map, b.slot_map_pids)).2 } := by
    refine ⟨h1, h2, h3, h4, h5, h6, fun j hj => ?_⟩
    obtain ⟨k1, k2, k3⟩ := h7 j hj
    refine ⟨?_, ?_, k3⟩
    · simp only
      split_ifs
      · rw [acquire_range_mark_bits, acquire_range_mark_bits]
        simp only [k1]
      · exact k1
    · simp only
      split_ifs
      · rw [acquire_range_mark_pids, acquire_range_mark_pids]
        simp only [k2]
      · exact k2
  by_cases ho : copy_out_left ≠ 0
  · rw [if_pos ho, if_pos ho]
    exact ⟨rfl, hmarked⟩
  · rw [if_neg ho, if_neg ho]
    exact ⟨rfl, hmarked⟩

/-- What `catapult_release_slot_range` returns and does below the slot count
does not depend on entries at or above it. -/
theorem catapult_release_slot_range_agree (a b : catapult_device) (h : agree_below a b)
    (q : Int) :
    (catapult_release_slot_range a q).1 = (catapult_release_slot_range b q).1 ∧
    agree_below (catapult_release_slot_range a q).2 (catapult_release_slot_range b q).2 := by
  obtain ⟨h1, h2, h3, h4, h5, h6, h7⟩ := h
  refine ⟨rfl, h1, h2, h3, h4, h5, h6, fun j hj => ?_⟩
  obtain ⟨k1, k2, k3⟩ := h7 j hj
  refine ⟨?_, k2, k3⟩
  simp only [catapult_release_slot_range]
  rw [release_range_scan_bit, release_range_scan_bit, ← h1, k1, k2]

/-- What the session close does below the slot count does not depend on
entries at or above it. -/
theorem catapult_release_agree (a b : catapult_device) (h : agree_below a b) (q : Int) :
    ∃ a2 b2, catapult_release a false q = some (0, a2) ∧
      catapult_release b false q = some (0, b2) ∧ agree_below a2 b2 := by
  obtain ⟨h1, h2, h3, h4, h5, h6, h7⟩ := h
  refine ⟨{ a with
      slot_map := fun j =>
        if 0 ≤ j ∧ j < a.number_of_slots ∧ a.slot_map j = true ∧
          a.slot_map_pids j = q then false
        else a.slot_map j },
    { b with
      slot_map := fun j =>
        if 0 ≤ j ∧ j < b.number_of_slots ∧ b.slot_map j = true ∧
          b.slot_map_pids j = q then false
        else b.slot_map j }, ?_, ?_, ?_⟩
  · simp only [catapult_release, Bool.false_eq_true, if_false, catapult_slot_map_release_eq,
      Option.map_some']
  · simp only [catapult_release, Bool.false_eq_true, if_false, catapult_slot_map_release_eq,
      Option.map_some']
  · refine ⟨h1, h2, h3, h4, h5, h6, fun j hj => ?_⟩
    obtain ⟨k1, k2, k3⟩ := h7 j hj
    refine ⟨?_, k2, k3⟩
    simp only
    rw [← h1, k1, k2]

/-- Storing the same completion on two devices that agree keeps them
agreeing. -/
theorem agree_below_store (a b : catapult_device) (h : agree_below a b) (i : Nat)
    (v : completion) :
    agree_below { a with event_obj := completion_store a.event_obj i v }
      { b with event_obj := completion_store b.event_obj i v } := by
  obtain ⟨h1, h2, h3, h4, h5, h6, h7⟩ := h
  refine ⟨h1, h2, h3, h4, h5, h6, fun j hj => ?_⟩
  obtain ⟨k1, k2, k3⟩ := h7 j hj
  refine ⟨k1, k2, ?_⟩
  simp only [completion_store, k3]

/-- What `catapult_wait_slot_event` returns and does below the slot count does
not depend on entries at or above it. -/
theorem catapult_wait_slot_event_agree (prims : wait_primitives) (a b : catapult_device)
    (h : agree_below a b) (copy_left : Nat) (input : catapult_wait_slot_event_info) :
    (catapult_wait_slot_event prims a copy_left input = none ∧
      catapult_wait_slot_event prims b copy_left input = none) ∨
    ∃ st a2 b2, catapult_wait_slot_event prims a copy_left input = some (st, a2) ∧
      catapult_wait_slot_event prims b copy_left input = some (st, b2) ∧ agree_below a2 b2 := by
  unfold catapult_wait_slot_event
  by_cases hc : copy_left ≠ 0
  · rw [if_pos hc, if_pos hc]
    exact Or.inr ⟨_, _, _, rfl, rfl, h⟩
  rw [if_neg hc, if_neg hc]
  by_cases hi : input.slot_index ≥ a.number_of_slots
  · rw [if_pos hi, if_pos (show input.slot_index ≥ b.number_of_slots by rw [← h.1]; exact hi)]
    exact Or.inr ⟨_, _, _, rfl, rfl, h⟩
  rw [if_neg hi, if_neg (show ¬ input.slot_index ≥ b.number_of_slots by rw [← h.1]; exact hi)]
  have hev : b.event_obj input.slot_index = a.event_obj input.slot_index :=
    (h.2.2.2.2.2.2 input.slot_index (by omega)).2.2.symm
  simp only [hev]
  by_cases hw : input.wait = true
  · rw [if_pos hw, if_pos hw]
    by_cases ht : input.timeout = 0
    · rw [if_pos ht, if_pos ht]
      cases hprim : prims.wait_for_completion_interruptible (a.event_obj input.slot_index) with
      | none => exact Or.inl ⟨rfl, rfl⟩
      | some r => exact Or.inr ⟨_, _, _, rfl, rfl, agree_below_store a b h _ _⟩
    · rw [if_neg ht, if_neg ht]
      exact Or.inr ⟨_, _, _, rfl, rfl, agree_below_store a b h _ _⟩
  · rw [if_neg hw, if_neg hw]
    exact Or.inr ⟨_, _, _, rfl, rfl, agree_below_store a b h _ _⟩

/-- What `catapult_reset_slot_event` returns and does below the slot count
does not depend on entries at or above it. -/
theorem catapult_reset_slot_event_agree (a b : catapult_device) (h : agree_below a b)
    (copy_left : Nat) (input : catapult_reset_slot_event_info) :
    (catapult_reset_slot_event a copy_left input).1 =
      (catapult_reset_slot_event b copy_left input).1 ∧
    agree_below (catapult_reset_slot_event a copy_left input).2
      (catapult_reset_slot_event b copy_left input).2 := by
  unfold catapult_reset_slot_event
  by_cases hc : copy_left ≠ 0
  · rw [if_pos hc, if_pos hc]
    exact ⟨rfl, h⟩
  rw [if_neg hc, if_neg hc]
  by_cases hi : input.slot_index ≥ a.number_of_slots
  · rw [if_pos hi, if_pos (show input.slot_index ≥ b.number_of_slots by rw [← h.1]; exact hi)]
    exact ⟨rfl, h⟩
  rw [if_neg hi, if_neg (show ¬ input.slot_index ≥ b.number_of_slots by rw [← h.1]; exact hi)]
  exact ⟨rfl, agree_below_store a b h _ _⟩

/-- What `catapult_complete_slot_event` returns and does below the slot count
does not depend on entries at or above it. -/
theorem catapult_complete_slot_event_agree (a b : catapult_device) (h : agree_below a b)
    (copy_left : Nat) (input : catapult_complete_slot_event_info) :
    (catapult_complete_slot_event a copy_left input).1 =
      (catapult_complete_slot_event b copy_left input).1 ∧
    agree_below (catapult_complete_slot_event a copy_left input).2
      (catapult_complete_slot_event b copy_left input).2 := by
  unfold catapult_complete_slot_event
  by_cases hc : copy_left ≠ 0
  · rw [if_pos hc, if_pos hc]
    exact ⟨rfl, h⟩
  rw [if_neg hc, if_neg hc]
  by_cases hi : input.slot_index ≥ a.number_of_slots
  · rw [if_pos hi, if_pos (show input.slot_index ≥ b.number_of_slots by rw [← h.1]; exact hi)]
    exact ⟨rfl, h⟩
  rw [if_neg hi, if_neg (show ¬ input.slot_index ≥ b.number_of_slots by rw [← h.1]; exact hi)]
  have hev : b.event_obj input.slot_index = a.event_obj input.slot_index :=
    (h.2.2.2.2.2.2 input.slot_index (by omega)).2.2.symm
  rw [hev]
  exact ⟨rfl, agree_below_store a b h _ _⟩

/-- What `catapult_mmap_get_slot` returns does not depend on entries at or
above the slot count. -/
theorem catapult_mmap_get_slot_agree (a b : catapult_device) (h : agree_below a b)
    (offset size : Nat) (lock_status : Int) (p : Int) :
    catapult_mmap_get_slot a offset size lock_status p =
      catapult_mmap_get_slot b offset size lock_status p := by
  obtain ⟨h1, h2, -, -, -, -, h7⟩ := h
  unfold catapult_mmap_get_slot
  rw [← h1, ← h2]
  by_cases hb : a.bytes_per_slot = 0
  · rw [if_pos hb, if_pos hb]
  rw [if_neg hb, if_neg hb]
  simp only [test_bit]
  by_cases hs : (offset / a.bytes_per_slot) % 2 ^ 32 ≥ a.number_of_slots
  · rw [if_pos hs, if_pos hs]
  rw [if_neg hs, if_neg hs]
  obtain ⟨k1, k2, -⟩ := h7 ((offset / a.bytes_per_slot) % 2 ^ 32) (by omega)
  simp only [k1, k2]

/-- Signalling the same slots on completion arrays that agree below `n` keeps
them agreeing below `n`. -/
theorem signal_all_congr (n : Nat) :
    ∀ (l : List Nat) (e1 e2 : Nat → completion), (∀ j, j < n → e1 j = e2 j) →
      (∀ s, s ∈ l → s < n) → ∀ j, j < n → signal_all e1 l j = signal_all e2 l j := by
  intro l
  induction l with
  | nil => intro e1 e2 h _ j hj; exact h j hj
  | cons s l ih =>
    intro e1 e2 h hl j hj
    rw [signal_all_cons, signal_all_cons]
    apply ih _ _ _ (fun t ht => hl t (List.mem_cons_of_mem _ ht)) j hj
    intro k hk
    simp only [completion_store, h s (hl s (List.mem_cons_self _ _))]
    split_ifs
    · rfl
    · exact h k hk

/-- What the handler does to the registers depends on the registers, the BAR
length and base, and the feature offset only. -/
theorem catapult_interrupt_handler_registers (a b : catapult_device)
    (h3 : a.registers_base = b.registers_base) (h4 : a.registers = b.registers)
    (h5 : a.registers_cb = b.registers_cb)
    (h6 : a.interrupt_feature_offset = b.interrupt_feature_offset) :
    (catapult_interrupt_handler a).1 = (catapult_interrupt_handler b).1 ∧
    (catapult_interrupt_handler a).2.registers = (catapult_interrupt_handler b).2.registers := by
  have hdfh : ∀ off v, catapult_read_dfh_register a off v = catapult_read_dfh_register b off v := by
    intro off v
    unfold catapult_read_dfh_register
    rw [h4, h5]
  unfold catapult_interrupt_handler
  simp only [hdfh, h3, h4, h6]
  split_ifs <;> exact ⟨rfl, rfl⟩

/-- What the handler returns and does below the slot count does not depend on
entries at or above it. -/
theorem catapult_interrupt_handler_agree (a b : catapult_device) (h : agree_below a b) :
    (catapult_interrupt_handler a).1 = (catapult_interrupt_handler b).1 ∧
    agree_below (catapult_interrupt_handler a).2 (catapult_interrupt_handler b).2 := by
  obtain ⟨h1, h2, h3, h4, h5, h6, h7⟩ := h
  obtain ⟨a1, a2, a3, a4, a5, a6, a7⟩ := catapult_interrupt_handler_tables a
  obtain ⟨b1, b2, b3, b4, b5, b6, b7⟩ := catapult_interrupt_handler_tables b
  obtain ⟨r1, r2⟩ := catapult_interrupt_handler_registers a b h3 h4 h5 h6
  refine ⟨r1, by rw [a1, b1]; exact h1, by rw [a4, b4]; exact h2, by rw [a5, b5]; exact h3, r2,
    by rw [a6, b6]; exact h5, by rw [a7, b7]; exact h6, fun j hj => ?_⟩
  rw [a1] at hj
  obtain ⟨k1, k2, k3⟩ := h7 j hj
  refine ⟨by rw [a2, b2]; exact k1, by rw [a3, b3]; exact k2, ?_⟩
  have hdfh : ∀ off v, catapult_read_dfh_register b off v = catapult_read_dfh_register a off v := by
    intro off v
    unfold catapult_read_dfh_register
    rw [h4, h5]
  have hw : legacy_interrupt_status b = legacy_interrupt_status a := by
    unfold legacy_interrupt_status
    rw [h4]
  rw [catapult_interrupt_handler_event_obj, catapult_interrupt_handler_event_obj, hdfh, hw,
    ← h1, ← h3, ← h6]
  split_ifs
  · exact signal_all_congr a.number_of_slots _ _ _ (fun t ht => (h7 t ht).2.2)
      (fun s hs => ((mem_reference_decode _ _ s).1 hs).2.1) j hj
  · exact k3

/-- What a request or interrupt returns and does below the slot count does not
depend on entries at or above it. -/
theorem device_outcome_agree (a b : catapult_device) (h : agree_below a b)
    (hN : a.number_of_slots ≤ MAX_FPGA_NUM_SLOTS) (r : device_request) :
    (device_outcome a r = none ∧ device_outcome b r = none) ∨
    ∃ st a2 b2, device_outcome a r = some (st, a2) ∧ device_outcome b r = some (st, b2) ∧
      agree_below a2 b2 := by
  cases r with
  | slot sr =>
    cases sr with
    | acquire_one lock_status copy_left q =>
      obtain ⟨k1, -, k3⟩ := catapult_acquire_slot_agree a b h hN lock_status copy_left q
      refine Or.inr ⟨_, _, _, rfl, ?_, k3⟩
      simp only [device_outcome, k1]
    | release_one copy_left input q =>
      obtain ⟨k1, k2⟩ := catapult_release_slot_agree a b h copy_left input q
      refine Or.inr ⟨(catapult_release_slot a copy_left input q).1, (catapult_release_slot a copy_left input q).2,
        (catapult_release_slot b copy_left input q).2, rfl, ?_, k2⟩
      show some (catapult_release_slot b copy_left input q) = some ((catapult_release_slot a copy_left input q).1, (catapult_release_slot b copy_left input q).2)
      rw [k1]
    | acquire_range kzalloc_ok copy_in_left uarg lock_status copy_out_left q =>
      obtain ⟨k1, k2⟩ := catapult_acquire_slot_range_agree a b h uarg kzalloc_ok copy_in_left
        lock_status copy_out_left q
      refine Or.inr ⟨_, _, _, rfl, ?_, k2⟩
      simp only [device_outcome, k1]
    | release_range q =>
      obtain ⟨k1, k2⟩ := catapult_release_slot_range_agree a b h q
      refine Or.inr ⟨(catapult_release_slot_range a q).1, (catapult_release_slot_range a q).2,
        (catapult_release_slot_range b q).2, rfl, ?_, k2⟩
      show some (catapult_release_slot_range b q) = some ((catapult_release_slot_range a q).1, (catapult_release_slot_range b q).2)
      rw [k1]
    | session_close q =>
      obtain ⟨a2, b2, k1, k2, k3⟩ := catapult_release_agree a b h q
      exact Or.inr ⟨0, a2, b2, k1, k2, k3⟩
  | get_slot_event copy_left input =>
    refine Or.inr ⟨_, _, _, rfl, ?_, h⟩
    simp only [device_outcome, catapult_get_slot_event, h.1]
  | wait_slot_event prims copy_left input =>
    exact catapult_wait_slot_event_agree prims a b h copy_left input
  | reset_slot_event copy_left input =>
    obtain ⟨k1, k2⟩ := catapult_reset_slot_event_agree a b h copy_left input
    refine Or.inr ⟨(catapult_reset_slot_event a copy_left input).1, (catapult_reset_slot_event a copy_left input).2,
      (catapult_reset_slot_event b copy_left input).2, rfl, ?_, k2⟩
    show some (catapult_reset_slot_event b copy_left input) = some ((catapult_reset_slot_event a copy_left input).1, (catapult_reset_slot_event b copy_left input).2)
    rw [k1]
  | complete_slot_event copy_left input =>
    obtain ⟨k1, k2⟩ := catapult_complete_slot_event_agree a b h copy_left input
    refine Or.inr ⟨(catapult_complete_slot_event a copy_left input).1, (catapult_complete_slot_event a copy_left input).2,
      (catapult_complete_slot_event b copy_left input).2, rfl, ?_, k2⟩
    show some (catapult_complete_slot_event b copy_left input) = some ((catapult_complete_slot_event a copy_left input).1, (catapult_complete_slot_event b copy_left input).2)
    rw [k1]
  | mmap_get_slot offset size lock_status q =>
    have k := catapult_mmap_get_slot_agree a b h offset size lock_status q
    simp only [device_outcome, ← k]
    cases hm : catapult_mmap_get_slot a offset size lock_status q with
    | none => exact Or.inl ⟨rfl, rfl⟩
    | some v => exact Or.inr ⟨_, _, _, rfl, rfl, h⟩
  | interrupt =>
    obtain ⟨k1, k2⟩ := catapult_interrupt_handler_agree a b h
    refine Or.inr ⟨_, _, _, rfl, ?_, k2⟩
    simp only [device_outcome, k1]

/-- A mapping request that passes `catapult_mmap_get_slot` has a slot number
below the slot count. -/
theorem catapult_mmap_get_slot_bound (idev : catapult_device) (offset size : Nat)
    (lock_status : Int) (q : Int) (slot : Nat)
    (h : catapult_mmap_get_slot idev offset size lock_status q = some (0, slot)) :
    slot < idev.number_of_slots := by
  unfold catapult_mmap_get_slot at h
  by_cases hb : idev.bytes_per_slot = 0
  · rw [if_pos hb] at h
    exact absurd h (by simp)
  rw [if_neg hb] at h
  by_cases hs : (offset / idev.bytes_per_slot) % 2 ^ 32 ≥ idev.number_of_slots
  · simp only [if_pos hs, Option.some.injEq, Prod.mk.injEq] at h
    have := h.1
    simp only [EINVAL] at this
    omega
  · simp only [if_neg hs] at h
    have hslot : slot = (offset / idev.bytes_per_slot) % 2 ^ 32 := by
      split_ifs at h <;> simp only [Option.some.injEq, Prod.mk.injEq] at h <;> exact h.2.symm
    omega

/-- Claim C16 (slot-index safety): on a device with `N = number_of_slots` slots
(`N ≤ MAX_FPGA_NUM_SLOTS`), whatever the request or interrupt and its input,
(1) the entries of `slot_map`, `slot_map_pids` and `event_obj` at indices `≥ N`
are the same afterwards, (2) what it returns and what it leaves below `N` do
not depend on the entries at indices `≥ N`, (3) a mapping request that passes
`catapult_mmap_get_slot` indexes the per-slot DMA arrays with a slot `< N`, and
(4) a slot-event request (get, wait, reset, complete) whose record was copied
in with `slot_index ≥ N` returns `-EINVAL` and leaves the device, hence every
completion, as it was, without calling a wait primitive. -/
theorem slot_index_safety (idev : catapult_device)
    (hN : idev.number_of_slots ≤ MAX_FPGA_NUM_SLOTS) :
    (∀ r st after, device_outcome idev r = some (st, after) → same_above idev after) ∧
    (∀ other, agree_below idev other → ∀ r,
      (device_outcome idev r = none ∧ device_outcome other r = none) ∨
      ∃ st a2 b2, device_outcome idev r = some (st, a2) ∧
        device_outcome other r = some (st, b2) ∧ agree_below a2 b2) ∧
    (∀ offset size lock_status q slot,
      catapult_mmap_get_slot idev offset size lock_status q = some (0, slot) →
        slot < idev.number_of_slots) ∧
    (∀ slot_index timeout wait prims, slot_index ≥ idev.number_of_slots →
      catapult_get_slot_event idev 0 { slot_index := slot_index } = -EINVAL ∧
      catapult_wait_slot_event prims idev 0
        { slot_index := slot_index, timeout := timeout, wait := wait } =
        some (-EINVAL, idev) ∧
      catapult_reset_slot_event idev 0 { slot_index := slot_index } = (-EINVAL, idev) ∧
      catapult_complete_slot_event idev 0 { slot_index := slot_index } = (-EINVAL, idev)) := by
  refine ⟨fun r st after h => device_outcome_same_above idev hN r st after h,
    fun other h r => device_outcome_agree idev other h hN r,
    fun offset size lock_status q slot h =>
      catapult_mmap_get_slot_bound idev offset size lock_status q slot h,
    fun slot_index timeout wait prims hs => ⟨?_, ?_, ?_, ?_⟩⟩
  · unfold catapult_get_slot_event
    rw [if_neg (by simp), if_pos hs]
  · unfold catapult_wait_slot_event
    rw [if_neg (by simp), if_pos hs]
  · unfold catapult_reset_slot_event
    rw [if_neg (by simp), if_pos hs]
  · unfold catapult_complete_slot_event
    rw [if_neg (by simp), if_pos hs]

/-- On the sixteen-slot device, completing slot 16 is refused with `-EINVAL`
and changes nothing. -/
theorem slot_index_safety_witness :
    device_2_7_9.number_of_slots ≤ MAX_FPGA_NUM_SLOTS ∧
    catapult_complete_slot_event device_2_7_9 0 { slot_index := 16 } =
      (-EINVAL, device_2_7_9) :=
  ⟨by decide,
    ((slot_index_safety device_2_7_9 (by decide)).2.2.2 16 0 false
      { wait_for_completion_interruptible := fun c => some (0, c)
        wait_for_completion_interruptible_timeout := fun c _ => (1, c)
        try_wait_for_completion := fun c => (true, c)
        msecs_to_jiffies := fun n => n } (by decide)).2.2.2⟩

/-! ## The two bulk releases -/

/-- Claim C30. The two bulk-release implementations agree: for every device
(bitmap, owner table and slot count arbitrary) and every process `p`, the
session-close cleanup `catapult_slot_map_release` returns (its `find_next_bit`
loop ends) and leaves the same device as the `catapult_release_slot_range`
request of `p`: the same bitmap and the same owner table; so does the file
operation `catapult_release`, with status 0 like the request. -/
theorem bulk_release_implementations_agree (idev : catapult_device) (p : Int) :
    ∃ after, catapult_slot_map_release idev p = some after ∧
      catapult_release idev false p = some (0, after) ∧
      after = (catapult_release_slot_range idev p).2 ∧
      after.slot_map = (catapult_release_slot_range idev p).2.slot_map ∧
      after.slot_map_pids = (catapult_release_slot_range idev p).2.slot_map_pids ∧
      (catapult_release_slot_range idev p).1 = 0 := by
  have hmap : (fun j =>
      if 0 ≤ j ∧ j < idev.number_of_slots ∧ idev.slot_map j = true ∧
        idev.slot_map_pids j = p then false
      else idev.slot_map j) =
      release_range_scan idev.slot_map_pids p idev.number_of_slots 0 idev.slot_map := by
    funext j
    rw [release_range_scan_bit, Nat.zero_add]
  have heq : catapult_slot_map_release idev p = some (catapult_release_slot_range idev p).2 := by
    rw [catapult_slot_map_release_eq]
    simp only [catapult_release_slot_range, hmap]
  refine ⟨(catapult_release_slot_range idev p).2, heq, ?_, rfl, rfl, rfl, rfl⟩
  simp only [catapult_release, Bool.false_eq_true, if_false, heq, Option.map_some']

/-! ## The DMA buffer pool -/

/-- The read the flush loop makes is of an unmapped address. -/
theorem drain_address_unsupported : unsupported_address INTER_ADDR_INTERRUPT 256 :=
  Or.inr (Or.inr (Or.inl ⟨by decide, by decide⟩))

/-- The flush loop is left after its first iteration, whatever the registers
hold. -/
theorem dma_drain_loop_eq (registers : register_space) (fuel n : Nat) :
    dma_drain_loop (fuel + 1) n registers = some (registers, n + 1) := by
  unfold dma_drain_loop
  simp only [catapult_low_level_read_unsupported registers _ _ drain_address_unsupported]
  rfl

/-- Claim C29. The loop of `catapult_dma_init` that flushes stale interrupts
ends for every register content, after exactly one iteration: the read
`catapult_low_level_read(registers, INTER_ADDR_INTERRUPT, 256)` returns 0
whatever the registers hold and makes no hardware access (under
interpretation address 14 only application address 257 is mapped), so
`read_val & 3` is 0 at the first test; with no iteration allowed the loop has
not ended. -/
theorem drain_loop_one_iteration (registers : register_space) (fuel : Nat) :
    catapult_low_level_read registers INTER_ADDR_INTERRUPT 256 = (0, registers) ∧
    (catapult_low_level_read registers INTER_ADDR_INTERRUPT 256).1 &&& 3 = 0 ∧
    (catapult_low_level_read registers INTER_ADDR_INTERRUPT 256).2.accesses =
      registers.accesses ∧
    dma_drain_loop (fuel + 1) 0 registers = some (registers, 1) ∧
    dma_drain_loop 0 0 registers = none := by
  have h := catapult_low_level_read_unsupported registers _ _ drain_address_unsupported
  refine ⟨h, ?_, ?_, dma_drain_loop_eq registers fuel 0, rfl⟩
  · rw [h]
    show (0 : Nat) &&& 3 = 0
    decide
  · rw [h]

/-- The register an appended 64-bit write goes to holds the written value;
the other registers hold what they held. -/
theorem last_write_append_writeq (l : List mmio_access) (o v offset : Nat) :
    last_write (l ++ [.writeq o v]) offset =
      if o = offset then some v else last_write l offset := by
  unfold last_write
  rw [List.foldl_append]
  rfl

/-- What the registers hold after the three writes for slot `i`. -/
theorem dma_publish_slot_last_write (idev : catapult_device) (i : Nat)
    (registers : register_space) (hi : i < 2 ^ 27) (offset : Nat) :
    last_write (dma_publish_slot idev i registers).accesses offset =
      if offset = 0x901010 + 0x20 * i then
        some ((idev.dma_result_dma_addr + i * FPGA_RESULT_SIZE) % 2 ^ 64)
      else if offset = 0x901008 + 0x20 * i then some (idev.dma_output_dma_addr i)
      else if offset = 0x901000 + 0x20 * i then some (idev.dma_input_dma_addr i)
      else last_write registers.accesses offset := by
  have hm : (i * 0x20) % 2 ^ 32 = 0x20 * i := by
    rw [Nat.mod_eq_of_lt (by omega), Nat.mul_comm]
  simp only [dma_publish_slot, catapult_register_write64, DMA_SLOT_INPUT_BASE_ADDRESS,
    DMA_SLOT_OUTPUT_BASE_ADDRESS, DMA_SLOT_CONTROL_RESULT_BASE_ADDRESS, hm,
    last_write_append_writeq]
  by_cases h1 : offset = 0x901010 + 0x20 * i
  · rw [if_pos h1.symm, if_pos h1]
  rw [if_neg (fun h => h1 h.symm), if_neg h1]
  by_cases h2 : offset = 0x901008 + 0x20 * i
  · rw [if_pos h2.symm, if_pos h2]
  rw [if_neg (fun h => h2 h.symm), if_neg h2]
  by_cases h3 : offset = 0x901000 + 0x20 * i
  · rw [if_pos h3.symm, if_pos h3]
  rw [if_neg (fun h => h3 h.symm), if_neg h3]

/-- The address loop leaves in the three registers of every slot it passes
the three addresses of that slot, and touches no other register. -/
theorem dma_publish_loop_last_write (idev : catapult_device) :
    ∀ cnt i (registers : register_space), i + cnt ≤ 2 ^ 27 →
      (∀ offset,
        (∀ j, i ≤ j → j < i + cnt →
          offset ≠ 0x901000 + 0x20 * j ∧ offset ≠ 0x901008 + 0x20 * j ∧
          offset ≠ 0x901010 + 0x20 * j) →
        last_write (dma_publish_loop idev cnt i registers).accesses offset =
          last_write registers.accesses offset) ∧
      (∀ j, i ≤ j → j < i + cnt →
        last_write (dma_publish_loop idev cnt i registers).accesses (0x901000 + 0x20 * j) =
          some (idev.dma_input_dma_addr j) ∧
        last_write (dma_publish_loop idev cnt i registers).accesses (0x901008 + 0x20 * j) =
          some (idev.dma_output_dma_addr j) ∧
        last_write (dma_publish_loop idev cnt i registers).accesses (0x901010 + 0x20 * j) =
          some ((idev.dma_result_dma_addr + j * FPGA_RESULT_SIZE) % 2 ^ 64)) := by
  intro cnt
  induction cnt with
  | zero =>
    intro i registers _
    exact ⟨fun _ _ => rfl, fun j h1 h2 => by omega⟩
  | succ n ih =>
    intro i registers hb
    obtain ⟨ih1, ih2⟩ := ih (i + 1) (dma_publish_slot idev i registers) (by omega)
    have hstep : dma_publish_loop idev (n + 1) i registers =
        dma_publish_loop idev n (i + 1) (dma_publish_slot idev i registers) := rfl
    rw [hstep]
    refine ⟨fun offset hoff => ?_, fun j hj1 hj2 => ?_⟩
    · rw [ih1 offset (fun j hj1 hj2 => hoff j (by omega) (by omega)),
        dma_publish_slot_last_write idev i registers (by omega)]
      obtain ⟨e1, e2, e3⟩ := hoff i (le_refl _) (by omega)
      rw [if_neg e3, if_neg e2, if_neg e1]
    · by_cases hji : j = i
      · subst hji
        rw [ih1 _ (fun k hk1 hk2 => ⟨by omega, by omega, by omega⟩),
          ih1 _ (fun k hk1 hk2 => ⟨by omega, by omega, by omega⟩),
          ih1 _ (fun k hk1 hk2 => ⟨by omega, by omega, by omega⟩),
          dma_publish_slot_last_write idev j registers (by omega),
          dma_publish_slot_last_write idev j registers (by omega),
          dma_publish_slot_last_write idev j registers (by omega)]
        refine ⟨?_, ?_, ?_⟩
        · rw [if_neg (by omega), if_neg (by omega), if_pos rfl]
        · rw [if_neg (by omega), if_pos rfl]
        · rw [if_pos rfl]
      · exact ih2 j (by omega) (by omega)

/-- The address loop does not change what the device answers. -/
theorem dma_publish_loop_content (idev : catapult_device) :
    ∀ cnt i (registers : register_space),
      (dma_publish_loop idev cnt i registers).content32 = registers.content32 ∧
      (dma_publish_loop idev cnt i registers).content64 = registers.content64 := by
  intro cnt
  induction cnt with
  | zero => intro i registers; exact ⟨rfl, rfl⟩
  | succ n ih =>
    intro i registers
    exact ih (i + 1) (dma_publish_slot idev i registers)

theorem EFAULT_ne_zero : (-EFAULT : Int) ≠ 0 := by decide

/-- The allocation loop: it touches the four address arrays only; it ends with
`err = 0` exactly when every allocation it makes succeeds, and then the arrays
hold what the allocator answered; entries below the first slot of the loop are
left alone. -/
theorem dma_alloc_loop_spec (env : dma_environment) :
    ∀ cnt i (idev : catapult_device),
      ((dma_alloc_loop env cnt i idev).2.number_of_slots = idev.number_of_slots ∧
        (dma_alloc_loop env cnt i idev).2.bytes_per_slot = idev.bytes_per_slot ∧
        (dma_alloc_loop env cnt i idev).2.registers = idev.registers ∧
        (dma_alloc_loop env cnt i idev).2.dma_control_len = idev.dma_control_len ∧
        (dma_alloc_loop env cnt i idev).2.dma_result_len = idev.dma_result_len) ∧
      ((dma_alloc_loop env cnt i idev).1 = 0 ↔
        ∀ j, i ≤ j → j < i + cnt →
          (env.alloc_input j).1 ≠ 0 ∧ (env.alloc_output j).1 ≠ 0) ∧
      (∀ j, j < i →
        (dma_alloc_loop env cnt i idev).2.dma_input_dma_addr j = idev.dma_input_dma_addr j ∧
        (dma_alloc_loop env cnt i idev).2.dma_output_dma_addr j =
          idev.dma_output_dma_addr j) ∧
      ((dma_alloc_loop env cnt i idev).1 = 0 → ∀ j, i ≤ j → j < i + cnt →
        (dma_alloc_loop env cnt i idev).2.dma_input_dma_addr j = (env.alloc_input j).2 ∧
        (dma_alloc_loop env cnt i idev).2.dma_output_dma_addr j = (env.alloc_output j).2) := by
  intro cnt
  induction cnt with
  | zero =>
    intro i idev
    refine ⟨⟨rfl, rfl, rfl, rfl, rfl⟩, ⟨fun _ j h1 h2 => by omega, fun _ => rfl⟩,
      fun j _ => ⟨rfl, rfl⟩, fun _ j h1 h2 => by omega⟩
  | succ n ih =>
    intro i idev
    by_cases ha : (env.alloc_input i).1 = 0
    · have hstep : dma_alloc_loop env (n + 1) i idev =
          (-EFAULT, { idev with
            dma_input_kernel_addr :=
              addr_store idev.dma_input_kernel_addr i (env.alloc_input i).1
            dma_input_dma_addr :=
              addr_store idev.dma_input_dma_addr i (env.alloc_input i).2 }) := by
        simp only [dma_alloc_loop, if_pos ha]
      rw [hstep]
      refine ⟨⟨rfl, rfl, rfl, rfl, rfl⟩,
        ⟨fun h => absurd h EFAULT_ne_zero, fun h => absurd ha (h i (le_refl _) (by omega)).1⟩,
        fun j hj => ⟨?_, rfl⟩, fun h => absurd h EFAULT_ne_zero⟩
      show addr_store idev.dma_input_dma_addr i (env.alloc_input i).2 j = _
      simp only [addr_store, if_neg (show ¬ j = i by omega)]
    · by_cases hb : (env.alloc_output i).1 = 0
      · have hstep : dma_alloc_loop env (n + 1) i idev =
            (-EFAULT, { idev with
              dma_input_kernel_addr :=
                addr_store idev.dma_input_kernel_addr i (env.alloc_input i).1
              dma_input_dma_addr :=
                addr_store idev.dma_input_dma_addr i (env.alloc_input i).2
              dma_output_kernel_addr :=
                addr_store idev.dma_output_kernel_addr i (env.alloc_output i).1
              dma_output_dma_addr :=
                addr_store idev.dma_output_dma_addr i (env.alloc_output i).2 }) := by
          simp only [dma_alloc_loop, if_neg ha, if_pos hb]
        rw [hstep]
        refine ⟨⟨rfl, rfl, rfl, rfl, rfl⟩,
          ⟨fun h => absurd h EFAULT_ne_zero,
            fun h => absurd hb (h i (le_refl _) (by omega)).2⟩,
          fun j hj => ⟨?_, ?_⟩, fun h => absurd h EFAULT_ne_zero⟩
        · show addr_store idev.dma_input_dma_addr i (env.alloc_input i).2 j = _
          simp only [addr_store, if_neg (show ¬ j = i by omega)]
        · show addr_store idev.dma_output_dma_addr i (env.alloc_output i).2 j = _
          simp only [addr_store, if_neg (show ¬ j = i by omega)]
      · have hstep : dma_alloc_loop env (n + 1) i idev =
            dma_alloc_loop env n (i + 1) { idev with
              dma_input_kernel_addr :=
                addr_store idev.dma_input_kernel_addr i (env.alloc_input i).1
              dma_input_dma_addr :=
                addr_store idev.dma_input_dma_addr i (env.alloc_input i).2
              dma_output_kernel_addr :=
                addr_store idev.dma_output_kernel_addr i (env.alloc_output i).1
              dma_output_dma_addr :=
                addr_store idev.dma_output_dma_addr i (env.alloc_output i).2 } := by
          simp only [dma_alloc_loop, if_neg ha, if_neg hb]
        rw [hstep]
        obtain ⟨f, ⟨s1, s2⟩, low, vals⟩ := ih (i + 1) { idev with
              dma_input_kernel_addr :=
                addr_store idev.dma_input_kernel_addr i (env.alloc_input i).1
              dma_input_dma_addr :=
                addr_store idev.dma_input_dma_addr i (env.alloc_input i).2
              dma_output_kernel_addr :=
                addr_store idev.dma_output_kernel_addr i (env.alloc_output i).1
              dma_output_dma_addr :=
                addr_store idev.dma_output_dma_addr i (env.alloc_output i).2 }
        refine ⟨f, ⟨fun h j hj1 hj2 => ?_, fun h => s2 (fun j hj1 hj2 => h j (by omega) (by omega))⟩,
          fun j hj => ?_, fun h j hj1 hj2 => ?_⟩
        · by_cases hji : j = i
          · subst hji
            exact ⟨ha, hb⟩
          · exact s1 h j (by omega) (by omega)
        · obtain ⟨l1, l2⟩ := low j (by omega)
          rw [l1, l2]
          simp only [addr_store, if_neg (show ¬ j = i by omega)]
          exact ⟨trivial, trivial⟩
        · by_cases hji : j = i
          · subst hji
            obtain ⟨l1, l2⟩ := low j (by omega)
            rw [l1, l2]
            simp only [addr_store, if_true]
            exact ⟨trivial, trivial⟩
          · exact vals h j (by omega) (by omega)

/-- The program part of `catapult_dma_init` returns as soon as the flush loop
is allowed one iteration. -/
theorem dma_init_program_eq (idev : catapult_device) (fuel : Nat) :
    dma_init_program idev (fuel + 1) =
      some { idev with
        registers := catapult_low_level_write
          (catapult_low_level_write
            (dma_publish_loop idev idev.number_of_slots 0 idev.registers)
            INTER_ADDR_HACK_OVERRIDE_OUT_DATA_SIZE 2 0)
          INTER_ADDR_INTERRUPT 257 1 } := by
  unfold dma_init_program
  simp only [dma_drain_loop_eq, Option.map_some']

/-- An indirect write leaves every register other than the indirection
register holding what it held. -/
theorem low_level_write_keeps_other (registers : register_space)
    (interp_address app_address value offset : Nat)
    (h : ¬ (interp_address &&& 0xf = 3 ∨ interp_address &&& 0xf = 10))
    (hoff : offset ≠ 0x7E3F84) :
    last_write (catapult_low_level_write registers interp_address app_address value).accesses
      offset = last_write registers.accesses offset := by
  rw [catapult_low_level_write_indirect registers interp_address app_address value h]
  show last_write (registers.accesses ++ _) offset = _
  rw [last_write_append_writeq, if_neg (fun e => hoff e.symm)]

/-- What `catapult_slot_map_init` leaves of the device: it succeeds exactly
when both allocations do, and touches the bitmap and the owner table only. -/
theorem catapult_slot_map_init_fields (idev : catapult_device) (bitmap_ok pid_map_ok : Bool)
    (m : Int × catapult_device) (h : catapult_slot_map_init idev bitmap_ok pid_map_ok = m) :
    (m.1 = 0 ↔ bitmap_ok = true ∧ pid_map_ok = true) ∧
    m.2.number_of_slots = idev.number_of_slots ∧ m.2.bytes_per_slot = idev.bytes_per_slot ∧
    m.2.registers = idev.registers ∧
    m.2.dma_control_len = idev.dma_control_len ∧ m.2.dma_result_len = idev.dma_result_len ∧
    m.2.dma_input_dma_addr = idev.dma_input_dma_addr ∧
    m.2.dma_output_dma_addr = idev.dma_output_dma_addr ∧
    m.2.dma_control_dma_addr = idev.dma_control_dma_addr ∧
    m.2.dma_result_dma_addr = idev.dma_result_dma_addr := by
  subst h
  cases bitmap_ok <;> cases pid_map_ok <;>
    exact ⟨by simp [catapult_slot_map_init, ENOMEM], rfl, rfl, rfl, rfl, rfl, rfl, rfl, rfl, rfl⟩


/-- What a `catapult_dma_init` that returns 0 has done: every allocation
succeeded, the lengths and addresses are recorded, and the registers have
received the address loop followed by the two indirect writes. -/
theorem dma_init_success (idev : catapult_device) (N bytes : Nat)
    (env : dma_environment) (fuel : Nat) (after : catapult_device)
    (h : catapult_dma_init idev N bytes env fuel = some (0, after)) :
    after.number_of_slots = N ∧
    after.dma_control_len = (N * FPGA_CONTROL_SIZE) % 2 ^ 32 ∧
    after.dma_result_len = (N * FPGA_RESULT_SIZE) % 2 ^ 32 ∧
    after.dma_control_dma_addr = env.alloc_control.2 ∧
    after.dma_result_dma_addr = env.alloc_result.2 ∧
    (∀ i, i < N →
      (env.alloc_input i).1 ≠ 0 ∧ (env.alloc_output i).1 ≠ 0 ∧
      after.dma_input_dma_addr i = (env.alloc_input i).2 ∧
      after.dma_output_dma_addr i = (env.alloc_output i).2) ∧
    env.alloc_control.1 ≠ 0 ∧ env.alloc_result.1 ≠ 0 ∧
    env.bitmap_ok = true ∧ env.pid_map_ok = true ∧
    ∃ (pool : catapult_device) (before : register_space),
      pool.dma_input_dma_addr = after.dma_input_dma_addr ∧
      pool.dma_output_dma_addr = after.dma_output_dma_addr ∧
      pool.dma_result_dma_addr = after.dma_result_dma_addr ∧
      before.accesses = idev.registers.accesses ∧
      after.registers = catapult_low_level_write
        (catapult_low_level_write (dma_publish_loop pool N 0 before)
          INTER_ADDR_HACK_OVERRIDE_OUT_DATA_SIZE 2 0)
        INTER_ADDR_INTERRUPT 257 1 := by
  unfold catapult_dma_init at h
  simp only [] at h
  generalize hA : dma_alloc_loop env _ _ _ = A at h
  have spec : ∀ d A, dma_alloc_loop env N 0 d = A →
      (A.2.number_of_slots = d.number_of_slots ∧ A.2.bytes_per_slot = d.bytes_per_slot ∧
        A.2.registers = d.registers ∧ A.2.dma_control_len = d.dma_control_len ∧
        A.2.dma_result_len = d.dma_result_len) ∧
      (A.1 = 0 ↔ ∀ j, 0 ≤ j → j < 0 + N →
        (env.alloc_input j).1 ≠ 0 ∧ (env.alloc_output j).1 ≠ 0) ∧
      (∀ j, j < 0 → A.2.dma_input_dma_addr j = d.dma_input_dma_addr j ∧
        A.2.dma_output_dma_addr j = d.dma_output_dma_addr j) ∧
      (A.1 = 0 → ∀ j, 0 ≤ j → j < 0 + N →
        A.2.dma_input_dma_addr j = (env.alloc_input j).2 ∧
        A.2.dma_output_dma_addr j = (env.alloc_output j).2) :=
    fun d A e => e ▸ dma_alloc_loop_spec env N 0 d
  obtain ⟨⟨f1, f2, f3, f4, f5⟩, hst, -, hval⟩ := spec _ _ hA
  by_cases h1 : A.1 ≠ 0
  · rw [if_pos h1] at h
    simp only [Option.some.injEq, Prod.mk.injEq] at h
    exact absurd h.1 h1
  rw [if_neg h1] at h
  have hA0 : A.1 = 0 := not_not.mp h1
  by_cases h2 : env.alloc_control.1 = 0
  · rw [if_pos h2] at h
    simp only [Option.some.injEq, Prod.mk.injEq] at h
    exact absurd h.1 EFAULT_ne_zero
  rw [if_neg h2] at h
  by_cases h3 : env.alloc_result.1 = 0
  · rw [if_pos h3] at h
    simp only [Option.some.injEq, Prod.mk.injEq] at h
    exact absurd h.1 EFAULT_ne_zero
  rw [if_neg h3] at h
  generalize hM : catapult_slot_map_init _ env.bitmap_ok env.pid_map_ok = M at h
  obtain ⟨m0, m1, m2, m3, m4, m5, m6, m7, m8, m9⟩ := catapult_slot_map_init_fields _ _ _ _ hM
  by_cases h4 : M.1 ≠ 0
  · rw [if_pos h4] at h
    simp only [Option.some.injEq, Prod.mk.injEq] at h
    exact absurd h.1 h4
  rw [if_neg h4] at h
  have hM0 : M.1 = 0 := not_not.mp h4
  cases fuel with
  | zero =>
    simp [dma_init_program, dma_drain_loop] at h
  | succ k =>
    rw [dma_init_program_eq] at h
    simp only [Option.map_some', Option.some.injEq, Prod.mk.injEq, true_and] at h
    subst h
    refine ⟨m1.trans f1, m4.trans f4, m5.trans f5, m8, m9, fun i hi => ?_, h2, h3,
      (m0.1 hM0).1, (m0.1 hM0).2, ⟨M.2, M.2.registers, rfl, rfl, rfl, ?_, ?_⟩⟩
    · obtain ⟨v1, v2⟩ := hval hA0 i (Nat.zero_le _) (by omega)
      obtain ⟨n1, n2⟩ := hst.1 hA0 i (Nat.zero_le _) (by omega)
      refine ⟨n1, n2, ?_, ?_⟩
      · show M.2.dma_input_dma_addr i = _
        rw [m6]
        exact v1
      · show M.2.dma_output_dma_addr i = _
        rw [m7]
        exact v2
    · rw [m3]
      exact congrArg register_space.accesses f3
    · have hN : M.2.number_of_slots = N := m1.trans f1
      show catapult_low_level_write
        (catapult_low_level_write (dma_publish_loop M.2 M.2.number_of_slots 0 M.2.registers)
          INTER_ADDR_HACK_OVERRIDE_OUT_DATA_SIZE 2 0) INTER_ADDR_INTERRUPT 257 1 = _
      rw [hN]


/-- With every allocation succeeding, `catapult_dma_init` returns 0 as soon as
the flush loop is allowed one iteration. -/
theorem dma_init_succeeds (idev : catapult_device) (N bytes : Nat) (env : dma_environment)
    (hin : ∀ i, i < N → (env.alloc_input i).1 ≠ 0 ∧ (env.alloc_output i).1 ≠ 0)
    (hc : env.alloc_control.1 ≠ 0) (hr : env.alloc_result.1 ≠ 0)
    (hb : env.bitmap_ok = true) (hp : env.pid_map_ok = true) (fuel : Nat) :
    ∃ after, catapult_dma_init idev N bytes env (fuel + 1) = some (0, after) := by
  unfold catapult_dma_init
  simp only []
  generalize hA : dma_alloc_loop env _ _ _ = A
  have spec : ∀ d A, dma_alloc_loop env N 0 d = A →
      (A.1 = 0 ↔ ∀ j, 0 ≤ j → j < 0 + N →
        (env.alloc_input j).1 ≠ 0 ∧ (env.alloc_output j).1 ≠ 0) :=
    fun d A e => e ▸ (dma_alloc_loop_spec env N 0 d).2.1
  have hA0 : A.1 = 0 := (spec _ _ hA).2 (fun j _ hj => hin j (by omega))
  rw [if_neg (not_not.mpr hA0), if_neg hc, if_neg hr]
  generalize hM : catapult_slot_map_init _ env.bitmap_ok env.pid_map_ok = M
  have hM0 : M.1 = 0 := (catapult_slot_map_init_fields _ _ _ _ hM).1.2 ⟨hb, hp⟩
  rw [if_neg (not_not.mpr hM0), dma_init_program_eq]
  exact ⟨_, rfl⟩

/-- Claim C28. Address publication by `catapult_dma_init`, for a slot count
`N` of at most `SLOT_COUNT` (the length of the per-slot arrays) and a result
region that the allocator placed inside the 64-bit address space: after an
init that returns 0, and whatever the registers were written before, for every
slot `i < N` the registers at byte offsets `0x901000 + 0x20 * i`,
`0x901008 + 0x20 * i` and `0x901010 + 0x20 * i` hold the device-visible
address of the input buffer of slot `i`, of its output buffer, and
`dma_result_dma_addr + i * 128`; the control region length is `N * 64`, the
result region length `N * 128`, so the result record `[i * 128, (i + 1) * 128)`
lies inside the result region; the register triples of distinct slots do not
overlap; and the init does return 0 when every allocation succeeds. -/
theorem dma_init_publishes_addresses (idev : catapult_device) (N bytes : Nat)
    (env : dma_environment) (hN : N ≤ SLOT_COUNT)
    (hfit : env.alloc_result.2 + N * 128 ≤ 2 ^ 64) :
    (∀ fuel after, catapult_dma_init idev N bytes env fuel = some (0, after) →
      after.number_of_slots = N ∧
      after.dma_control_len = N * 64 ∧ after.dma_result_len = N * 128 ∧
      after.dma_result_dma_addr = env.alloc_result.2 ∧
      ∀ i, i < N →
        after.dma_input_dma_addr i = (env.alloc_input i).2 ∧
        after.dma_output_dma_addr i = (env.alloc_output i).2 ∧
        last_write after.registers.accesses (0x901000 + 0x20 * i) =
          some (after.dma_input_dma_addr i) ∧
        last_write after.registers.accesses (0x901008 + 0x20 * i) =
          some (after.dma_output_dma_addr i) ∧
        last_write after.registers.accesses (0x901010 + 0x20 * i) =
          some (after.dma_result_dma_addr + i * 128) ∧
        (i + 1) * 128 ≤ after.dma_result_len) ∧
    ((∀ i, i < N → (env.alloc_input i).1 ≠ 0 ∧ (env.alloc_output i).1 ≠ 0) →
      env.alloc_control.1 ≠ 0 → env.alloc_result.1 ≠ 0 →
      env.bitmap_ok = true → env.pid_map_ok = true →
      ∀ fuel, ∃ after, catapult_dma_init idev N bytes env (fuel + 1) = some (0, after)) ∧
    (∀ i j, i < j → 0x901000 + 0x20 * i + 0x18 ≤ 0x901000 + 0x20 * j) := by
  have hsc : SLOT_COUNT = 64 := rfl
  have hcs : FPGA_CONTROL_SIZE = 64 := rfl
  have hrs : FPGA_RESULT_SIZE = 128 := rfl
  refine ⟨fun fuel after h => ?_, fun hin hc hr hb hp fuel =>
    dma_init_succeeds idev N bytes env hin hc hr hb hp fuel, fun i j hij => by omega⟩
  obtain ⟨e1, e2, e3, -, e5, e6, -, -, -, -, pool, before, p1, p2, p3, -, hreg⟩ :=
    dma_init_success idev N bytes env fuel after h
  rw [hcs] at e2
  rw [hrs] at e3
  rw [Nat.mod_eq_of_lt (by omega)] at e2 e3
  refine ⟨e1, e2, e3, e5, fun i hi => ?_⟩
  obtain ⟨-, -, a1, a2⟩ := e6 i hi
  obtain ⟨-, hpub⟩ := dma_publish_loop_last_write pool N 0 before (by omega)
  obtain ⟨w1, w2, w3⟩ := hpub i (Nat.zero_le _) (by omega)
  rw [p1] at w1
  rw [p2] at w2
  rw [p3, hrs, e5, Nat.mod_eq_of_lt (by omega)] at w3
  refine ⟨a1, a2, ?_, ?_, ?_, by omega⟩
  · rw [hreg, low_level_write_keeps_other _ _ _ _ _ (by decide) (by omega),
      low_level_write_keeps_other _ _ _ _ _ (by decide) (by omega)]
    exact w1
  · rw [hreg, low_level_write_keeps_other _ _ _ _ _ (by decide) (by omega),
      low_level_write_keeps_other _ _ _ _ _ (by decide) (by omega)]
    exact w2
  · rw [hreg, low_level_write_keeps_other _ _ _ _ _ (by decide) (by omega),
      low_level_write_keeps_other _ _ _ _ _ (by decide) (by omega), e5]
    exact w3

/-- Claim C28 on a probed device with four slots and every allocation
succeeding: the init returns 0, the result region is 512 bytes long, and the
registers of slot 3 hold its input address `0x10600000` and the address of its
result record. -/
theorem dma_init_publishes_addresses_witness :
    ∃ after, catapult_dma_init probed_device 4 BYTES_PER_SLOT dma_environment_ok 1 =
        some (0, after) ∧
      after.dma_result_len = 4 * 128 ∧
      after.dma_input_dma_addr 3 = 0x10600000 ∧
      last_write after.registers.accesses (0x901000 + 0x20 * 3) =
        some (after.dma_input_dma_addr 3) ∧
      last_write after.registers.accesses (0x901010 + 0x20 * 3) =
        some (after.dma_result_dma_addr + 3 * 128) :=
  ((dma_init_publishes_addresses probed_device 4 BYTES_PER_SLOT dma_environment_ok
      (by decide) (by decide)).2.1
    (fun i _ => ⟨by simp only [dma_environment_ok]; omega,
      by simp only [dma_environment_ok]; omega⟩)
    (by decide) (by decide) rfl rfl 0).imp
    (fun after h =>
      ⟨h,
        ((dma_init_publishes_addresses probed_device 4 BYTES_PER_SLOT dma_environment_ok
          (by decide) (by decide)).1 1 after h).2.2.1,
        (((dma_init_publishes_addresses probed_device 4 BYTES_PER_SLOT dma_environment_ok
          (by decide) (by decide)).1 1 after h).2.2.2.2 3 (by decide)).1,
        (((dma_init_publishes_addresses probed_device 4 BYTES_PER_SLOT dma_environment_ok
          (by decide) (by decide)).1 1 after h).2.2.2.2 3 (by decide)).2.2.1,
        (((dma_init_publishes_addresses probed_device 4 BYTES_PER_SLOT dma_environment_ok
          (by decide) (by decide)).1 1 after h).2.2.2.2 3 (by decide)).2.2.2.2.1⟩)

/-! ## Read decode -/

/-- Masking with `0xf` keeps the value modulo 16. -/
theorem and_0xf_eq_mod (x : Nat) : x &&& 0xf = x % 16 := by
  have h : (0xf : Nat) = 2 ^ 4 - 1 := by norm_num
  rw [h, Nat.and_pow_two_sub_one_eq_mod]

/-- For a soft register number of at most 24 bits, `catapult_register_offset`
under `INTER_ADDR_SOFT_REG` is the soft register offset. -/
theorem soft_register_offset_eq (n : Nat) (hn : n < 2 ^ 24) :
    catapult_register_offset INTER_ADDR_SOFT_REG n = soft_register_offset n := by
  rw [catapult_register_offset_eq]
  unfold soft_register_offset INTER_ADDR_SOFT_REG
  apply Nat.mod_eq_of_lt
  apply Nat.or_lt_two_pow
  · apply Nat.or_lt_two_pow
    · rw [Nat.shiftLeft_eq]
      calc n * 2 ^ 8 < 2 ^ 24 * 2 ^ 8 := Nat.mul_lt_mul_of_pos_right hn (by norm_num)
        _ = 2 ^ 32 := by norm_num
    · decide
  · decide

/-- The `switch` of `catapult_low_level_read` as a function of the value `k` of
`interp_address & 0xf`. -/
theorem catapult_low_level_read_sel (registers : register_space) (interp app k : Nat)
    (hk : interp &&& 0xf = k) :
    catapult_low_level_read registers interp app =
      if k = 0 then
        (((catapult_low_level_read_64 registers INTER_ADDR_SOFT_REG
            (SOFT_REG_SLOT_DMA_BASE_ADDR + 62)).1 >>> app &&& 1) % 2 ^ 32,
          (catapult_low_level_read_64 registers INTER_ADDR_SOFT_REG
            (SOFT_REG_SLOT_DMA_BASE_ADDR + 62)).2)
      else if k = 1 then
        (((catapult_low_level_read_64 registers INTER_ADDR_SOFT_REG
            (SOFT_REG_SLOT_DMA_BASE_ADDR + 61)).1 >>> app &&& 1) % 2 ^ 32,
          (catapult_low_level_read_64 registers INTER_ADDR_SOFT_REG
            (SOFT_REG_SLOT_DMA_BASE_ADDR + 61)).2)
      else if k = 2 then
        (((catapult_low_level_read_64 registers INTER_ADDR_SOFT_REG
            (SOFT_REG_SLOT_DMA_BASE_ADDR + 60)).1 >>> app &&& 1) % 2 ^ 32,
          (catapult_low_level_read_64 registers INTER_ADDR_SOFT_REG
            (SOFT_REG_SLOT_DMA_BASE_ADDR + 60)).2)
      else if k = 3 then catapult_low_level_read_legacy registers interp app
      else if k = 10 then catapult_low_level_read_legacy registers interp app
      else if k = 12 then
        if app ≥ 2 ∧ app ≤ 6 then
          ((catapult_low_level_read_64 registers INTER_ADDR_SOFT_REG
              (SOFT_REG_SLOT_DMA_BASE_ADDR + 55 + (app - 2))).1 % 2 ^ 32,
            (catapult_low_level_read_64 registers INTER_ADDR_SOFT_REG
              (SOFT_REG_SLOT_DMA_BASE_ADDR + 55 + (app - 2))).2)
        else (0, registers)
      else if k = 14 then
        if app = 257 then
          ((catapult_low_level_read_64 registers INTER_ADDR_SOFT_REG
              (SOFT_REG_SLOT_DMA_BASE_ADDR + 54)).1 % 2 ^ 32,
            (catapult_low_level_read_64 registers INTER_ADDR_SOFT_REG
              (SOFT_REG_SLOT_DMA_BASE_ADDR + 54)).2)
        else (0, registers)
      else if k = 15 then
        if app ≤ 53 then
          if app = 4 ∨ app = 5 ∨ app = 6 then
            catapult_low_level_read_legacy registers interp app
          else
            ((catapult_low_level_read_64 registers INTER_ADDR_SOFT_REG
                (SOFT_REG_SLOT_DMA_BASE_ADDR + app)).1 % 2 ^ 32,
              (catapult_low_level_read_64 registers INTER_ADDR_SOFT_REG
                (SOFT_REG_SLOT_DMA_BASE_ADDR + app)).2)
        else (0, registers)
      else (0, registers) := by
  subst hk
  rfl

/-- The reference read as a function of the value `k` of `interp_addr % 16`. -/
theorem reference_read_sel (registers : register_space) (interp app k : Nat)
    (hk : interp % 16 = k) :
    reference_read registers interp app =
      if k = 3 ∨ k = 10 then
        some (registers.content32 (((app <<< 8) ||| (interp <<< 4) ||| 4) % 2 ^ 32) % 2 ^ 32,
          .readl (((app <<< 8) ||| (interp <<< 4) ||| 4) % 2 ^ 32))
      else if k = 0 then
        some ((soft_register registers (0x7E00 + 62) / 2 ^ app) % 2,
          .readq (soft_register_offset (0x7E00 + 62)))
      else if k = 1 then
        some ((soft_register registers (0x7E00 + 61) / 2 ^ app) % 2,
          .readq (soft_register_offset (0x7E00 + 61)))
      else if k = 2 then
        some ((soft_register registers (0x7E00 + 60) / 2 ^ app) % 2,
          .readq (soft_register_offset (0x7E00 + 60)))
      else if k = 12 ∧ 2 ≤ app ∧ app ≤ 6 then
        some (soft_register registers (0x7E00 + 55 + (app - 2)) % 2 ^ 32,
          .readq (soft_register_offset (0x7E00 + 55 + (app - 2))))
      else if k = 14 ∧ app = 257 then
        some (soft_register registers (0x7E00 + 54) % 2 ^ 32,
          .readq (soft_register_offset (0x7E00 + 54)))
      else if k = 15 ∧ (app = 4 ∨ app = 5 ∨ app = 6) then
        some (registers.content32 (((app <<< 8) ||| (interp <<< 4) ||| 4) % 2 ^ 32) % 2 ^ 32,
          .readl (((app <<< 8) ||| (interp <<< 4) ||| 4) % 2 ^ 32))
      else if k = 15 ∧ app ≤ 53 then
        some (soft_register registers (0x7E00 + app) % 2 ^ 32,
          .readq (soft_register_offset (0x7E00 + app)))
      else none := by
  subst hk
  rfl

/-- A 64-bit read of soft register `n`: its value and the one access made. -/
theorem read_64_soft (registers : register_space) (n : Nat) (hn : n < 2 ^ 24) :
    catapult_low_level_read_64 registers INTER_ADDR_SOFT_REG n =
      (soft_register registers n,
        { registers with
          accesses := registers.accesses ++ [.readq (soft_register_offset n)] }) := by
  unfold catapult_low_level_read_64 catapult_register_read64 soft_register
  simp only [soft_register_offset_eq n hn]

/-- A legacy read: the 32-bit register at the legacy offset and the one access
made. -/
theorem read_legacy_eq (registers : register_space) (interp app : Nat) :
    catapult_low_level_read_legacy registers interp app =
      (registers.content32 (((app <<< 8) ||| (interp <<< 4) ||| 4) % 2 ^ 32) % 2 ^ 32,
        { registers with
          accesses := registers.accesses ++
            [.readl (((app <<< 8) ||| (interp <<< 4) ||| 4) % 2 ^ 32)] }) := by
  unfold catapult_low_level_read_legacy catapult_register_read32
  simp only [catapult_register_offset_eq]

/-- Extracting bit `app` of a word, as the status cases do. -/
theorem bit_extract (r app : Nat) : (r >>> app &&& 1) % 2 ^ 32 = (r / 2 ^ app) % 2 := by
  rw [Nat.and_one_is_mod, Nat.shiftRight_eq_div_pow]
  apply Nat.mod_eq_of_lt
  have := Nat.mod_lt (r / 2 ^ app) (show 0 < 2 by norm_num)
  omega

/-- Where the reference read is defined, `catapult_low_level_read` returns its
value and makes its access, and no other. -/
theorem low_level_read_of_reference (registers : register_space) (interp app : Nat) (v : Nat)
    (a : mmio_access) (href : reference_read registers interp app = some (v, a)) :
    catapult_low_level_read registers interp app =
      (v, { registers with accesses := registers.accesses ++ [a] }) := by
  have hk := and_0xf_eq_mod interp
  generalize hs : interp % 16 = k at hk
  have hklt : k < 16 := hs ▸ Nat.mod_lt _ (by norm_num)
  rw [reference_read_sel _ _ _ k hs] at href
  rw [catapult_low_level_read_sel _ _ _ k hk]
  have hb : SOFT_REG_SLOT_DMA_BASE_ADDR = 0x7E00 := rfl
  interval_cases k <;>
    simp only [Nat.reduceEqDiff, if_false, if_true, or_false, false_or, or_true, true_or,
      true_and, false_and, hb] at href ⊢
  case «0» =>
    rw [read_64_soft _ _ (by norm_num), bit_extract]
    simp only [Option.some.injEq, Prod.mk.injEq] at href
    obtain ⟨rfl, rfl⟩ := href
    rfl
  case «1» =>
    rw [read_64_soft _ _ (by norm_num), bit_extract]
    simp only [Option.some.injEq, Prod.mk.injEq] at href
    obtain ⟨rfl, rfl⟩ := href
    rfl
  case «2» =>
    rw [read_64_soft _ _ (by norm_num), bit_extract]
    simp only [Option.some.injEq, Prod.mk.injEq] at href
    obtain ⟨rfl, rfl⟩ := href
    rfl
  case «3» =>
    rw [read_legacy_eq]
    simp only [Option.some.injEq, Prod.mk.injEq] at href
    obtain ⟨rfl, rfl⟩ := href
    rfl
  case «10» =>
    rw [read_legacy_eq]
    simp only [Option.some.injEq, Prod.mk.injEq] at href
    obtain ⟨rfl, rfl⟩ := href
    rfl
  case «12» =>
    by_cases hr : 2 ≤ app ∧ app ≤ 6
    · rw [if_pos hr] at href
      rw [if_pos (show app ≥ 2 ∧ app ≤ 6 from hr), read_64_soft _ _ (by omega)]
      simp only [Option.some.injEq, Prod.mk.injEq] at href
      obtain ⟨rfl, rfl⟩ := href
      rfl
    · rw [if_neg hr] at href
      cases href
  case «14» =>
    by_cases hr : app = 257
    · rw [if_pos hr] at href
      rw [if_pos hr, read_64_soft _ _ (by norm_num)]
      simp only [Option.some.injEq, Prod.mk.injEq] at href
      obtain ⟨rfl, rfl⟩ := href
      rfl
    · rw [if_neg hr] at href
      cases href
  case «15» =>
    by_cases h456 : app = 4 ∨ app = 5 ∨ app = 6
    · rw [if_pos h456] at href
      rw [if_pos (show app ≤ 53 by omega), if_pos h456, read_legacy_eq]
      simp only [Option.some.injEq, Prod.mk.injEq] at href
      obtain ⟨rfl, rfl⟩ := href
      rfl
    · rw [if_neg h456] at href
      by_cases h53 : app ≤ 53
      · rw [if_pos h53] at href
        rw [if_pos h53, if_neg h456, read_64_soft _ _ (by omega)]
        simp only [Option.some.injEq, Prod.mk.injEq] at href
        obtain ⟨rfl, rfl⟩ := href
        rfl
      · rw [if_neg h53] at href
        cases href
  all_goals cases href

/-- The reference read is undefined exactly at the addresses
`catapult_low_level_read` does not map. -/
theorem reference_read_none_iff (registers : register_space) (interp app : Nat) :
    reference_read registers interp app = none ↔ unsupported_address interp app := by
  have hk := and_0xf_eq_mod interp
  generalize hs : interp % 16 = k at hk
  have hklt : k < 16 := hs ▸ Nat.mod_lt _ (by norm_num)
  rw [reference_read_sel _ _ _ k hs]
  unfold unsupported_address
  rw [hk]
  interval_cases k <;>
    simp only [Nat.reduceEqDiff, if_false, if_true, or_false, false_or, or_true, true_or,
      true_and, false_and, and_false, and_true]
  case «12» =>
    by_cases hr : 2 ≤ app ∧ app ≤ 6
    · rw [if_pos hr]
      exact ⟨fun h => (by cases h), fun h => by omega⟩
    · rw [if_neg hr]
      exact ⟨fun _ => by omega, fun _ => rfl⟩
  case «14» =>
    by_cases hr : app = 257
    · rw [if_pos hr]
      exact ⟨fun h => (by cases h), fun h => absurd hr h⟩
    · rw [if_neg hr]
      exact ⟨fun _ => hr, fun _ => rfl⟩
  case «15» =>
    by_cases h456 : app = 4 ∨ app = 5 ∨ app = 6
    · rw [if_pos h456]
      exact ⟨fun h => (by cases h), fun h => by omega⟩
    · rw [if_neg h456]
      by_cases h53 : app ≤ 53
      · rw [if_pos h53]
        exact ⟨fun h => (by cases h), fun h => by omega⟩
      · rw [if_neg h53]
        exact ⟨fun _ => by omega, fun _ => rfl⟩
  all_goals exact ⟨fun h => (by cases h), False.elim⟩

/-- A read under one of the three status addresses returns a single bit. -/
theorem low_level_read_status_bit (registers : register_space) (interp app : Nat)
    (h : interp % 16 ≤ 2) : (catapult_low_level_read registers interp app).1 ≤ 1 := by
  have hk := and_0xf_eq_mod interp
  generalize hs : interp % 16 = k at hk h
  rw [catapult_low_level_read_sel _ _ _ k hk]
  have h2 : ∀ r : Nat, (r >>> app &&& 1) % 2 ^ 32 ≤ 1 := by
    intro r
    rw [bit_extract]
    have := Nat.mod_lt (r / 2 ^ app) (show 0 < 2 by norm_num)
    omega
  interval_cases k <;> simp only [Nat.reduceEqDiff, if_false, if_true] <;> exact h2 _

/-- Claim C27. Read decode equals the reference for supported addresses: for
every register content and every logical address at which `reference_read` is
defined (with `app_addr < 64` under the status addresses 0, 1 and 2),
`catapult_low_level_read` returns the reference value and makes exactly the
one hardware read of the reference: by `interp_addr & 0xF`, for 3 and 10 the
32-bit register at `(app_addr << 8) | (interp_addr << 4) | 4`; for 0, 1, 2 bit
`app_addr` of soft register `0x7E00 + 62`, `+ 61`, `+ 60`, a value in
`{0, 1}`; for 12 with `2 ≤ app_addr ≤ 6` the low 32 bits of soft register
`0x7E00 + 55 + (app_addr - 2)`; for 14 with `app_addr = 257` the low 32 bits of
soft register `0x7E00 + 54`; for 15 with `app_addr` in `{4, 5, 6}` the legacy
register, with any other `app_addr ≤ 53` the low 32 bits of soft register
`0x7E00 + app_addr`; soft register `n` is the 64-bit word at
`(n << 8) | (8 << 4) | 4`. The reference is undefined exactly at the unmapped
addresses. -/
theorem low_level_read_matches_reference (registers : register_space)
    (interp_address app_address : Nat) :
    (∀ v a, reference_read registers interp_address app_address = some (v, a) →
      (interp_address % 16 ≤ 2 → app_address < 64) →
      catapult_low_level_read registers interp_address app_address =
        (v, { registers with accesses := registers.accesses ++ [a] })) ∧
    (reference_read registers interp_address app_address = none ↔
      unsupported_address interp_address app_address) ∧
    (interp_address % 16 ≤ 2 →
      (catapult_low_level_read registers interp_address app_address).1 ≤ 1) ∧
    (∀ n, soft_register_offset n = (n <<< 8) ||| (8 <<< 4) ||| 4) ∧
    interp_address &&& 0xF = interp_address % 16 :=
  ⟨fun v a href _ => low_level_read_of_reference registers interp_address app_address v a href,
    reference_read_none_iff registers interp_address app_address,
    low_level_read_status_bit registers interp_address app_address,
    fun _ => rfl, and_0xf_eq_mod interp_address⟩

/-- Claim C27 on registers that answer `0x0123456789ABCDEF` to every 64-bit
read: the full-status read of slot 4 returns bit 4 of the word, which is 0,
after one read of soft register `0x7E3E`, and the read of the coalescing count
returns the low half `0x89ABCDEF` after one read of soft register `0x7E36`. -/
theorem low_level_read_matches_reference_witness :
    catapult_low_level_read pattern_registers INTER_ADDR_FULL_STATUS_REG 4 =
      (0, { pattern_registers with accesses := [.readq 0x7E3E84] }) ∧
    catapult_low_level_read pattern_registers INTER_ADDR_INTERRUPT 257 =
      (0x89ABCDEF, { pattern_registers with accesses := [.readq 0x7E3684] }) :=
  ⟨(low_level_read_matches_reference pattern_registers INTER_ADDR_FULL_STATUS_REG 4).1
      0 (.readq 0x7E3E84) (by decide) (fun _ => by decide),
    (low_level_read_matches_reference pattern_registers INTER_ADDR_INTERRUPT 257).1
      0x89ABCDEF (.readq 0x7E3684) (by decide) (fun h => absurd h (by decide))⟩

/-! ## Validation of the slot count -/

/-- Claim C21, the code at a slot count of 100, which lies in `2 .. 256`, with
every registration call succeeding: `catapult_init_module` returns `-EINVAL`,
because the count exceeds `SLOT_COUNT = 64`. -/
theorem init_module_rejects_100 :
    MIN_FPGA_NUM_SLOTS ≤ 100 ∧ 100 ≤ MAX_FPGA_NUM_SLOTS ∧
    catapult_init_module 100 module_environment_ok = -EINVAL := by
  decide

/-- Claim C21 as amended. The configured slot count is validated against the
compiled-in maximum `SLOT_COUNT = 64`: `catapult_init_module` returns `-EINVAL`
for a `dma_slot_count` above 64, whatever the environment, and returns 0 only
for a count of at most 64; it accepts every count of at most 64 (so every `N`
in `2 .. 64`) when the registration calls succeed. That count is the slot
count of the device: a `catapult_dma_init` that returns 0 has stored it in
`number_of_slots`, and no request or interrupt changes `number_of_slots`. -/
theorem init_module_slot_count_bound (dma_slot_count : Nat) (env : module_environment) :
    SLOT_COUNT = 64 ∧
    (dma_slot_count > SLOT_COUNT → catapult_init_module dma_slot_count env = -EINVAL) ∧
    (catapult_init_module dma_slot_count env = 0 → dma_slot_count ≤ SLOT_COUNT) ∧
    (dma_slot_count ≤ SLOT_COUNT →
      catapult_init_module dma_slot_count module_environment_ok = 0) ∧
    (∀ idev dma_slot_bytes denv fuel after,
      catapult_dma_init idev dma_slot_count dma_slot_bytes denv fuel = some (0, after) →
      after.number_of_slots = dma_slot_count ∧
      (dma_slot_count ≤ SLOT_COUNT → ∀ r st later,
        device_outcome after r = some (st, later) →
        later.number_of_slots = dma_slot_count)) := by
  refine ⟨rfl, fun h => ?_, fun h => ?_, fun h => ?_, fun idev bytes denv fuel after h => ?_⟩
  · unfold catapult_init_module
    rw [if_pos h]
  · by_contra hgt
    unfold catapult_init_module at h
    rw [if_pos (not_le.mp hgt)] at h
    exact absurd h (by decide)
  · unfold catapult_init_module
    rw [if_neg (not_lt.mpr h)]
    rfl
  · have hn := (dma_init_success idev dma_slot_count bytes denv fuel after h).1
    refine ⟨hn, fun hle r st later hr => ?_⟩
    have hsc : SLOT_COUNT = 64 := rfl
    have hmax : MAX_FPGA_NUM_SLOTS = 256 := rfl
    rw [← hn]
    exact (device_outcome_same_above after (by omega) r st later hr).1

/-! ## The slot index of a mapping request -/

/-- Claim C22, the code on a device of 64 slots of `2 ^ 20` bytes on which
process 1000 holds slot 0, for the low offset `2 ^ 52` (below `2 ^ 60`) and a
mapping of `2 ^ 20` bytes by process 1000: `floor(offset / bytes_per_slot)` is
`2 ^ 32`, which is not below the slot count, and yet `catapult_mmap_get_slot`
returns 0 and reports slot 0: the quotient is stored in a `uint32_t` before it
is compared with the slot count. -/
theorem mmap_slot_index_truncated :
    (2 : Nat) ^ 52 < 2 ^ 60 ∧
    0 < (mark_slot (fresh_device 64) 0 1000).bytes_per_slot ∧
    2 ^ 52 / (mark_slot (fresh_device 64) 0 1000).bytes_per_slot = 2 ^ 32 ∧
    ¬ 2 ^ 52 / (mark_slot (fresh_device 64) 0 1000).bytes_per_slot <
      (mark_slot (fresh_device 64) 0 1000).number_of_slots ∧
    catapult_mmap_get_slot (mark_slot (fresh_device 64) 0 1000) (2 ^ 52) (2 ^ 20) 0 1000 =
      some (0, 0) := by
  decide

/-- Where the quotient fits 32 bits, the mapping gate is as the protocol
describes it: with the mutex taken, success exactly when the slot
`floor(offset / bytes_per_slot)` is below the slot count, the size is one
slot, and the slot is reserved by the caller; the slot reported is that
quotient. -/
theorem catapult_mmap_get_slot_in_range (idev : catapult_device) (offset size : Nat) (p : Int)
    (hb : 0 < idev.bytes_per_slot) (hq : offset / idev.bytes_per_slot < 2 ^ 32) :
    (∃ st, catapult_mmap_get_slot idev offset size 0 p =
      some (st, offset / idev.bytes_per_slot)) ∧
    (catapult_mmap_get_slot idev offset size 0 p = some (0, offset / idev.bytes_per_slot) ↔
      offset / idev.bytes_per_slot < idev.number_of_slots ∧ size = idev.bytes_per_slot ∧
      idev.slot_map (offset / idev.bytes_per_slot) = true ∧
      idev.slot_map_pids (offset / idev.bytes_per_slot) = p) := by
  unfold catapult_mmap_get_slot
  simp only [test_bit, Nat.mod_eq_of_lt hq]
  rw [if_neg (by omega)]
  have hE : (-EINVAL : Int) ≠ 0 := by decide
  have hA : (-EACCES : Int) ≠ 0 := by decide
  by_cases h1 : offset / idev.bytes_per_slot ≥ idev.number_of_slots
  · rw [if_pos h1]
    refine ⟨⟨_, rfl⟩, ⟨fun h => ?_, fun h => by omega⟩⟩
    simp only [Option.some.injEq, Prod.mk.injEq, and_true] at h
    exact absurd h hE
  rw [if_neg h1]
  by_cases h2 : size ≠ idev.bytes_per_slot
  · rw [if_pos h2]
    refine ⟨⟨_, rfl⟩, ⟨fun h => ?_, fun h => absurd h.2.1 h2⟩⟩
    simp only [Option.some.injEq, Prod.mk.injEq, and_true] at h
    exact absurd h hE
  rw [if_neg h2, if_pos trivial]
  by_cases h3 : (!idev.slot_map (offset / idev.bytes_per_slot)) = true ∨
      idev.slot_map_pids (offset / idev.bytes_per_slot) ≠ p
  · rw [if_pos h3]
    refine ⟨⟨_, rfl⟩, ⟨fun h => ?_, fun h => ?_⟩⟩
    · simp only [Option.some.injEq, Prod.mk.injEq, and_true] at h
      exact absurd h hA
    · rcases h3 with h3 | h3
      · rw [h.2.2.1] at h3
        exact absurd h3 (by decide)
      · exact absurd h.2.2.2 h3
  · rw [if_neg h3]
    refine ⟨⟨_, rfl⟩, ⟨fun _ => ⟨by omega, not_not.mp h2, ?_, ?_⟩, fun _ => rfl⟩⟩
    · by_contra hc
      exact h3 (Or.inl (by simp [hc]))
    · by_contra hc
      exact h3 (Or.inr hc)

/-! ## Waiting on a completion -/

/-- A completion that has just been signalled is signalled. -/
theorem complete_done_ne_zero (x : completion) : (complete x).done ≠ 0 := by
  unfold complete
  by_cases h : x.done ≠ UINT_MAX
  · rw [if_pos h]
    exact Nat.succ_ne_zero _
  · rw [if_neg h, not_not.mp h]
    decide

/-- Storing back the completion that is there changes nothing. -/
theorem completion_store_self (event_obj : Nat → completion) (i : Nat) :
    completion_store event_obj i (event_obj i) = event_obj := by
  funext j
  unfold completion_store
  by_cases h : j = i
  · rw [if_pos h, h]
  · rw [if_neg h]

/-- Signalling a list of slots leaves a signalled completion signalled. -/
theorem signal_all_keeps_signalled (s : Nat) :
    ∀ (l : List Nat) (event_obj : Nat → completion), (event_obj s).done ≠ 0 →
      (signal_all event_obj l s).done ≠ 0 := by
  intro l
  induction l with
  | nil => intro ev h; exact h
  | cons a l ih =>
    intro ev h
    rw [signal_all_cons]
    apply ih
    unfold completion_store
    by_cases hs : s = a
    · rw [if_pos hs]
      exact complete_done_ne_zero _
    · rw [if_neg hs]
      exact h

/-- Signalling a list of slots signals every slot of the list. -/
theorem signal_all_signals (s : Nat) :
    ∀ (l : List Nat) (event_obj : Nat → completion), s ∈ l →
      (signal_all event_obj l s).done ≠ 0 := by
  intro l
  induction l with
  | nil => intro ev h; exact absurd h (List.not_mem_nil s)
  | cons a l ih =>
    intro ev h
    rw [signal_all_cons]
    by_cases hs : s = a
    · apply signal_all_keeps_signalled
      unfold completion_store
      rw [if_pos hs]
      exact complete_done_ne_zero _
    · rcases List.mem_cons.mp h with h | h
      · exact absurd h hs
      · exact ih _ h

/-- The interrupt handler leaves a signalled completion signalled. -/
theorem interrupt_keeps_signalled (idev : catapult_device) (s : Nat)
    (h : (idev.event_obj s).done ≠ 0) :
    ((catapult_interrupt_handler idev).2.event_obj s).done ≠ 0 := by
  rw [catapult_interrupt_handler_event_obj]
  split_ifs
  · exact signal_all_keeps_signalled s _ _ h
  · exact h

/-- A slot request touches neither the completions nor the slot count. -/
theorem slot_outcome_frame (idev : catapult_device) (sr : slot_request) (st : Int)
    (after : catapult_device) (h : device_outcome idev (.slot sr) = some (st, after)) :
    after.event_obj = idev.event_obj ∧ after.number_of_slots = idev.number_of_slots := by
  cases sr with
  | acquire_one lock_status copy_left q =>
    simp only [device_outcome, Option.some.injEq, Prod.mk.injEq] at h
    rw [← h.2]
    unfold catapult_acquire_slot
    simp only []
    split_ifs <;> exact ⟨rfl, rfl⟩
  | release_one copy_left input q =>
    simp only [device_outcome, Option.some.injEq] at h
    have : after = (catapult_release_slot idev copy_left input q).2 := by rw [h]
    rw [this]
    unfold catapult_release_slot
    split_ifs <;> exact ⟨rfl, rfl⟩
  | acquire_range kzalloc_ok copy_in_left uarg lock_status copy_out_left q =>
    simp only [device_outcome, Option.some.injEq, Prod.mk.injEq] at h
    rw [← h.2]
    unfold catapult_acquire_slot_range
    simp only []
    split_ifs <;> exact ⟨rfl, rfl⟩
  | release_range q =>
    simp only [device_outcome, Option.some.injEq] at h
    have : after = (catapult_release_slot_range idev q).2 := by rw [h]
    rw [this]
    exact ⟨rfl, rfl⟩
  | session_close q =>
    simp only [device_outcome, catapult_release, Bool.false_eq_true, if_false,
      catapult_slot_map_release_eq, Option.map_some', Option.some.injEq, Prod.mk.injEq] at h
    rw [← h.2]
    exact ⟨rfl, rfl⟩


/-- With the kernel's wait primitives, `catapult_wait_slot_event` leaves the
device, and so every completion, exactly as it was. -/
theorem wait_slot_event_observes (idev : catapult_device) (interrupted : Bool)
    (msecs_to_jiffies : Nat → Nat) (copy_left : Nat) (input : catapult_wait_slot_event_info)
    (st : Int) (after : catapult_device)
    (h : catapult_wait_slot_event (kernel_wait_primitives interrupted msecs_to_jiffies) idev
      copy_left input = some (st, after)) : after = idev := by
  unfold catapult_wait_slot_event at h
  simp only [kernel_wait_primitives, wait_for_completion_interruptible,
    wait_for_completion_interruptible_timeout, try_wait_for_completion] at h
  split_ifs at h
  all_goals first
    | (simp only [Option.some.injEq, Prod.mk.injEq, Option.map_some',
        completion_store_self] at h
       exact h.2.symm)
    | (simp only [Option.map_none'] at h
       cases h)

/-- With the kernel's wait primitives, a wait on a signalled completion
returns 0 in every mode. -/
theorem wait_slot_event_signalled (idev : catapult_device) (interrupted : Bool)
    (msecs_to_jiffies : Nat → Nat) (input : catapult_wait_slot_event_info)
    (hs : input.slot_index < idev.number_of_slots)
    (hd : (idev.event_obj input.slot_index).done ≠ 0) :
    catapult_wait_slot_event (kernel_wait_primitives interrupted msecs_to_jiffies) idev 0 input =
      some (0, idev) := by
  unfold catapult_wait_slot_event
  rw [if_neg (by simp), if_neg (by omega)]
  simp only [kernel_wait_primitives, wait_for_completion_interruptible,
    wait_for_completion_interruptible_timeout, try_wait_for_completion, if_pos hd,
    completion_store_self, Option.map_some']
  have hpos : ∀ t : Nat, (0 : Int) < ((if t = 0 then 1 else t : Nat) : Int) := by
    intro t
    split_ifs <;> omega
  by_cases hw : input.wait = true
  · rw [if_pos hw]
    by_cases ht : input.timeout = 0
    · rw [if_pos ht]
    · rw [if_neg ht, if_neg (ne_of_gt (hpos _)), if_neg (not_lt.mpr (le_of_lt (hpos _)))]
  · rw [if_neg hw, if_pos (decide_eq_true hd)]

/-- With the wait primitives as parameters, the result mapping of
`catapult_wait_slot_event` for a slot index below the slot count. -/
theorem wait_slot_event_mapping (prims : wait_primitives) (idev : catapult_device)
    (input : catapult_wait_slot_event_info)
    (hs : input.slot_index < idev.number_of_slots) :
    (input.wait = false →
      catapult_wait_slot_event prims idev 0 input =
        some (if (prims.try_wait_for_completion (idev.event_obj input.slot_index)).1 then 0
            else -EWOULDBLOCK,
          { idev with
            event_obj := completion_store idev.event_obj input.slot_index
              (prims.try_wait_for_completion (idev.event_obj input.slot_index)).2 })) ∧
    (input.wait = true → input.timeout ≠ 0 →
      ∃ st, catapult_wait_slot_event prims idev 0 input =
          some (st, { idev with
            event_obj := completion_store idev.event_obj input.slot_index
              (prims.wait_for_completion_interruptible_timeout
                (idev.event_obj input.slot_index) (prims.msecs_to_jiffies input.timeout)).2 }) ∧
        ((prims.wait_for_completion_interruptible_timeout (idev.event_obj input.slot_index)
            (prims.msecs_to_jiffies input.timeout)).1 = 0 → st = -ETIMEDOUT) ∧
        ((prims.wait_for_completion_interruptible_timeout (idev.event_obj input.slot_index)
            (prims.msecs_to_jiffies input.timeout)).1 > 0 → st = 0) ∧
        ((prims.wait_for_completion_interruptible_timeout (idev.event_obj input.slot_index)
            (prims.msecs_to_jiffies input.timeout)).1 < 0 →
          st = (prims.wait_for_completion_interruptible_timeout
            (idev.event_obj input.slot_index) (prims.msecs_to_jiffies input.timeout)).1) ∧
        ((prims.wait_for_completion_interruptible_timeout (idev.event_obj input.slot_index)
            (prims.msecs_to_jiffies input.timeout)).1 ≠ -ETIMEDOUT →
          (st = -ETIMEDOUT ↔
            (prims.wait_for_completion_interruptible_timeout (idev.event_obj input.slot_index)
              (prims.msecs_to_jiffies input.timeout)).1 = 0))) ∧
    (input.wait = true → input.timeout = 0 →
      catapult_wait_slot_event prims idev 0 input =
        (prims.wait_for_completion_interruptible (idev.event_obj input.slot_index)).map
          (fun r => (r.1, { idev with
            event_obj := completion_store idev.event_obj input.slot_index r.2 }))) := by
  have hT : (-ETIMEDOUT : Int) ≠ 0 := by decide
  refine ⟨fun hw => ?_, fun hw ht => ?_, fun hw ht => ?_⟩
  · unfold catapult_wait_slot_event
    rw [if_neg (by simp), if_neg (by omega)]
    simp only [hw, Bool.false_eq_true, if_false]
  · unfold catapult_wait_slot_event
    rw [if_neg (by simp), if_neg (by omega)]
    simp only [hw, if_true, if_neg ht]
    refine ⟨_, rfl, fun h0 => ?_, fun hp => ?_, fun hn => ?_, fun hne => ⟨fun hst => ?_, fun h0 => ?_⟩⟩
    · rw [if_pos h0]
    · rw [if_neg (ne_of_gt hp), if_neg (not_lt.mpr (le_of_lt hp))]
    · rw [if_neg (ne_of_lt hn), if_pos hn]
    · by_contra hc
      rw [if_neg hc] at hst
      by_cases hneg : (prims.wait_for_completion_interruptible_timeout
          (idev.event_obj input.slot_index) (prims.msecs_to_jiffies input.timeout)).1 < 0
      · rw [if_pos hneg] at hst
        exact hne hst
      · rw [if_neg hneg] at hst
        exact hT hst.symm
    · rw [if_pos h0]
  · unfold catapult_wait_slot_event
    rw [if_neg (by simp), if_neg (by omega)]
    simp only [hw, if_true, if_pos ht]


/-- The device a step leaves is the device of its outcome. -/
theorem device_step_eq_outcome (idev : catapult_device) (r : device_request) :
    device_step idev r = (device_outcome idev r).map Prod.snd := by
  cases r with
  | slot sr =>
    cases sr <;> simp only [device_step, slot_step, device_outcome, Option.map_some']
  | get_slot_event copy_left input => rfl
  | wait_slot_event prims copy_left input => rfl
  | reset_slot_event copy_left input => rfl
  | complete_slot_event copy_left input => rfl
  | mmap_get_slot offset size lock_status current =>
    simp only [device_step, device_outcome, Option.map_map]
    rfl
  | interrupt => rfl

/-- A request or interrupt other than a reset of slot `s` leaves a signalled
completion of slot `s` signalled, and the slot count as it was. -/
theorem device_outcome_keeps_signalled (idev : catapult_device) (s : Nat)
    (hd : (idev.event_obj s).done ≠ 0) (r : device_request) (hr : r.leaves_signal s)
    (st : Int) (after : catapult_device) (h : device_outcome idev r = some (st, after)) :
    (after.event_obj s).done ≠ 0 ∧ after.number_of_slots = idev.number_of_slots := by
  cases r with
  | slot sr =>
    obtain ⟨h1, h2⟩ := slot_outcome_frame idev sr st after h
    rw [h1]
    exact ⟨hd, h2⟩
  | get_slot_event copy_left input =>
    simp only [device_outcome, Option.some.injEq, Prod.mk.injEq] at h
    rw [← h.2]
    exact ⟨hd, rfl⟩
  | wait_slot_event prims copy_left input =>
    obtain ⟨interrupted, m2j, hp⟩ := hr
    subst hp
    rw [wait_slot_event_observes idev interrupted m2j copy_left input st after h]
    exact ⟨hd, rfl⟩
  | reset_slot_event copy_left input =>
    simp only [device_outcome, Option.some.injEq] at h
    have : after = (catapult_reset_slot_event idev copy_left input).2 := by rw [h]
    rw [this]
    unfold catapult_reset_slot_event
    split_ifs
    · exact ⟨hd, rfl⟩
    · exact ⟨hd, rfl⟩
    · refine ⟨?_, rfl⟩
      show (completion_store idev.event_obj input.slot_index _ s).done ≠ 0
      unfold completion_store
      rw [if_neg (fun e => hr e.symm)]
      exact hd
  | complete_slot_event copy_left input =>
    simp only [device_outcome, Option.some.injEq] at h
    have : after = (catapult_complete_slot_event idev copy_left input).2 := by rw [h]
    rw [this]
    unfold catapult_complete_slot_event
    split_ifs
    · exact ⟨hd, rfl⟩
    · exact ⟨hd, rfl⟩
    · refine ⟨?_, rfl⟩
      show (completion_store idev.event_obj input.slot_index _ s).done ≠ 0
      unfold completion_store
      by_cases e : s = input.slot_index
      · rw [if_pos e]
        exact complete_done_ne_zero _
      · rw [if_neg e]
        exact hd
  | mmap_get_slot offset size lock_status current =>
    simp only [device_outcome, Option.map_eq_some', Prod.mk.injEq] at h
    obtain ⟨a, -, -, h2⟩ := h
    rw [← h2]
    exact ⟨hd, rfl⟩
  | interrupt =>
    simp only [device_outcome, Option.some.injEq, Prod.mk.injEq] at h
    rw [← h.2]
    exact ⟨interrupt_keeps_signalled idev s hd, (catapult_interrupt_handler_tables idev).1⟩

/-- A run of requests and interrupts without a reset of slot `s` leaves a
signalled completion of slot `s` signalled. -/
theorem device_run_keeps_signalled (s : Nat) :
    ∀ (rs : List device_request) (idev after : catapult_device),
      (idev.event_obj s).done ≠ 0 → (∀ r, r ∈ rs → r.leaves_signal s) →
      device_run idev rs = some after →
      (after.event_obj s).done ≠ 0 ∧ after.number_of_slots = idev.number_of_slots := by
  intro rs
  induction rs with
  | nil =>
    intro idev after hd _ h
    simp only [device_run, Option.some.injEq] at h
    rw [← h]
    exact ⟨hd, rfl⟩
  | cons r rs ih =>
    intro idev after hd hall h
    simp only [device_run, device_step_eq_outcome] at h
    cases ho : device_outcome idev r with
    | none =>
      rw [ho] at h
      cases h
    | some v =>
      rw [ho] at h
      simp only [Option.map_some', Option.some_bind] at h
      obtain ⟨k1, k2⟩ := device_outcome_keeps_signalled idev s hd r
        (hall r (List.mem_cons_self _ _)) v.1 v.2 ho
      obtain ⟨k3, k4⟩ := ih v.2 after k1 (fun r' hr' => hall r' (List.mem_cons_of_mem _ hr')) h
      exact ⟨k3, k4.trans k2⟩


/-- Claim C23. The completion state machine, with the kernel's wait primitives
as the specification describes them (a wait observes the completion and never
changes it), for every device and slot `s` below the slot count: a
`catapult_wait_slot_event` that returns leaves the device as it was, in every
mode and for every input; `catapult_complete_slot_event` and an interrupt whose
status word names `s` leave the completion of `s` signalled; once it is
signalled, a wait on `s` returns 0 in every mode, now and after every run of
requests and interrupts that has no reset of `s`; and the reset leaves it
unsignalled, so that a non-blocking wait then returns `-EWOULDBLOCK`. -/
theorem completion_state_machine (idev : catapult_device) (s : Nat)
    (hs : s < idev.number_of_slots) :
    (∀ interrupted msecs_to_jiffies copy_left input st after,
      catapult_wait_slot_event (kernel_wait_primitives interrupted msecs_to_jiffies) idev
        copy_left input = some (st, after) → after = idev) ∧
    ((catapult_complete_slot_event idev 0 { slot_index := s }).1 = 0 ∧
      ((catapult_complete_slot_event idev 0 { slot_index := s }).2.event_obj s).done ≠ 0) ∧
    ((idev.interrupt_feature_offset = 0 ∨
        (catapult_read_dfh_register idev
          ((idev.interrupt_feature_offset + DFH_FEATURE_INTERRUPT_STATUS_REG_OFFSET) % 2 ^ 32)
          0).2.1 &&& 1 ≠ 0) ∧ idev.registers_base ≠ 0 →
      s ∈ reference_decode (legacy_interrupt_status idev) idev.number_of_slots →
      ((catapult_interrupt_handler idev).2.event_obj s).done ≠ 0) ∧
    ((idev.event_obj s).done ≠ 0 →
      (∀ interrupted msecs_to_jiffies timeout wait,
        catapult_wait_slot_event (kernel_wait_primitives interrupted msecs_to_jiffies) idev 0
          { slot_index := s, timeout := timeout, wait := wait } = some (0, idev)) ∧
      (∀ rs after, (∀ r, r ∈ rs → r.leaves_signal s) → device_run idev rs = some after →
        (after.event_obj s).done ≠ 0 ∧
        ∀ interrupted msecs_to_jiffies timeout wait,
          catapult_wait_slot_event (kernel_wait_primitives interrupted msecs_to_jiffies) after 0
            { slot_index := s, timeout := timeout, wait := wait } = some (0, after))) ∧
    ((catapult_reset_slot_event idev 0 { slot_index := s }).1 = 0 ∧
      ((catapult_reset_slot_event idev 0 { slot_index := s }).2.event_obj s).done = 0 ∧
      ∀ interrupted msecs_to_jiffies,
        catapult_wait_slot_event (kernel_wait_primitives interrupted msecs_to_jiffies)
          (catapult_reset_slot_event idev 0 { slot_index := s }).2 0
          { slot_index := s, timeout := 0, wait := false } =
          some (-EWOULDBLOCK, (catapult_reset_slot_event idev 0 { slot_index := s }).2)) := by
  have hcomplete : catapult_complete_slot_event idev 0 { slot_index := s } =
      (0, { idev with
        event_obj := completion_store idev.event_obj s (complete (idev.event_obj s)) }) := by
    unfold catapult_complete_slot_event
    rw [if_neg (by simp), if_neg (by simp only [ge_iff_le, not_le]; exact hs)]
  have hreset : catapult_reset_slot_event idev 0 { slot_index := s } =
      (0, { idev with
        event_obj := completion_store idev.event_obj s
          (reinit_completion (idev.event_obj s)) }) := by
    unfold catapult_reset_slot_event
    rw [if_neg (by simp), if_neg (by simp only [ge_iff_le, not_le]; exact hs)]
  refine ⟨fun interrupted m2j copy_left input st after h =>
      wait_slot_event_observes idev interrupted m2j copy_left input st after h,
    ?_, fun hc hmem => ?_, fun hd => ⟨fun interrupted m2j timeout wait => ?_,
      fun rs after hall hrun => ?_⟩, ?_⟩
  · rw [hcomplete]
    refine ⟨rfl, ?_⟩
    show (completion_store idev.event_obj s (complete (idev.event_obj s)) s).done ≠ 0
    unfold completion_store
    rw [if_pos rfl]
    exact complete_done_ne_zero _
  · rw [catapult_interrupt_handler_event_obj, if_pos hc]
    exact signal_all_signals s _ _ hmem
  · exact wait_slot_event_signalled idev interrupted m2j
      { slot_index := s, timeout := timeout, wait := wait } hs hd
  · obtain ⟨k1, k2⟩ := device_run_keeps_signalled s rs idev after hd hall hrun
    refine ⟨k1, fun interrupted m2j timeout wait => ?_⟩
    exact wait_slot_event_signalled after interrupted m2j
      { slot_index := s, timeout := timeout, wait := wait } (by rw [k2]; exact hs) k1
  · rw [hreset]
    have hz : (completion_store idev.event_obj s (reinit_completion (idev.event_obj s)) s).done =
        0 := by
      unfold completion_store
      rw [if_pos rfl]
      rfl
    refine ⟨rfl, hz, fun interrupted m2j => ?_⟩
    unfold catapult_wait_slot_event
    rw [if_neg (by simp), if_neg (by simp only [ge_iff_le, not_le]; exact hs)]
    simp only [Bool.false_eq_true, if_false, kernel_wait_primitives, try_wait_for_completion,
      completion_store_self]
    rw [if_neg (by rw [decide_eq_true_eq]; exact not_not.mpr hz)]

/-- Claim C23 on a fresh device of four slots after one
`catapult_complete_slot_event` on slot 1: a non-blocking wait on slot 1 returns
0 and leaves the device as it was, and a second non-blocking wait after it
returns 0 again. -/
theorem completion_state_machine_witness :
    catapult_wait_slot_event (kernel_wait_primitives false id)
        (catapult_complete_slot_event (fresh_device 4) 0 { slot_index := 1 }).2 0
        { slot_index := 1, timeout := 0, wait := false } =
      some (0, (catapult_complete_slot_event (fresh_device 4) 0 { slot_index := 1 }).2) ∧
    ∀ after,
      device_run (catapult_complete_slot_event (fresh_device 4) 0 { slot_index := 1 }).2
        [.wait_slot_event (kernel_wait_primitives false id) 0
          { slot_index := 1, timeout := 0, wait := false }] = some after →
      catapult_wait_slot_event (kernel_wait_primitives false id) after 0
        { slot_index := 1, timeout := 0, wait := false } = some (0, after) :=
  ⟨((completion_state_machine
      (catapult_complete_slot_event (fresh_device 4) 0 { slot_index := 1 }).2 1
      (by decide)).2.2.2.1 (by decide)).1 false id 0 false,
    fun after h =>
      ((((completion_state_machine
        (catapult_complete_slot_event (fresh_device 4) 0 { slot_index := 1 }).2 1
        (by decide)).2.2.2.1 (by decide)).2 _ after
        (fun r hr => by
          rw [List.mem_singleton] at hr
          subst hr
          exact ⟨false, id, rfl⟩) h).2) false id 0 false⟩


/-- What the modelled timed wait reports: never `-ETIMEDOUT`, and it leaves
the completion as it was. -/
theorem timed_wait_result (interrupted : Bool) (x : completion) (timeout : Nat) :
    (wait_for_completion_interruptible_timeout interrupted x timeout).1 ≠ -ETIMEDOUT ∧
    (wait_for_completion_interruptible_timeout interrupted x timeout).2 = x := by
  unfold wait_for_completion_interruptible_timeout
  have hT : (ETIMEDOUT : Int) = 110 := rfl
  have hR : (ERESTARTSYS : Int) = 512 := rfl
  split_ifs
  all_goals refine ⟨?_, rfl⟩
  all_goals simp only [hT, hR]
  all_goals omega

/-- Claim C24. The result mapping of `catapult_wait_slot_event` for a slot
index below the slot count and a record that was copied in. With `wait` false
it returns at once, 0 if `try_wait_for_completion` reports the completion
signalled and `-EWOULDBLOCK` otherwise; with the kernel primitive that is 0
exactly when the completion is signalled. With `wait` true and a timeout other
than 0 it calls the timed primitive with `msecs_to_jiffies(timeout)` and
returns `-ETIMEDOUT` when the primitive reports 0, 0 when it reports a positive
value, and a negative value unchanged; `-ETIMEDOUT` is returned exactly when
the primitive reports 0, for every primitive that does not itself report
`-ETIMEDOUT`, the kernel's among them. With `wait` true and timeout 0 it calls
the untimed primitive and returns what and when that returns. -/
theorem wait_result_mapping (prims : wait_primitives) (idev : catapult_device)
    (input : catapult_wait_slot_event_info)
    (hs : input.slot_index < idev.number_of_slots) :
    (input.wait = false →
      catapult_wait_slot_event prims idev 0 input =
        some (if (prims.try_wait_for_completion (idev.event_obj input.slot_index)).1 then 0
            else -EWOULDBLOCK,
          { idev with
            event_obj := completion_store idev.event_obj input.slot_index
              (prims.try_wait_for_completion (idev.event_obj input.slot_index)).2 })) ∧
    (∀ interrupted msecs_to_jiffies, input.wait = false →
      catapult_wait_slot_event (kernel_wait_primitives interrupted msecs_to_jiffies) idev 0
        input =
        some (if (idev.event_obj input.slot_index).done ≠ 0 then 0 else -EWOULDBLOCK, idev)) ∧
    (input.wait = true → input.timeout ≠ 0 →
      ∃ st, catapult_wait_slot_event prims idev 0 input =
          some (st, { idev with
            event_obj := completion_store idev.event_obj input.slot_index
              (prims.wait_for_completion_interruptible_timeout
                (idev.event_obj input.slot_index) (prims.msecs_to_jiffies input.timeout)).2 }) ∧
        ((prims.wait_for_completion_interruptible_timeout (idev.event_obj input.slot_index)
            (prims.msecs_to_jiffies input.timeout)).1 = 0 → st = -ETIMEDOUT) ∧
        ((prims.wait_for_completion_interruptible_timeout (idev.event_obj input.slot_index)
            (prims.msecs_to_jiffies input.timeout)).1 > 0 → st = 0) ∧
        ((prims.wait_for_completion_interruptible_timeout (idev.event_obj input.slot_index)
            (prims.msecs_to_jiffies input.timeout)).1 < 0 →
          st = (prims.wait_for_completion_interruptible_timeout
            (idev.event_obj input.slot_index) (prims.msecs_to_jiffies input.timeout)).1) ∧
        ((prims.wait_for_completion_interruptible_timeout (idev.event_obj input.slot_index)
            (prims.msecs_to_jiffies input.timeout)).1 ≠ -ETIMEDOUT →
          (st = -ETIMEDOUT ↔
            (prims.wait_for_completion_interruptible_timeout (idev.event_obj input.slot_index)
              (prims.msecs_to_jiffies input.timeout)).1 = 0))) ∧
    (∀ interrupted msecs_to_jiffies, input.wait = true → input.timeout ≠ 0 →
      ∃ st, catapult_wait_slot_event (kernel_wait_primitives interrupted msecs_to_jiffies) idev
          0 input = some (st, idev) ∧
        (st = -ETIMEDOUT ↔
          (wait_for_completion_interruptible_timeout interrupted
            (idev.event_obj input.slot_index) (msecs_to_jiffies input.timeout)).1 = 0)) ∧
    (input.wait = true → input.timeout = 0 →
      catapult_wait_slot_event prims idev 0 input =
        (prims.wait_for_completion_interruptible (idev.event_obj input.slot_index)).map
          (fun r => (r.1, { idev with
            event_obj := completion_store idev.event_obj input.slot_index r.2 }))) := by
  obtain ⟨m1, m2, m3⟩ := wait_slot_event_mapping prims idev input hs
  refine ⟨m1, fun interrupted m2j hw => ?_, m2, fun interrupted m2j hw ht => ?_, m3⟩
  · rw [(wait_slot_event_mapping (kernel_wait_primitives interrupted m2j) idev input hs).1 hw]
    simp only [kernel_wait_primitives, try_wait_for_completion, completion_store_self,
      decide_eq_true_eq]
  · obtain ⟨st, heq, -, -, -, hiff⟩ :=
      (wait_slot_event_mapping (kernel_wait_primitives interrupted m2j) idev input hs).2.1 hw ht
    obtain ⟨t1, t2⟩ := timed_wait_result interrupted (idev.event_obj input.slot_index)
      (m2j input.timeout)
    refine ⟨st, ?_, hiff t1⟩
    rw [heq]
    simp only [kernel_wait_primitives, t2, completion_store_self]

/-- Claim C24 on a fresh device of four slots, where no completion is
signalled: the non-blocking wait on slot 1 returns `-EWOULDBLOCK`, and the wait
with a timeout of 5 ms returns `-ETIMEDOUT` exactly when the timed primitive
reports 0. -/
theorem wait_result_mapping_witness :
    catapult_wait_slot_event (kernel_wait_primitives false id) (fresh_device 4) 0
        { slot_index := 1, timeout := 0, wait := false } =
      some (-EWOULDBLOCK, fresh_device 4) ∧
    ∃ st, catapult_wait_slot_event (kernel_wait_primitives false id) (fresh_device 4) 0
        { slot_index := 1, timeout := 5, wait := true } = some (st, fresh_device 4) ∧
      (st = -ETIMEDOUT ↔
        (wait_for_completion_interruptible_timeout false ((fresh_device 4).event_obj 1)
          (id 5)).1 = 0) :=
  ⟨(wait_result_mapping (kernel_wait_primitives false id) (fresh_device 4)
      { slot_index := 1, timeout := 0, wait := false } (by decide)).2.1 false id rfl,
    (wait_result_mapping (kernel_wait_primitives false id) (fresh_device 4)
      { slot_index := 1, timeout := 5, wait := true } (by decide)).2.2.2.1 false id rfl
      (by decide)⟩

/-! ## Feature discovery -/

/-- The state after `n + 1` iterations is the state after `n` iterations,
advanced once. -/
theorem dfh_iterate_succ (idev : catapult_device) :
    ∀ n st, dfh_iterate idev (n + 1) st = dfh_advance idev (dfh_iterate idev n st) := by
  intro n
  induction n with
  | zero => intro st; rfl
  | succ k ih =>
    intro st
    show dfh_iterate idev (k + 1) (dfh_advance idev st) = _
    rw [ih]
    rfl

/-- A walk that returns has ended after fewer iterations than it was
allowed. -/
theorem dfh_walk_ends (idev : catapult_device) (g : Nat × Nat) :
    ∀ fuel st r, dfh_walk idev g fuel st = some r → ∃ n, n < fuel ∧ dfh_ends idev g n st r := by
  intro fuel
  induction fuel with
  | zero =>
    intro st r h
    cases h
  | succ f ih =>
    intro st r h
    unfold dfh_walk at h
    by_cases hc : dfh_continues st.dfh_header = true
    · rw [if_pos hc] at h
      simp only [] at h
      by_cases hm : (dfh_advance idev st).read_guid = g
      · rw [if_pos hm] at h
        simp only [Option.some.injEq] at h
        exact ⟨0, Nat.succ_pos _, fun k hk => absurd hk (Nat.not_lt_zero k),
          Or.inr ⟨hc, hm, h.symm⟩⟩
      · rw [if_neg hm] at h
        obtain ⟨n, hn, hall, hend⟩ := ih _ r h
        refine ⟨n + 1, Nat.succ_lt_succ hn, fun k hk => ?_, hend⟩
        cases k with
        | zero => exact ⟨hc, hm⟩
        | succ j => exact hall j (by omega)
    · rw [if_neg hc] at h
      simp only [Option.some.injEq] at h
      exact ⟨0, Nat.succ_pos _, fun k hk => absurd hk (Nat.not_lt_zero k),
        Or.inl ⟨by simpa using hc, h.symm⟩⟩

/-- A walk whose chain ends after `n` iterations returns as soon as it is
allowed more than `n`. -/
theorem dfh_walk_of_ends (idev : catapult_device) (g : Nat × Nat) :
    ∀ n st r fuel, n < fuel → dfh_ends idev g n st r → dfh_walk idev g fuel st = some r := by
  intro n
  induction n with
  | zero =>
    intro st r fuel hf h
    obtain ⟨-, hend⟩ := h
    obtain ⟨f, rfl⟩ : ∃ f, fuel = f + 1 := ⟨fuel - 1, by omega⟩
    unfold dfh_walk
    rcases hend with ⟨hc, hr⟩ | ⟨hc, hm, hr⟩
    · rw [if_neg (by rw [show dfh_iterate idev 0 st = st from rfl] at hc; simp [hc]), hr]
      rfl
    · have hc1 : dfh_continues st.dfh_header = true := hc
      have hm1 : (dfh_advance idev st).read_guid = g := hm
      rw [if_pos hc1]
      simp only []
      rw [if_pos hm1, hr]
      rfl
  | succ m ih =>
    intro st r fuel hf h
    obtain ⟨hall, hend⟩ := h
    obtain ⟨f, rfl⟩ : ∃ f, fuel = f + 1 := ⟨fuel - 1, by omega⟩
    obtain ⟨hc, hm⟩ := hall 0 (Nat.succ_pos _)
    have hc1 : dfh_continues st.dfh_header = true := hc
    have hm1 : (dfh_advance idev st).read_guid ≠ g := hm
    unfold dfh_walk
    rw [if_pos hc1]
    simp only []
    rw [if_neg hm1]
    exact ih (dfh_advance idev st) r f (by omega) ⟨fun k hk => hall (k + 1) (by omega), hend⟩


/-- A read of a feature header register that lies in the BAR at an aligned
offset returns what the device holds there and is logged. -/
theorem catapult_read_dfh_register_ok (idev : catapult_device) (offset value : Nat)
    (h1 : offset < idev.registers_cb) (h2 : offset % 8 = 0) :
    catapult_read_dfh_register idev offset value =
      (0, idev.registers.content64 offset % 2 ^ 64,
        { idev.registers with accesses := idev.registers.accesses ++ [.readq offset] }) := by
  unfold catapult_read_dfh_register
  simp only []
  rw [if_neg (by omega), if_neg (by omega)]
  rfl

/-- One iteration of the walk when the header it moves to lies in the BAR,
aligned, together with its identifier: the header and the identifier are read
there. -/
theorem dfh_advance_ok (idev : catapult_device) (st : dfh_walk_state) (o : Nat)
    (ho : (st.offset + dfh_afu_offset st.dfh_header % 2 ^ 32) % 2 ^ 32 = o)
    (hcb : o + 0x18 ≤ 2 ^ 32) (hin : o + 0x18 ≤ idev.registers_cb)
    (hal : o % 8 = 0) :
    dfh_advance idev st =
      { dfh_header := st.registers.content64 o % 2 ^ 64, offset := o,
        read_guid := (st.registers.content64 (o + 0x08) % 2 ^ 64,
          st.registers.content64 (o + 0x10) % 2 ^ 64),
        registers := { st.registers with
          accesses := st.registers.accesses ++ [.readq o] ++ [.readq (o + 0x08)] ++
            [.readq (o + 0x10)] } } := by
  have h8 : (o + DFH_FEATURE_GUID_OFFSET_LOWER) % 2 ^ 32 = o + 0x08 := by
    unfold DFH_FEATURE_GUID_OFFSET_LOWER
    omega
  have h16 : (o + DFH_FEATURE_GUID_OFFSET_HIGHER) % 2 ^ 32 = o + 0x10 := by
    unfold DFH_FEATURE_GUID_OFFSET_HIGHER
    omega
  unfold dfh_advance
  simp only [ho, h8, h16]
  rw [catapult_read_dfh_register_ok _ o _ (by show o < idev.registers_cb; omega) hal]
  simp only []
  rw [catapult_read_dfh_register_ok _ (o + 0x08) _ (by show o + 8 < idev.registers_cb; omega)
    (by omega)]
  simp only []
  rw [catapult_read_dfh_register_ok _ (o + 0x10) _ (by show o + 16 < idev.registers_cb; omega)
    (by omega)]

/-- The state at the loop when the base header is read and lies in the BAR. -/
theorem dfh_initial_ok (idev : catapult_device) (ha : idev.avoid_hip1_access = false)
    (hcb : 0 < idev.registers_cb) :
    dfh_initial idev =
      { dfh_header := idev.registers.content64 0 % 2 ^ 64, offset := 0, read_guid := (0, 0),
        registers := { idev.registers with
          accesses := idev.registers.accesses ++ [.readq 0] } } := by
  unfold dfh_initial
  rw [catapult_read_dfh_register_ok idev 0 0 hcb (by decide)]
  simp only [ha, if_true]

/-- The end-of-list field is one bit. -/
theorem dfh_afu_eol_le (h : Nat) : dfh_afu_eol h ≤ 1 := by
  unfold dfh_afu_eol
  rw [Nat.and_one_is_mod]
  have := Nat.mod_lt (h >>> 40) (show 0 < 2 by norm_num)
  omega

/-- The loop condition fails exactly at a header with the end-of-list flag set
or a type tag outside the open interval between `DFH_TYPE_NOT_SUPPORTED` and
`DFH_TYPE_MAX`. -/
theorem dfh_continues_false_iff (h : Nat) :
    dfh_continues h = false ↔
      dfh_afu_eol h = 1 ∨ dfh_afu_type h ≤ DFH_TYPE_NOT_SUPPORTED ∨
        DFH_TYPE_MAX ≤ dfh_afu_type h := by
  have he := dfh_afu_eol_le h
  unfold dfh_continues
  rw [decide_eq_false_iff_not]
  simp only [DFH_TYPE_NOT_SUPPORTED, DFH_TYPE_MAX]
  omega

/-- On the device whose every register reads as a header of type 4 with the
end-of-list flag clear and distance 0, the walk for an identifier other than
the one the registers show never ends. -/
theorem looping_walk_none :
    ∀ fuel (guid : Nat × Nat) (accesses : List mmio_access),
      dfh_walk looping_device (1, 2) fuel
        { dfh_header := 0x4000000000000000, offset := 0, read_guid := guid,
          registers :=
            { content32 := fun _ => 0, content64 := fun _ => 0x4000000000000000,
              accesses := accesses } } = none := by
  intro fuel
  induction fuel with
  | zero => intro guid accesses; rfl
  | succ f ih =>
    intro guid accesses
    have hadv : dfh_advance looping_device
        { dfh_header := 0x4000000000000000, offset := 0, read_guid := guid,
          registers :=
            { content32 := fun _ => 0, content64 := fun _ => 0x4000000000000000,
              accesses := accesses } } =
        { dfh_header := 0x4000000000000000, offset := 0,
          read_guid := (0x4000000000000000, 0x4000000000000000),
          registers :=
            { content32 := fun _ => 0, content64 := fun _ => 0x4000000000000000,
              accesses := accesses ++ [.readq 0] ++ [.readq 8] ++ [.readq 0x10] } } :=
      dfh_advance_ok looping_device _ 0
        (show (0 + dfh_afu_offset 0x4000000000000000 % 2 ^ 32) % 2 ^ 32 = 0 by decide)
        (by decide) (by decide) (by decide)
    unfold dfh_walk
    rw [if_pos (show dfh_continues 0x4000000000000000 = true by decide)]
    simp only []
    rw [hadv, if_neg (show ¬ ((0x4000000000000000, 0x4000000000000000) : Nat × Nat) = (1, 2)
      by decide)]
    exact ih _ _

/-- Claim C26, the code on a register space whose every 64-bit register reads
`0x4000000000000000`, a header of type 4 with the end-of-list flag clear and
distance 0 to the next header, in a BAR of `0x1000` bytes, for the identifier
`(1, 2)`: the walk reads the same header again and again; however many
iterations it is allowed, `catapult_get_dfh_offset` has not returned. -/
theorem dfh_walk_loops_forever :
    dfh_afu_type 0x4000000000000000 = 4 ∧ dfh_afu_eol 0x4000000000000000 = 0 ∧
    dfh_afu_offset 0x4000000000000000 = 0 ∧
    ∀ fuel, catapult_get_dfh_offset looping_device (1, 2) fuel = none := by
  refine ⟨by decide, by decide, by decide, fun fuel => ?_⟩
  have hinit : dfh_initial looping_device =
      { dfh_header := 0x4000000000000000, offset := 0, read_guid := (0, 0),
        registers :=
          { content32 := fun _ => 0, content64 := fun _ => 0x4000000000000000,
            accesses := [.readq 0] } } := by
    rw [dfh_initial_ok looping_device rfl (by decide)]
    rfl
  unfold catapult_get_dfh_offset
  rw [hinit]
  exact looping_walk_none fuel _ _

/-- Claim C26 as amended. `catapult_get_dfh_offset` returns exactly when the
headers it visits reach, after finitely many iterations, a header at which the
loop condition fails (end-of-list flag set, or type tag not strictly between
`DFH_TYPE_NOT_SUPPORTED` and `DFH_TYPE_MAX`) or a header that carries the
identifier: if it returns within `fuel` iterations, the walk has ended in one
of these two ways after fewer than `fuel` iterations, with 0 in the first case
and the offset of the matching header in the second; and if the walk ends so
after `n` iterations, the function returns as soon as it is allowed more than
`n`. Nothing bounds the walk otherwise. -/
theorem dfh_walk_termination (idev : catapult_device) (feature_guid : Nat × Nat) :
    (∀ fuel r, catapult_get_dfh_offset idev feature_guid fuel = some r →
      ∃ n, n < fuel ∧ dfh_ends idev feature_guid n (dfh_initial idev) r) ∧
    (∀ n r, dfh_ends idev feature_guid n (dfh_initial idev) r →
      ∀ fuel, n < fuel → catapult_get_dfh_offset idev feature_guid fuel = some r) ∧
    (∀ h, dfh_continues h = false ↔
      dfh_afu_eol h = 1 ∨ dfh_afu_type h ≤ DFH_TYPE_NOT_SUPPORTED ∨
        DFH_TYPE_MAX ≤ dfh_afu_type h) :=
  ⟨fun fuel r h => dfh_walk_ends idev feature_guid fuel (dfh_initial idev) r h,
    fun n r h fuel hf => dfh_walk_of_ends idev feature_guid n (dfh_initial idev) r fuel hf h,
    dfh_continues_false_iff⟩


/-- The bit fields of a header in arithmetic. -/
theorem dfh_fields_eq (h : Nat) :
    dfh_afu_offset h = (h / 2 ^ 16) % 2 ^ 24 ∧ dfh_afu_type h = header_type h ∧
    dfh_afu_eol h = header_eol h := by
  have h24 : (0xFFFFFF : Nat) = 2 ^ 24 - 1 := by norm_num
  have h4 : (0xF : Nat) = 2 ^ 4 - 1 := by norm_num
  refine ⟨?_, ?_, ?_⟩
  · unfold dfh_afu_offset
    rw [h24, Nat.and_pow_two_sub_one_eq_mod, Nat.shiftRight_eq_div_pow]
  · unfold dfh_afu_type header_type
    rw [h4, Nat.and_pow_two_sub_one_eq_mod, Nat.shiftRight_eq_div_pow]
  · unfold dfh_afu_eol header_eol
    rw [Nat.and_one_is_mod, Nat.shiftRight_eq_div_pow]

/-- The search finds nothing where no header carries the identifier. -/
theorem reference_dfh_scan_none (registers : register_space) (g : Nat × Nat) :
    ∀ cnt k, (∀ j, k ≤ j → j < k + cnt → chain_guid registers j ≠ g) →
      reference_dfh_scan registers g cnt k = 0 := by
  intro cnt
  induction cnt with
  | zero => intro k _; rfl
  | succ c ih =>
    intro k h
    unfold reference_dfh_scan
    rw [if_neg (h k (le_refl _) (by omega))]
    exact ih (k + 1) (fun j h1 h2 => h j (by omega) (by omega))

/-- The search returns the offset of the first header that carries the
identifier. -/
theorem reference_dfh_scan_first (registers : register_space) (g : Nat × Nat) :
    ∀ cnt k m, k ≤ m → m < k + cnt → chain_guid registers m = g →
      (∀ j, k ≤ j → j < m → chain_guid registers j ≠ g) →
      reference_dfh_scan registers g cnt k = chain_offset registers m := by
  intro cnt
  induction cnt with
  | zero => intro k m h1 h2; omega
  | succ c ih =>
    intro k m h1 h2 hm hfirst
    unfold reference_dfh_scan
    by_cases hk : k = m
    · subst hk
      rw [if_pos hm]
    · rw [if_neg (hfirst k (le_refl _) (by omega))]
      exact ih (k + 1) m (by omega) (by omega) hm (fun j h3 h4 => hfirst j (by omega) h4)

/-- On a chain the walk can follow to its end, the walk from header number `k`
returns what the reference search through the headers after `k` returns. -/
theorem dfh_walk_chain (idev : catapult_device) (g : Nat × Nat) (n : Nat)
    (hwf : well_formed_chain idev n) :
    ∀ cnt k (st : dfh_walk_state), k + cnt = n →
      st.dfh_header = chain_header idev.registers k →
      st.offset = chain_offset idev.registers k →
      st.registers.content64 = idev.registers.content64 →
      ∀ fuel, cnt < fuel →
        ∃ regs, dfh_walk idev g fuel st =
          some (reference_dfh_scan idev.registers g cnt (k + 1), regs) := by
  obtain ⟨hin, hmid, hlast⟩ := hwf
  intro cnt
  induction cnt with
  | zero =>
    intro k st hk hh ho hc fuel hf
    obtain ⟨f, rfl⟩ : ∃ f, fuel = f + 1 := ⟨fuel - 1, by omega⟩
    have hkn : k = n := by omega
    subst hkn
    have hstop : dfh_continues st.dfh_header = false := by
      rw [hh, dfh_continues_false_iff]
      obtain ⟨-, e2, e3⟩ := dfh_fields_eq (chain_header idev.registers k)
      rw [e2, e3]
      simp only [DFH_TYPE_NOT_SUPPORTED, DFH_TYPE_MAX]
      omega
    unfold dfh_walk
    rw [if_neg (by simp [hstop])]
    exact ⟨_, rfl⟩
  | succ c ih =>
    intro k st hk hh ho hc fuel hf
    obtain ⟨f, rfl⟩ : ∃ f, fuel = f + 1 := ⟨fuel - 1, by omega⟩
    obtain ⟨t1, t2, t3⟩ := hmid k (by omega)
    obtain ⟨e1, e2, e3⟩ := dfh_fields_eq (chain_header idev.registers k)
    have hcont : dfh_continues st.dfh_header = true := by
      rw [hh]
      unfold dfh_continues
      rw [decide_eq_true_eq, e2, e3]
      simp only [DFH_TYPE_NOT_SUPPORTED, DFH_TYPE_MAX]
      omega
    obtain ⟨a1, a2, a3⟩ := hin (k + 1) (by omega)
    have hnext : chain_offset idev.registers (k + 1) =
        chain_offset idev.registers k + dfh_afu_offset (chain_header idev.registers k) := by
      rw [e1]
      rfl
    have ho1 : (st.offset + dfh_afu_offset st.dfh_header % 2 ^ 32) % 2 ^ 32 =
        chain_offset idev.registers (k + 1) := by
      rw [hh, ho, hnext]
      have hlt : dfh_afu_offset (chain_header idev.registers k) < 2 ^ 24 := by
        rw [e1]
        exact Nat.mod_lt _ (by norm_num)
      rw [hnext] at a3
      omega
    have hadv := dfh_advance_ok idev st (chain_offset idev.registers (k + 1)) ho1 a3 a2 a1
    unfold dfh_walk
    rw [if_pos hcont]
    simp only []
    rw [hadv]
    simp only [hc]
    unfold reference_dfh_scan
    by_cases hm : chain_guid idev.registers (k + 1) = g
    · rw [if_pos hm, if_pos (show (idev.registers.content64
          (chain_offset idev.registers (k + 1) + 0x08) % 2 ^ 64,
        idev.registers.content64 (chain_offset idev.registers (k + 1) + 0x10) % 2 ^ 64) = g
        from hm)]
      exact ⟨_, rfl⟩
    · rw [if_neg hm, if_neg (show ¬ (idev.registers.content64
          (chain_offset idev.registers (k + 1) + 0x08) % 2 ^ 64,
        idev.registers.content64 (chain_offset idev.registers (k + 1) + 0x10) % 2 ^ 64) = g
        from hm)]
      refine ih (k + 1) _ ?_ ?_ ?_ ?_ f ?_
      · omega
      · rfl
      · rfl
      · rfl
      · omega


/-- With `avoid_hip1_access` set the base header is not read and the discovery
returns 0 without a register access. -/
theorem dfh_offset_avoid (idev : catapult_device) (g : Nat × Nat) (fuel : Nat)
    (ha : idev.avoid_hip1_access = true) :
    catapult_get_dfh_offset idev g (fuel + 1) = some (0, idev.registers) := by
  have hinit : dfh_initial idev =
      { dfh_header := 0, offset := 0, read_guid := (0, 0), registers := idev.registers } := by
    unfold dfh_initial
    simp only [ha, Bool.true_eq_false, if_false]
  unfold catapult_get_dfh_offset
  rw [hinit]
  unfold dfh_walk
  rw [if_neg (show ¬ dfh_continues 0 = true by decide)]

/-- Claim C25. Feature discovery equals the reference on well-formed chains:
for every device whose base header is read (`avoid_hip1_access` clear) and
whose header chain from offset 0 has `n + 1` headers the walk can follow to its
end, and for every identifier `g`, `catapult_get_dfh_offset` returns, as soon
as it is allowed more than `n` iterations, the reference offset: 0 if the type
tag of the base header is not strictly between 0 and 5 or if no header after
the base carries `g`, and otherwise the offset of the first header after the
base whose identifier at `+0x08` and `+0x10` is `g`. -/
theorem dfh_offset_matches_reference (idev : catapult_device) (n : Nat)
    (hwf : well_formed_chain idev n) (ha : idev.avoid_hip1_access = false) (g : Nat × Nat) :
    (∀ fuel, n < fuel →
      ∃ regs, catapult_get_dfh_offset idev g fuel =
        some (reference_dfh_offset idev.registers g n, regs)) ∧
    (¬ (0 < header_type (chain_header idev.registers 0) ∧
        header_type (chain_header idev.registers 0) < 5) →
      reference_dfh_offset idev.registers g n = 0) ∧
    ((∀ k, 1 ≤ k → k ≤ n → chain_guid idev.registers k ≠ g) →
      reference_dfh_offset idev.registers g n = 0) ∧
    (∀ k, 1 ≤ k → k ≤ n → chain_guid idev.registers k = g →
      (∀ j, 1 ≤ j → j < k → chain_guid idev.registers j ≠ g) →
      reference_dfh_offset idev.registers g n = chain_offset idev.registers k) := by
  refine ⟨fun fuel hf => ?_, fun hbase => ?_, fun hnone => ?_, fun k h1 h2 hk hfirst => ?_⟩
  · have h0 := (hwf.1 0 (Nat.zero_le _)).2.1
    have hc0 : chain_offset idev.registers 0 = 0 := rfl
    unfold catapult_get_dfh_offset
    rw [dfh_initial_ok idev ha (by omega)]
    exact dfh_walk_chain idev g n hwf n 0 _ (by omega) rfl rfl rfl fuel hf
  · have hn : n = 0 := by
      by_contra hne
      obtain ⟨t1, t2, -⟩ := hwf.2.1 0 (by omega)
      exact hbase ⟨t1, t2⟩
    subst hn
    rfl
  · exact reference_dfh_scan_none idev.registers g n 1 (fun j h1 h2 => hnone j h1 (by omega))
  · exact reference_dfh_scan_first idev.registers g n 1 k h1 (by omega) hk hfirst

/-- Claim C25 on the chain of three headers at 0, `0x100` and `0x300`: the
identifier `(0x33, 0x44)` of the last header is found at `0x300`, and an
identifier no header carries gives 0. -/
theorem dfh_offset_matches_reference_witness :
    (∃ regs, catapult_get_dfh_offset chain_device (0x33, 0x44) 3 = some (0x300, regs)) ∧
    (∃ regs, catapult_get_dfh_offset chain_device (0x55, 0x66) 3 = some (0, regs)) :=
  ⟨(dfh_offset_matches_reference chain_device 2 (by unfold well_formed_chain; decide) rfl
      (0x33, 0x44)).1 3 (by decide),
    (dfh_offset_matches_reference chain_device 2 (by unfold well_formed_chain; decide) rfl
      (0x55, 0x66)).1 3 (by decide)⟩

end Catapult
